import Mathlib

/-!
# Q-C2M2 Policy Aligner: scoring, gap classification and mapping service

A shallow embedding of the server routes of the repository

* `src/server/database/database.js` (tables),
* `src/server/routes/analysis.js` (gap matrix, domain coverage, areas of concern),
* `src/server/routes/reports.js` (comprehensive, gap-analysis, recommendations),
* `src/server/routes/mappings.js` (create, update, delete of mappings),
* `src/server/routes/documents.js` (upload filter, `splitTextIntoSections`, delete),
* `src/server/routes/auth.js` (`verifyAdmin`, the user routes, POST /register),
* `src/server/index.js` (error handling middleware).

Tables are lists of rows.  A SQL query is embedded clause by clause
(FROM / JOIN, WHERE, GROUP BY, HAVING, ORDER BY, SELECT).  SQL `NULL` is `none`.
SQLite REAL values and JavaScript numbers are embedded as exact rationals, so
`x * 1.0` is `x * 1`, `x * 0.5` is `x * (1/2)`, and `ROUND(x, 2)` / `toFixed(2)`
round the exact value to hundredths, half away from zero; the rounding error of
binary floating point is not part of the embedding.

The list of document ids of a request is the list that
`document_ids.split(',').map(id => parseInt(id.trim()))` produces; an entry that
does not parse to a row id matches no document, like an id that no document has.
-/

namespace QC2M2

/-! ## Tables (`database.js`) -/

/-- Row of `users`. -/
structure User where
  id : Nat
  username : String
  email : String
  password_hash : String
  role : String
  created_at : Nat
deriving DecidableEq, Repr

/-- Row of `documents`. -/
structure Document where
  id : Nat
  filename : String
  original_name : String
  file_path : String
  file_type : String
  file_size : Nat
  source : Option String
  publication_date : Option String
  relevant_agency : Option String
  uploaded_by : Nat
  created_at : Nat
deriving DecidableEq, Repr

/-- Row of `qc2m2_domains`. -/
structure Domain where
  id : Nat
  domain_name : String
  domain_code : String
  description : Option String
  maturity_levels : String
deriving DecidableEq, Repr

/-- Name resolution of `qd.<name>` for a TEXT column of `qc2m2_domains`: the
reader of the column, or `none` when `CREATE TABLE qc2m2_domains` of
`database.js` creates no column of that name. SQLite then rejects the whole
statement with `no such column`, before it reads a row. -/
def Domain.textColumn (name : String) : Option (Domain → Option String) :=
  if name = "domain_name" then some fun qd => some qd.domain_name
  else if name = "domain_code" then some fun qd => some qd.domain_code
  else if name = "description" then some fun qd => qd.description
  else if name = "maturity_levels" then some fun qd => some qd.maturity_levels
  else none

/-- The columns that `CREATE TABLE users` of `database.js` creates. -/
def usersColumns : List String :=
  ["id", "username", "email", "password_hash", "role", "created_at"]

/-- Row of `document_sections`. -/
structure Section where
  id : Nat
  document_id : Nat
  section_text : String
  section_start : Int
  section_end : Int
  created_at : Nat
deriving DecidableEq, Repr

/-- Row of `mappings`. -/
structure Mapping where
  id : Nat
  document_id : Nat
  section_id : Option Nat
  domain_id : Nat
  maturity_level : Nat
  alignment_status : String
  notes : Option String
  mapped_by : Nat
  created_at : Nat
deriving DecidableEq, Repr

/-- Row of `stakeholder_insights`. -/
structure StakeholderInsight where
  id : Nat
  title : String
  content : String
  stakeholder_name : Option String
  insight_type : String
  related_mapping_id : Option Nat
  created_by : Nat
  created_at : Nat
deriving DecidableEq, Repr

/-- Row of `tags`. -/
structure Tag where
  id : Nat
  name : String
  color : String
  created_at : Nat
deriving DecidableEq, Repr

/-- Row of `section_tags`. -/
structure SectionTag where
  id : Nat
  section_id : Nat
  tag_id : Nat
  created_at : Nat
deriving DecidableEq, Repr

/-- The database: one list of rows per table, and the AUTOINCREMENT counters of
`mappings`, `documents` and `document_sections` (the largest row id handed out
so far). -/
structure DB where
  users : List User
  documents : List Document
  qc2m2_domains : List Domain
  document_sections : List Section
  mappings : List Mapping
  stakeholder_insights : List StakeholderInsight
  tags : List Tag
  section_tags : List SectionTag
  mappingSeq : Nat
  documentSeq : Nat := 0
  sectionSeq : Nat := 0
deriving DecidableEq, Repr

/-! ## SQL building blocks -/

/-- `left LEFT JOIN right ON cond`: every left row with each matching right row,
or once with `NULL` when no right row matches. -/
def leftJoin {α β : Type} (left : List α) (right : List β) (cond : α → β → Bool) :
    List (α × Option β) :=
  left.flatMap fun a =>
    match right.filter (cond a) with
    | [] => [(a, none)]
    | b :: bs => (b :: bs).map fun b => (a, some b)

/-- `left CROSS JOIN right`. -/
def crossJoin {α β : Type} (left : List α) (right : List β) : List (α × β) :=
  left.flatMap fun a => right.map fun b => (a, b)

/-- A group of `GROUP BY`: `rep` is a row of the group, from which the bare
(non aggregated) columns are read; `rows` are all rows of the group. -/
structure Group (α : Type) where
  rep : α
  rows : List α

/-- `GROUP BY key`: one group per distinct key value; no group is empty. -/
def groupBy {α κ : Type} [DecidableEq κ] (key : α → κ) (rows : List α) : List (Group α) :=
  (rows.map key).dedup.filterMap fun k =>
    match rows.filter (fun r => decide (key r = k)) with
    | [] => none
    | r :: rs => some ⟨r, r :: rs⟩

/-- `ORDER BY`, as a stable sort for the order `le`. -/
def orderBy {α : Type} (le : α → α → Bool) (rows : List α) : List α :=
  rows.insertionSort (fun a b => le a b = true)

/-- `NULLIF(a, b)`. -/
def NULLIF (a b : Nat) : Option Nat := if a = b then none else some a

/-- Rounding of an exact value to two decimals, half away from zero: the value
of SQLite `ROUND(x, 2)` and of JavaScript `parseFloat(x.toFixed(2))`. -/
def round2 (x : ℚ) : ℚ :=
  if x < 0 then -(((⌊(-x) * 100 + 1 / 2⌋ : ℤ) : ℚ) / 100)
  else ((⌊x * 100 + 1 / 2⌋ : ℤ) : ℚ) / 100

/-- `ROUND(v, 2)` with `NULL` propagated. -/
def ROUND2 (v : Option ℚ) : Option ℚ := v.map round2

/-- SQL `v < c` used as a condition: true only when `v` is not `NULL`. -/
def sqlLt (v : Option ℚ) (c : ℚ) : Bool :=
  match v with
  | none => false
  | some x => decide (x < c)

/-- SQLite ascending order on a nullable number: `NULL` sorts first. -/
def nullsFirstLe (a b : Option ℚ) : Bool :=
  match a, b with
  | none, _ => true
  | some _, none => false
  | some x, some y => decide (x ≤ y)

/-- SQLite ascending order on a nullable text: `NULL` sorts first. -/
def nullsFirstLeText (a b : Option String) : Bool :=
  match a, b with
  | none, _ => true
  | some _, none => false
  | some x, some y => decide (x ≤ y)

/-! ## Joined rows and aggregates shared by `analysis.js` and `reports.js` -/

/-- A row of `qc2m2_domains qd` joined with `mappings m` and `documents d`. -/
structure JoinRow where
  qd : Domain
  m : Option Mapping
  d : Option Document
deriving DecidableEq, Repr

/-- `FROM qc2m2_domains qd LEFT JOIN mappings m ON qd.id = m.domain_id
LEFT JOIN documents d ON m.document_id = d.id`. -/
def domainsMappingsDocuments (db : DB) : List JoinRow :=
  (leftJoin (leftJoin db.qc2m2_domains db.mappings fun qd m => qd.id == m.domain_id)
      db.documents fun qm d =>
        match qm.2 with
        | some m => m.document_id == d.id
        | none => false).map fun x => ⟨x.1.1, x.1.2, x.2⟩

/-- `FROM qc2m2_domains qd CROSS JOIN documents d
LEFT JOIN mappings m ON qd.id = m.domain_id AND d.id = m.document_id`. -/
def domainsCrossDocumentsMappings (db : DB) : List JoinRow :=
  (leftJoin (crossJoin db.qc2m2_domains db.documents) db.mappings fun qdd m =>
      qdd.1.id == m.domain_id && qdd.2.id == m.document_id).map
    fun x => ⟨x.1.1, x.2, some x.1.2⟩

/-- `d.id IN (docIds)`; `NULL IN (...)` is not true. -/
def inDocIds (docIds : List Nat) (r : JoinRow) : Bool :=
  match r.d with
  | some d => docIds.contains d.id
  | none => false

/-- The optional `AND d.id IN (...)` of `analysis.js`, present only when the
request has a `document_ids` parameter. -/
def extraFilter (document_ids : Option (List Nat)) (r : JoinRow) : Bool :=
  match document_ids with
  | none => true
  | some docIds => inDocIds docIds r

/-- `COUNT(m.id)` over a group. -/
def countMappingIds (g : List JoinRow) : Nat :=
  g.countP fun r => r.m.isSome

/-- `SUM(CASE WHEN m.alignment_status = status THEN 1 ELSE 0 END)` over a group. -/
def sumStatus (status : String) (g : List JoinRow) : Nat :=
  (g.map fun r =>
    match r.m with
    | some m => if m.alignment_status = status then 1 else 0
    | none => 0).sum

/-- `AVG(m.maturity_level)` over a group: `NULL` when no row has a mapping. -/
def avgMaturityLevel (g : List JoinRow) : Option ℚ :=
  match g.filterMap (fun r => r.m.map fun m => m.maturity_level) with
  | [] => none
  | x :: xs => some ((((x :: xs).sum : Nat) : ℚ) / (((x :: xs).length : Nat) : ℚ))

/-- The unrounded percentage expression
`(SUM(fully) * 1.0 + SUM(partially) * 0.5) / NULLIF(COUNT(m.id), 0) * 100`. -/
def alignmentExpr (g : List JoinRow) : Option ℚ :=
  match NULLIF (countMappingIds g) 0 with
  | none => none
  | some c =>
    some (((sumStatus "fully_aligned" g : ℚ) * 1
      + (sumStatus "partially_aligned" g : ℚ) * (1 / 2)) / (c : ℚ) * 100)

/-- The `alignment_percentage` column: `ROUND(alignmentExpr, 2)`. -/
def alignmentPercentage (g : List JoinRow) : Option ℚ :=
  ROUND2 (alignmentExpr g)

/-- `req.query.framework || "C2M2"`: the value bound to the `framework`
parameter of the queries of `analysis.js`. -/
def frameworkParam (framework : Option String) : String :=
  match framework with
  | some s => if s = "" then "C2M2" else s
  | none => "C2M2"

/-! ## Responses -/

/-- Outcome of a request handler: `res.status(status).json(body)` for a result,
or `res.status(status).json({ error })` for a failure. -/
inductive Response (α : Type) where
  | json (status : Nat) (body : α)
  | error (status : Nat) (error : String)
deriving DecidableEq, Repr

/-! ## `analysis.js`

Every query of `analysis.js` says `WHERE qd.framework = ?`. A query is embedded
as a function of `frameworkOf`, the reader of the column `qd.framework`; the
handler gets the reader from name resolution, and answers 500 from its `catch`
when the table has no such column. -/

/-- Row of GET /gap-matrix. -/
structure MatrixRow where
  domain_name : String
  domain_code : String
  document_id : Option Nat
  document_name : Option String
  relevant_agency : Option String
  total_mappings : Nat
  fully_aligned : Nat
  partially_aligned : Nat
  not_aligned : Nat
  avg_maturity_level : Option ℚ
  coverage_status : String
deriving DecidableEq, Repr

/-- The `CASE ... END as coverage_status` of GET /gap-matrix. -/
def coverageStatus (g : List JoinRow) : String :=
  if countMappingIds g = 0 then "no_coverage"
  else if sumStatus "fully_aligned" g > 0 then "strong_coverage"
  else if sumStatus "partially_aligned" g > 0 then "partial_coverage"
  else "weak_coverage"

/-- SELECT list of GET /gap-matrix for one group. -/
def matrixRowOf (g : Group JoinRow) : MatrixRow :=
  { domain_name := g.rep.qd.domain_name
    domain_code := g.rep.qd.domain_code
    document_id := g.rep.d.map fun d => d.id
    document_name := g.rep.d.map fun d => d.original_name
    relevant_agency := g.rep.d.bind fun d => d.relevant_agency
    total_mappings := countMappingIds g.rows
    fully_aligned := sumStatus "fully_aligned" g.rows
    partially_aligned := sumStatus "partially_aligned" g.rows
    not_aligned := sumStatus "not_aligned" g.rows
    avg_maturity_level := avgMaturityLevel g.rows
    coverage_status := coverageStatus g.rows }

/-- The rows that the query of GET /gap-matrix groups: FROM, JOIN and WHERE
(`qd.framework = ?` is not true for a `NULL` column). -/
def gapMatrixRows (db : DB) (frameworkOf : Domain → Option String) (framework : String)
    (document_ids : Option (List Nat)) : List JoinRow :=
  (domainsCrossDocumentsMappings db).filter fun r =>
    frameworkOf r.qd == some framework && extraFilter document_ids r

/-- The query of GET /gap-matrix: `GROUP BY qd.id, d.id ORDER BY qd.id, d.original_name`. -/
def gapMatrixQuery (db : DB) (frameworkOf : Domain → Option String) (framework : String)
    (document_ids : Option (List Nat)) : List MatrixRow :=
  (orderBy (fun a b : Group JoinRow =>
      decide (a.rep.qd.id < b.rep.qd.id) ||
        (a.rep.qd.id == b.rep.qd.id &&
          nullsFirstLeText (a.rep.d.map fun d => d.original_name)
            (b.rep.d.map fun d => d.original_name)))
    (groupBy (fun r : JoinRow => (r.qd.id, r.d.map fun d => d.id))
      (gapMatrixRows db frameworkOf framework document_ids))).map matrixRowOf

/-- GET /gap-matrix; `framework` is `req.query.framework`. The promise of
`query` rejects when the statement names a column that the table lacks, and the
`catch` answers 500. -/
def gapMatrix (db : DB) (framework : Option String) (document_ids : Option (List Nat)) :
    Response (List MatrixRow) :=
  match Domain.textColumn "framework" with
  | none => .error 500 "Failed to generate gap matrix"
  | some frameworkOf =>
    .json 200 (gapMatrixQuery db frameworkOf (frameworkParam framework) document_ids)

/-- Row of GET /domain-coverage and of the per-domain queries of `reports.js`. -/
structure CoverageRow where
  domain_name : String
  domain_code : String
  description : Option String
  total_mappings : Nat
  fully_aligned : Nat
  partially_aligned : Nat
  not_aligned : Nat
  avg_maturity_level : Option ℚ
  alignment_percentage : Option ℚ
deriving DecidableEq, Repr

/-- SELECT list of the per-domain coverage queries for one group. -/
def coverageRowOf (g : Group JoinRow) : CoverageRow :=
  { domain_name := g.rep.qd.domain_name
    domain_code := g.rep.qd.domain_code
    description := g.rep.qd.description
    total_mappings := countMappingIds g.rows
    fully_aligned := sumStatus "fully_aligned" g.rows
    partially_aligned := sumStatus "partially_aligned" g.rows
    not_aligned := sumStatus "not_aligned" g.rows
    avg_maturity_level := avgMaturityLevel g.rows
    alignment_percentage := alignmentPercentage g.rows }

/-- The rows that the per-domain queries of `analysis.js` group:
`WHERE qd.framework = ?` and the optional `AND d.id IN (...)`. -/
def analysisRows (db : DB) (frameworkOf : Domain → Option String) (framework : String)
    (document_ids : Option (List Nat)) : List JoinRow :=
  (domainsMappingsDocuments db).filter fun r =>
    frameworkOf r.qd == some framework && extraFilter document_ids r

/-- `ORDER BY qd.id` on groups. -/
def byDomainId (a b : Group JoinRow) : Bool := decide (a.rep.qd.id ≤ b.rep.qd.id)

/-- The query of GET /domain-coverage: `GROUP BY qd.id ORDER BY qd.id`. -/
def domainCoverageQuery (db : DB) (frameworkOf : Domain → Option String) (framework : String)
    (document_ids : Option (List Nat)) : List CoverageRow :=
  (orderBy byDomainId
    (groupBy (fun r : JoinRow => r.qd.id)
      (analysisRows db frameworkOf framework document_ids))).map coverageRowOf

/-- GET /domain-coverage; `framework` is `req.query.framework`. -/
def domainCoverage (db : DB) (framework : Option String) (document_ids : Option (List Nat)) :
    Response (List CoverageRow) :=
  match Domain.textColumn "framework" with
  | none => .error 500 "Failed to generate domain coverage"
  | some frameworkOf =>
    .json 200 (domainCoverageQuery db frameworkOf (frameworkParam framework) document_ids)

/-- Row of GET /areas-of-concern (no `avg_maturity_level` column). -/
structure ConcernRow where
  domain_name : String
  domain_code : String
  description : Option String
  total_mappings : Nat
  fully_aligned : Nat
  partially_aligned : Nat
  not_aligned : Nat
  alignment_percentage : Option ℚ
deriving DecidableEq, Repr

/-- SELECT list of GET /areas-of-concern for one group. -/
def concernRowOf (g : Group JoinRow) : ConcernRow :=
  { domain_name := g.rep.qd.domain_name
    domain_code := g.rep.qd.domain_code
    description := g.rep.qd.description
    total_mappings := countMappingIds g.rows
    fully_aligned := sumStatus "fully_aligned" g.rows
    partially_aligned := sumStatus "partially_aligned" g.rows
    not_aligned := sumStatus "not_aligned" g.rows
    alignment_percentage := alignmentPercentage g.rows }

/-- The query of GET /areas-of-concern: `GROUP BY qd.id HAVING
alignment_percentage < 50 ORDER BY alignment_percentage ASC`. -/
def areasOfConcernQuery (db : DB) (frameworkOf : Domain → Option String) (framework : String)
    (document_ids : Option (List Nat)) : List ConcernRow :=
  orderBy (fun a b : ConcernRow => nullsFirstLe a.alignment_percentage b.alignment_percentage)
    (((groupBy (fun r : JoinRow => r.qd.id)
      (analysisRows db frameworkOf framework document_ids)).map concernRowOf).filter
      fun r => sqlLt r.alignment_percentage 50)

/-- GET /areas-of-concern; `framework` is `req.query.framework`. -/
def areasOfConcern (db : DB) (framework : Option String) (document_ids : Option (List Nat)) :
    Response (List ConcernRow) :=
  match Domain.textColumn "framework" with
  | none => .error 500 "Failed to generate areas of concern"
  | some frameworkOf =>
    .json 200 (areasOfConcernQuery db frameworkOf (frameworkParam framework) document_ids)

/-! ## `reports.js` -/

/-- The key of `GROUP BY qd.id, qd.domain_name, qd.domain_code, qd.description`. -/
def reportKey (r : JoinRow) : Nat × String × String × Option String :=
  (r.qd.id, r.qd.domain_name, r.qd.domain_code, r.qd.description)

/-- The rows that the per-domain queries of `reports.js` group:
`WHERE d.id IN (docIds)`. -/
def reportRows (db : DB) (docIds : List Nat) : List JoinRow :=
  (domainsMappingsDocuments db).filter (inDocIds docIds)

/-- The groups of the per-domain queries of `reports.js`. -/
def reportGroups (db : DB) (docIds : List Nat) : List (Group JoinRow) :=
  groupBy reportKey (reportRows db docIds)

/-- Row of the `documents` query of GET /comprehensive. -/
structure DocumentInfo where
  id : Nat
  original_name : String
  relevant_agency : Option String
  publication_date : Option String
  created_at : Nat
deriving DecidableEq, Repr

/-- The `documents` query of GET /comprehensive. -/
def reportDocuments (db : DB) (docIds : List Nat) : List DocumentInfo :=
  (orderBy (fun a b : Document => decide (a.original_name ≤ b.original_name))
    (db.documents.filter fun d => docIds.contains d.id)).map fun d =>
    { id := d.id, original_name := d.original_name, relevant_agency := d.relevant_agency
      publication_date := d.publication_date, created_at := d.created_at }

/-- The `domainCoverage` query of GET /comprehensive: `ORDER BY qd.id`. -/
def reportDomainCoverage (db : DB) (docIds : List Nat) : List CoverageRow :=
  (orderBy byDomainId (reportGroups db docIds)).map coverageRowOf

/-- A row of `mappings m` joined with `documents d`, `qc2m2_domains qd`,
`document_sections ds` and `users u`. -/
structure DetailJoin where
  m : Mapping
  d : Option Document
  qd : Option Domain
  ds : Option Section
  u : Option User
deriving DecidableEq, Repr

/-- `FROM mappings m LEFT JOIN documents d ON m.document_id = d.id
LEFT JOIN qc2m2_domains qd ON m.domain_id = qd.id
LEFT JOIN document_sections ds ON m.section_id = ds.id
LEFT JOIN users u ON m.mapped_by = u.id`. -/
def mappingsJoined (db : DB) : List DetailJoin :=
  (leftJoin
    (leftJoin
      (leftJoin
        (leftJoin db.mappings db.documents fun m d => m.document_id == d.id)
        db.qc2m2_domains fun x qd => x.1.domain_id == qd.id)
      db.document_sections fun x ds => x.1.1.section_id == some ds.id)
    db.users fun x u => x.1.1.1.mapped_by == u.id).map fun x =>
    ⟨x.1.1.1.1, x.1.1.1.2, x.1.1.2, x.1.2, x.2⟩

/-- Row of the `mappings` query of GET /comprehensive. -/
structure DetailRow where
  id : Nat
  document_name : Option String
  domain_name : Option String
  domain_code : Option String
  maturity_level : Nat
  alignment_status : String
  notes : Option String
  section_text : Option String
  mapped_by_name : Option String
  created_at : Nat
deriving DecidableEq, Repr

/-- SELECT list of the `mappings` query of GET /comprehensive. -/
def detailRowOf (x : DetailJoin) : DetailRow :=
  { id := x.m.id
    document_name := x.d.map fun d => d.original_name
    domain_name := x.qd.map fun qd => qd.domain_name
    domain_code := x.qd.map fun qd => qd.domain_code
    maturity_level := x.m.maturity_level
    alignment_status := x.m.alignment_status
    notes := x.m.notes
    section_text := x.ds.map fun ds => ds.section_text
    mapped_by_name := x.u.map fun u => u.username
    created_at := x.m.created_at }

/-- `ORDER BY d.original_name, qd.domain_name, m.created_at`. -/
def detailOrder (a b : DetailJoin) : Bool :=
  let an := a.d.map fun d => d.original_name
  let bn := b.d.map fun d => d.original_name
  let aq := a.qd.map fun qd => qd.domain_name
  let bq := b.qd.map fun qd => qd.domain_name
  if an = bn then
    if aq = bq then decide (a.m.created_at ≤ b.m.created_at)
    else nullsFirstLeText aq bq
  else nullsFirstLeText an bn

/-- The `mappings` query of GET /comprehensive: `WHERE d.id IN (docIds)`. -/
def detailedMappings (db : DB) (docIds : List Nat) : List DetailRow :=
  (orderBy detailOrder
    ((mappingsJoined db).filter fun x =>
      match x.d with
      | some d => docIds.contains d.id
      | none => false)).map detailRowOf

/-- The `HAVING alignment_percentage < 50 OR COUNT(m.id) = 0` of `reports.js`. -/
def havingConcern (r : CoverageRow) : Bool :=
  sqlLt r.alignment_percentage 50 || r.total_mappings == 0

/-- The `areasOfConcern` query of GET /comprehensive:
`ORDER BY alignment_percentage ASC, qd.domain_name`. -/
def reportAreasOfConcern (db : DB) (docIds : List Nat) : List CoverageRow :=
  orderBy (fun a b : CoverageRow =>
      if a.alignment_percentage = b.alignment_percentage then
        decide (a.domain_name ≤ b.domain_name)
      else nullsFirstLe a.alignment_percentage b.alignment_percentage)
    (((reportGroups db docIds).map coverageRowOf).filter havingConcern)

/-- The number of rows of `mappings` with the given `alignment_status`
(`mappings.filter(m => m.alignment_status === status).length`). -/
def countStatus (status : String) (mappings : List DetailRow) : Nat :=
  (mappings.filter fun m => m.alignment_status == status).length

/-- The `overallAlignmentScore` of GET /comprehensive, after `parseFloat`:
`totalMappings > 0 ? ((fullyAligned + partiallyAligned * 0.5) / totalMappings * 100).toFixed(2) : 0`. -/
def overallAlignmentScore (mappings : List DetailRow) : ℚ :=
  let totalMappings := mappings.length
  let fullyAligned := countStatus "fully_aligned" mappings
  let partiallyAligned := countStatus "partially_aligned" mappings
  if totalMappings > 0 then
    round2 (((fullyAligned : ℚ) + (partiallyAligned : ℚ) * (1 / 2)) / (totalMappings : ℚ) * 100)
  else 0

/-- The `metadata` object of the comprehensive report (without `generated_at`). -/
structure ReportMetadata where
  documents_analyzed : Nat
  total_mappings : Nat
  overall_alignment_score : ℚ
deriving DecidableEq, Repr

/-- The `summary` object of the comprehensive report. -/
structure ReportSummary where
  total_mappings : Nat
  fully_aligned : Nat
  partially_aligned : Nat
  not_aligned : Nat
  overall_alignment_score : ℚ
  domains_with_concerns : Nat
deriving DecidableEq, Repr

/-- The comprehensive report object. -/
structure ComprehensiveReport where
  metadata : ReportMetadata
  documents : List DocumentInfo
  domain_coverage : List CoverageRow
  detailed_mappings : List DetailRow
  areas_of_concern : List CoverageRow
  summary : ReportSummary
deriving DecidableEq, Repr

/-- The identifiers that are bound where the handler of GET /comprehensive
evaluates the `report` object literal: module constants, handler parameters,
the `const` declarations of the handler, and the globals it uses. -/
def comprehensiveBound : List String :=
  ["express", "query", "router", "req", "res", "document_ids", "format", "docIds",
   "placeholders", "documents", "domainCoverage", "mappings", "areasOfConcern",
   "totalMappings", "fullyAligned", "partiallyAligned", "notAligned",
   "overallAlignmentScore", "Date", "parseFloat"]

/-- The identifiers that the `report` object literal of GET /comprehensive
reads, in evaluation order; `total_mappings` is the shorthand property of
`summary`. -/
def comprehensiveReads : List String :=
  ["Date", "documents", "totalMappings", "parseFloat", "overallAlignmentScore",
   "documents", "domainCoverage", "mappings", "areasOfConcern",
   "total_mappings", "fullyAligned", "partiallyAligned", "notAligned",
   "parseFloat", "overallAlignmentScore", "areasOfConcern"]

/-- The first identifier read that is not bound: reading it throws a
`ReferenceError`. -/
def referenceError (bound reads : List String) : Option String :=
  reads.find? fun x => !bound.contains x

/-- GET /comprehensive. `document_ids` is the list of ids parsed from the
query parameter, `none` when the parameter is absent or empty. -/
def comprehensive (db : DB) (document_ids : Option (List Nat)) :
    Response ComprehensiveReport :=
  match document_ids with
  | none => .error 400 "document_ids parameter is required"
  | some docIds =>
    let documents := reportDocuments db docIds
    let domainCoverage := reportDomainCoverage db docIds
    let mappings := detailedMappings db docIds
    let areasOfConcern := reportAreasOfConcern db docIds
    let totalMappings := mappings.length
    let fullyAligned := countStatus "fully_aligned" mappings
    let partiallyAligned := countStatus "partially_aligned" mappings
    let notAligned := countStatus "not_aligned" mappings
    match referenceError comprehensiveBound comprehensiveReads with
    | some _ => .error 500 "Failed to generate comprehensive report"
    | none =>
      .json 200
        { metadata :=
            { documents_analyzed := documents.length
              total_mappings := totalMappings
              overall_alignment_score := overallAlignmentScore mappings }
          documents := documents
          domain_coverage := domainCoverage
          detailed_mappings := mappings
          areas_of_concern := areasOfConcern
          summary :=
            { total_mappings := totalMappings
              fully_aligned := fullyAligned
              partially_aligned := partiallyAligned
              not_aligned := notAligned
              overall_alignment_score := overallAlignmentScore mappings
              domains_with_concerns := areasOfConcern.length } }

/-- Row of GET /gap-analysis. -/
structure GapRow where
  domain_name : String
  domain_code : String
  description : Option String
  total_mappings : Nat
  fully_aligned : Nat
  partially_aligned : Nat
  not_aligned : Nat
  avg_maturity_level : Option ℚ
  alignment_percentage : Option ℚ
  gap_status : String
deriving DecidableEq, Repr

/-- The `CASE ... END as gap_status` of GET /gap-analysis; its conditions use
the unrounded percentage expression. -/
def gapStatus (g : List JoinRow) : String :=
  if countMappingIds g = 0 then "No Coverage"
  else if sqlLt (alignmentExpr g) 25 then "Critical Gap"
  else if sqlLt (alignmentExpr g) 50 then "Significant Gap"
  else if sqlLt (alignmentExpr g) 75 then "Minor Gap"
  else "Adequate Coverage"

/-- SELECT list of GET /gap-analysis for one group. -/
def gapRowOf (g : Group JoinRow) : GapRow :=
  { domain_name := g.rep.qd.domain_name
    domain_code := g.rep.qd.domain_code
    description := g.rep.qd.description
    total_mappings := countMappingIds g.rows
    fully_aligned := sumStatus "fully_aligned" g.rows
    partially_aligned := sumStatus "partially_aligned" g.rows
    not_aligned := sumStatus "not_aligned" g.rows
    avg_maturity_level := avgMaturityLevel g.rows
    alignment_percentage := alignmentPercentage g.rows
    gap_status := gapStatus g.rows }

/-- The `CASE gap_status WHEN ... END` of the ORDER BY of GET /gap-analysis. -/
def gapRank (gap_status : String) : Nat :=
  if gap_status = "No Coverage" then 1
  else if gap_status = "Critical Gap" then 2
  else if gap_status = "Significant Gap" then 3
  else if gap_status = "Minor Gap" then 4
  else 5

/-- The ORDER BY of GET /gap-analysis: severity rank, then
`alignment_percentage ASC`. -/
def gapOrder (a b : GapRow) : Bool :=
  decide (gapRank a.gap_status < gapRank b.gap_status) ||
    (gapRank a.gap_status == gapRank b.gap_status &&
      nullsFirstLe a.alignment_percentage b.alignment_percentage)

/-- The `gapAnalysis` query of GET /gap-analysis. -/
def gapAnalysisQuery (db : DB) (docIds : List Nat) : List GapRow :=
  orderBy gapOrder ((reportGroups db docIds).map gapRowOf)

/-- The `summary` object of GET /gap-analysis. -/
structure GapSummary where
  total_domains : Nat
  no_coverage : Nat
  critical_gaps : Nat
  significant_gaps : Nat
  minor_gaps : Nat
  adequate_coverage : Nat
deriving DecidableEq, Repr

/-- The body of GET /gap-analysis. -/
structure GapReport where
  gap_analysis : List GapRow
  summary : GapSummary
deriving DecidableEq, Repr

/-- The number of rows with the given gap status
(`gapAnalysis.filter(g => g.gap_status === status).length`). -/
def countGapStatus (status : String) (rows : List GapRow) : Nat :=
  (rows.filter fun g => g.gap_status == status).length

/-- GET /gap-analysis. -/
def gapAnalysis (db : DB) (document_ids : Option (List Nat)) : Response GapReport :=
  match document_ids with
  | none => .error 400 "document_ids parameter is required"
  | some docIds =>
    let gapAnalysis := gapAnalysisQuery db docIds
    .json 200
      { gap_analysis := gapAnalysis
        summary :=
          { total_domains := gapAnalysis.length
            no_coverage := countGapStatus "No Coverage" gapAnalysis
            critical_gaps := countGapStatus "Critical Gap" gapAnalysis
            significant_gaps := countGapStatus "Significant Gap" gapAnalysis
            minor_gaps := countGapStatus "Minor Gap" gapAnalysis
            adequate_coverage := countGapStatus "Adequate Coverage" gapAnalysis } }

/-- Row of the `lowAlignmentDomains` query of GET /recommendations. -/
structure LowAlignmentRow where
  domain_name : String
  domain_code : String
  description : Option String
  total_mappings : Nat
  alignment_percentage : Option ℚ
deriving DecidableEq, Repr

/-- SELECT list of the `lowAlignmentDomains` query for one group. -/
def lowAlignmentRowOf (g : Group JoinRow) : LowAlignmentRow :=
  { domain_name := g.rep.qd.domain_name
    domain_code := g.rep.qd.domain_code
    description := g.rep.qd.description
    total_mappings := countMappingIds g.rows
    alignment_percentage := alignmentPercentage g.rows }

/-- The `lowAlignmentDomains` query of GET /recommendations:
`HAVING alignment_percentage < 50 OR COUNT(m.id) = 0 ORDER BY alignment_percentage ASC`. -/
def lowAlignmentDomains (db : DB) (docIds : List Nat) : List LowAlignmentRow :=
  orderBy (fun a b : LowAlignmentRow =>
      nullsFirstLe a.alignment_percentage b.alignment_percentage)
    (((reportGroups db docIds).map lowAlignmentRowOf).filter fun r =>
      sqlLt r.alignment_percentage 50 || r.total_mappings == 0)

/-- JavaScript `v < c` for a number or `null`: `null` converts to `0`. -/
def jsLt (v : Option ℚ) (c : ℚ) : Bool :=
  match v with
  | none => decide (0 < c)
  | some x => decide (x < c)

/-- Entry of the `recommendations` array. -/
structure Recommendation where
  domain_name : String
  domain_code : String
  description : Option String
  alignment_percentage : Option ℚ
  total_mappings : Nat
  recommendation : String
  priority : String
deriving DecidableEq, Repr

/-- The callback of `lowAlignmentDomains.map` in GET /recommendations
(`toLowerCase` is embedded as `String.toLower`). -/
def recommend (domain : LowAlignmentRow) : Recommendation :=
  let texts : String × String :=
    if domain.total_mappings = 0 then
      ("Develop comprehensive policies and procedures for " ++ domain.domain_name.toLower ++
        " domain. Consider establishing dedicated cybersecurity frameworks and governance structures.",
       "High")
    else if jsLt domain.alignment_percentage 25 then
      ("Strengthen existing " ++ domain.domain_name.toLower ++
        " policies. Review current implementations and enhance coverage for critical areas.",
       "High")
    else if jsLt domain.alignment_percentage 50 then
      ("Improve alignment in " ++ domain.domain_name.toLower ++
        " domain. Identify specific gaps and develop targeted improvements.",
       "Medium")
    else ("", "")
  { domain_name := domain.domain_name
    domain_code := domain.domain_code
    description := domain.description
    alignment_percentage := domain.alignment_percentage
    total_mappings := domain.total_mappings
    recommendation := texts.1
    priority := texts.2 }

/-- The `summary` object of GET /recommendations. -/
structure RecommendationSummary where
  total_recommendations : Nat
  high_priority : Nat
  medium_priority : Nat
deriving DecidableEq, Repr

/-- The body of GET /recommendations. -/
structure RecommendationReport where
  recommendations : List Recommendation
  summary : RecommendationSummary
deriving DecidableEq, Repr

/-- GET /recommendations. -/
def recommendations (db : DB) (document_ids : Option (List Nat)) :
    Response RecommendationReport :=
  match document_ids with
  | none => .error 400 "document_ids parameter is required"
  | some docIds =>
    let recommendations := (lowAlignmentDomains db docIds).map recommend
    .json 200
      { recommendations := recommendations
        summary :=
          { total_recommendations := recommendations.length
            high_priority := (recommendations.filter fun r => r.priority == "High").length
            medium_priority := (recommendations.filter fun r => r.priority == "Medium").length } }

/-! ## `mappings.js` -/

/-- A property of a JSON request body as the handler sees it after
destructuring: absent, `null`, or a value. -/
inductive Field (α : Type) where
  | undefined
  | null
  | value (a : α)
deriving DecidableEq, Repr

/-- JavaScript `!x` for a numeric property: `undefined`, `null` and `0` are falsy. -/
def Field.falsyNat : Field Nat → Bool
  | .undefined => true
  | .null => true
  | .value n => n == 0

/-- JavaScript `!x` for a string property: `undefined`, `null` and `""` are falsy. -/
def Field.falsyString : Field String → Bool
  | .undefined => true
  | .null => true
  | .value s => s == ""

/-- JavaScript `x || null` for a numeric property, as a SQL parameter. -/
def Field.orNullNat : Field Nat → Option Nat
  | .value n => if n = 0 then none else some n
  | _ => none

/-- JavaScript `x || null` for a string property, as a SQL parameter. -/
def Field.orNullString : Field String → Option String
  | .value s => if s = "" then none else some s
  | _ => none

/-- The value of a property that passed the `!x` test. -/
def Field.getD {α : Type} (dflt : α) : Field α → α
  | .value a => a
  | _ => dflt

/-- The `validStatuses` array. -/
def validStatuses : List String := ["fully_aligned", "partially_aligned", "not_aligned"]

/-- SQL `column = ?` on a nullable column: true only when neither side is
`NULL` and both are equal. -/
def sqlEq (a b : Option Nat) : Bool :=
  match a, b with
  | some x, some y => x == y
  | _, _ => false

/-- Body of POST /api/mappings. -/
structure CreateBody where
  document_id : Field Nat
  section_id : Field Nat
  domain_id : Field Nat
  maturity_level : Field Nat
  alignment_status : Field String
  notes : Field String
deriving DecidableEq, Repr

/-- The constraints of table `mappings` on one row, with `PRAGMA foreign_keys = ON`:
the four foreign keys and the CHECK on `alignment_status`. -/
def mappingConstraints (db : DB) (m : Mapping) : Bool :=
  db.documents.any (fun d => d.id == m.document_id) &&
  (match m.section_id with
    | none => true
    | some sid => db.document_sections.any fun ds => ds.id == sid) &&
  db.qc2m2_domains.any (fun qd => qd.id == m.domain_id) &&
  db.users.any (fun u => u.id == m.mapped_by) &&
  validStatuses.contains m.alignment_status

/-- The row id that AUTOINCREMENT gives to the next row of `mappings`. -/
def nextMappingId (db : DB) : Nat :=
  (db.mappings.map fun m => m.id).foldl max db.mappingSeq + 1

/-- `INSERT INTO mappings (...) VALUES (...)`: `none` when a constraint fails
(the promise of `run` rejects), otherwise the new database and `result.id`. -/
def insertMapping (db : DB) (document_id : Nat) (section_id : Option Nat) (domain_id : Nat)
    (maturity_level : Nat) (alignment_status : String) (notes : Option String)
    (mapped_by : Nat) (now : Nat) : Option (DB × Nat) :=
  let row : Mapping :=
    { id := nextMappingId db, document_id := document_id, section_id := section_id
      domain_id := domain_id, maturity_level := maturity_level
      alignment_status := alignment_status, notes := notes, mapped_by := mapped_by
      created_at := now }
  if mappingConstraints db row then
    some ({ db with mappings := db.mappings ++ [row], mappingSeq := row.id }, row.id)
  else none

/-- `SELECT m.* ... FROM mappings m ... WHERE m.id = ?` with `queryOne`: the
stored row (the joined display columns are left out). -/
def mappingById (db : DB) (id : Nat) : Option Mapping :=
  db.mappings.find? fun m => m.id == id

/-- POST /api/mappings. `user` is `req.user?.id`, `now` the value of
`CURRENT_TIMESTAMP`. Returns the database after the request and the response. -/
def createMapping (db : DB) (user : Option Nat) (now : Nat) (body : CreateBody) :
    DB × Response (Option Mapping) :=
  let mappedBy : Nat :=
    match user with
    | some u => if u = 0 then 1 else u
    | none => 1
  if body.document_id.falsyNat || body.domain_id.falsyNat || body.maturity_level.falsyNat
      || body.alignment_status.falsyString then
    (db, .error 400
      "Missing required fields: document_id, domain_id, maturity_level, alignment_status")
  else if !validStatuses.contains (body.alignment_status.getD "") then
    (db, .error 400
      "Invalid alignment_status. Must be one of: fully_aligned, partially_aligned, not_aligned")
  else
    let document_id := body.document_id.getD 0
    let domain_id := body.domain_id.getD 0
    let existingMapping := db.mappings.find? fun m =>
      m.document_id == document_id && sqlEq m.section_id body.section_id.orNullNat
        && m.domain_id == domain_id
    match existingMapping with
    | some _ =>
      (db, .error 409 "Mapping already exists for this document-section-domain combination")
    | none =>
      match insertMapping db document_id body.section_id.orNullNat domain_id
          (body.maturity_level.getD 0) (body.alignment_status.getD "")
          body.notes.orNullString mappedBy now with
      | none => (db, .error 500 "Failed to create mapping")
      | some (db1, id) => (db1, .json 201 (mappingById db1 id))

/-- Body of PUT /api/mappings/:id. -/
structure UpdateBody where
  domain_id : Field Nat
  maturity_level : Field Nat
  alignment_status : Field String
  notes : Field String
deriving DecidableEq, Repr

/-- `x !== undefined`. -/
def Field.defined {α : Type} : Field α → Bool
  | .undefined => false
  | _ => true

/-- The SET clause of PUT /:id applied to one row: each property that is not
`undefined` is assigned; `none` when a NOT NULL column would receive `null`. -/
def applyUpdate (body : UpdateBody) (m : Mapping) : Option Mapping :=
  let domain_id : Option Nat :=
    match body.domain_id with
    | .undefined => some m.domain_id
    | .null => none
    | .value v => some v
  let maturity_level : Option Nat :=
    match body.maturity_level with
    | .undefined => some m.maturity_level
    | .null => none
    | .value v => some v
  let alignment_status : Option String :=
    match body.alignment_status with
    | .undefined => some m.alignment_status
    | .null => none
    | .value v => some v
  let notes : Option String :=
    match body.notes with
    | .undefined => m.notes
    | .null => none
    | .value v => some v
  match domain_id, maturity_level, alignment_status with
  | some dom, some lvl, some st =>
    some { m with domain_id := dom, maturity_level := lvl, alignment_status := st, notes := notes }
  | _, _, _ => none

/-- `UPDATE mappings SET ... WHERE id = ?`: `none` when an updated row breaks
a constraint (the promise of `run` rejects), otherwise the new database. -/
def updateMappingRows (db : DB) (id : Nat) (body : UpdateBody) : Option DB :=
  let updated : List (Option Mapping) := db.mappings.map fun m =>
    if m.id = id then
      match applyUpdate body m with
      | some m1 => if mappingConstraints db m1 then some m1 else none
      | none => none
    else some m
  if updated.all fun x => x.isSome then
    some { db with mappings := updated.filterMap fun x => x }
  else none

/-- PUT /api/mappings/:id. -/
def updateMapping (db : DB) (id : Nat) (body : UpdateBody) :
    DB × Response (Option Mapping) :=
  if !body.alignment_status.falsyString
      && !validStatuses.contains (body.alignment_status.getD "") then
    (db, .error 400
      "Invalid alignment_status. Must be one of: fully_aligned, partially_aligned, not_aligned")
  else if !(body.domain_id.defined || body.maturity_level.defined
      || body.alignment_status.defined || body.notes.defined) then
    (db, .error 400 "No fields to update")
  else
    match updateMappingRows db id body with
    | none => (db, .error 500 "Failed to update mapping")
    | some db1 => (db1, .json 200 (mappingById db1 id))

/-- DELETE /api/mappings/:id. The delete fails on the foreign key of
`stakeholder_insights.related_mapping_id` when an insight refers to the row. -/
def deleteMapping (db : DB) (id : Nat) : DB × Response Unit :=
  if db.mappings.any (fun m => m.id == id) &&
      db.stakeholder_insights.any (fun s => s.related_mapping_id == some id) then
    (db, .error 500 "Failed to delete mapping")
  else if (db.mappings.filter fun m => m.id == id).length = 0 then
    (db, .error 404 "Mapping not found")
  else
    ({ db with mappings := db.mappings.filter fun m => !(m.id == id) }, .json 200 ())

/-- A request to the mapping service that can change the store. -/
inductive MappingRequest where
  | create (user : Option Nat) (now : Nat) (body : CreateBody)
  | update (id : Nat) (body : UpdateBody)
  | delete (id : Nat)
deriving DecidableEq, Repr

/-- The database after one request to the mapping service. -/
def MappingRequest.run (db : DB) : MappingRequest → DB
  | .create user now body => (createMapping db user now body).1
  | .update id body => (updateMapping db id body).1
  | .delete id => (deleteMapping db id).1

/-- The database after a sequence of requests to the mapping service. -/
def runRequests (db : DB) (reqs : List MappingRequest) : DB :=
  reqs.foldl MappingRequest.run db

/-- The triple that the duplicate check of POST / is about. -/
def Mapping.triple (m : Mapping) : Nat × Option Nat × Nat :=
  (m.document_id, m.section_id, m.domain_id)

/-! ## Definitions used to state the properties -/

/-- The key constraints of the schema that the aggregation relies on: `id` is
the primary key of `qc2m2_domains`, `documents`, `document_sections` and
`users`, and `mappings.document_id` refers to a row of `documents`. -/
def DB.wellFormed (db : DB) : Prop :=
  (db.qc2m2_domains.map fun qd => qd.id).Nodup ∧
  (db.documents.map fun d => d.id).Nodup ∧
  (db.document_sections.map fun ds => ds.id).Nodup ∧
  (db.users.map fun u => u.id).Nodup ∧
  ∀ m ∈ db.mappings, ∃ d ∈ db.documents, d.id = m.document_id

/-- Whether a mapping belongs to the document set of a request (every mapping
does when the request names no document set). -/
def inDocumentSet (document_ids : Option (List Nat)) (m : Mapping) : Bool :=
  match document_ids with
  | none => true
  | some docIds => docIds.contains m.document_id

/-- The mapping rows of one domain restricted to a document set. -/
def mappingsOf (db : DB) (domain_id : Nat) (document_ids : Option (List Nat)) : List Mapping :=
  db.mappings.filter fun m => m.domain_id == domain_id && inDocumentSet document_ids m

/-- The number of mappings with a given alignment status. -/
def statusCount (status : String) (ms : List Mapping) : Nat :=
  ms.countP fun m => m.alignment_status == status

/-- The formula of the specification:
`100 × (fully_aligned + 0.5 × partially_aligned) / total_mappings`. -/
def alignmentFormula (fully partially total : Nat) : ℚ :=
  100 * ((fully : ℚ) + (1 / 2) * (partially : ℚ)) / (total : ℚ)

/-- The number of rows of a group whose mapping satisfies `P`; a row without
mapping (`m` is `NULL`) does not count. -/
def countRows (P : Mapping → Bool) (g : List JoinRow) : Nat :=
  g.countP fun r => r.m.any P

/-- The document condition of `extraFilter`, on the `d` columns of a row. -/
def docOk (document_ids : Option (List Nat)) (d : Option Document) : Bool :=
  match document_ids with
  | none => true
  | some docIds =>
    match d with
    | some d => docIds.contains d.id
    | none => false

instance (db : DB) : Decidable db.wellFormed := by
  unfold DB.wellFormed
  infer_instance

/-- A result row with columns `code`, `total`, `fully`, `partially` and `pct`
reports domain `qd` over the mapping rows `ms`: the counts are the counts of
`ms`, and the percentage is `NULL` when `ms` is empty and otherwise the formula
of the specification rounded to two decimals. -/
def ReportsDomain (qd : Domain) (ms : List Mapping) (code : String)
    (total fully partially : Nat) (pct : Option ℚ) : Prop :=
  code = qd.domain_code ∧ total = ms.length ∧
  fully = statusCount "fully_aligned" ms ∧
  partially = statusCount "partially_aligned" ms ∧
  pct = if ms.length = 0 then none
    else some (round2 (alignmentFormula (statusCount "fully_aligned" ms)
      (statusCount "partially_aligned" ms) ms.length))

/-- The mapping rows of a document set, over all domains. -/
def documentSetMappings (db : DB) (docIds : List Nat) : List Mapping :=
  db.mappings.filter fun m => docIds.contains m.document_id

/-- The mapping rows of one (domain, document) cell of the gap matrix. -/
def cellMappings (db : DB) (domain_id document_id : Nat) : List Mapping :=
  db.mappings.filter fun m => m.domain_id == domain_id && m.document_id == document_id

/-! ## Example databases -/

/-- A framework domain of the seed data. -/
def seedDomain (id : Nat) (domain_name domain_code description : String) : Domain :=
  { id := id, domain_name := domain_name, domain_code := domain_code
    description := some description, maturity_levels := "1,2,3" }

/-- The five domains that `initDatabase` inserts. -/
def seedDomains : List Domain :=
  [seedDomain 1 "Understand" "UNDERSTAND" "Understanding cybersecurity risks and threats",
   seedDomain 2 "Secure" "SECURE" "Implementing security controls and measures",
   seedDomain 3 "Expose" "EXPOSE" "Detecting and identifying security incidents",
   seedDomain 4 "Recover" "RECOVER" "Responding to and recovering from incidents",
   seedDomain 5 "Sustain" "SUSTAIN" "Maintaining and improving cybersecurity capabilities"]

/-- The default admin user that `initializeDatabase` creates. -/
def adminUser : User :=
  { id := 1, username := "admin", email := "admin@qc2m2.com", password_hash := "hash"
    role := "admin", created_at := 0 }

/-- An uploaded text document. -/
def sampleDocument (id : Nat) (name : String) : Document :=
  { id := id, filename := name, original_name := name, file_path := name
    file_type := ".txt", file_size := 100, source := none, publication_date := none
    relevant_agency := none, uploaded_by := 1, created_at := 0 }

/-- A mapping of a whole document (no section) to a domain. -/
def sampleMapping (id document_id domain_id : Nat) (alignment_status : String) : Mapping :=
  { id := id, document_id := document_id, section_id := none, domain_id := domain_id
    maturity_level := 2, alignment_status := alignment_status, notes := none
    mapped_by := 1, created_at := id }

/-- The database after start-up and the upload of two documents, the first
with one section; no mapping yet. -/
def seedDB : DB :=
  { users := [adminUser]
    documents := [sampleDocument 1 "policy-a.txt", sampleDocument 2 "policy-b.txt"]
    qc2m2_domains := seedDomains
    document_sections :=
      [{ id := 1, document_id := 1, section_text := "Access is reviewed", section_start := 0
         section_end := 18, created_at := 0 }]
    mappings := []
    stakeholder_insights := []
    tags := []
    section_tags := []
    mappingSeq := 0 }

/-- Document 1 has three mappings to domain 1: one fully aligned, two not aligned. -/
def thirdsDB : DB :=
  { seedDB with
    mappings :=
      [sampleMapping 1 1 1 "fully_aligned", sampleMapping 2 1 1 "not_aligned",
       sampleMapping 3 1 1 "not_aligned"]
    mappingSeq := 3 }

/-- Document 1 has four mappings to domain 1 (two fully, two partially aligned),
four to domain 2 (one fully, three not aligned) and six to domain 3 (one fully,
five not aligned). -/
def thresholdDB : DB :=
  { seedDB with
    mappings :=
      [sampleMapping 1 1 1 "fully_aligned", sampleMapping 2 1 1 "fully_aligned",
       sampleMapping 3 1 1 "partially_aligned", sampleMapping 4 1 1 "partially_aligned",
       sampleMapping 5 1 2 "fully_aligned", sampleMapping 6 1 2 "not_aligned",
       sampleMapping 7 1 2 "not_aligned", sampleMapping 8 1 2 "not_aligned",
       sampleMapping 9 1 3 "fully_aligned", sampleMapping 10 1 3 "not_aligned",
       sampleMapping 11 1 3 "not_aligned", sampleMapping 12 1 3 "not_aligned",
       sampleMapping 13 1 3 "not_aligned", sampleMapping 14 1 3 "not_aligned"]
    mappingSeq := 14 }

/-- A request to map the whole of document 1 (no section) to domain 1. -/
def wholeDocumentBody : CreateBody :=
  { document_id := .value 1, section_id := .undefined, domain_id := .value 1
    maturity_level := .value 2, alignment_status := .value "fully_aligned"
    notes := .undefined }

/-- A request to map section 1 of document 1 to the given domain. -/
def sectionBody (domain_id : Nat) : CreateBody :=
  { document_id := .value 1, section_id := .value 1, domain_id := .value domain_id
    maturity_level := .value 2, alignment_status := .value "fully_aligned"
    notes := .undefined }

/-- A request to move a mapping to domain 1, leaving the other fields alone. -/
def moveToDomainOne : UpdateBody :=
  { domain_id := .value 1, maturity_level := .undefined, alignment_status := .undefined
    notes := .undefined }

/-! ## `documents.js` -/

/-- The characters that `String.prototype.trim` removes (code points of the
ECMAScript WhiteSpace and LineTerminator productions). -/
def isJsWhitespace (c : Char) : Bool :=
  [9, 10, 11, 12, 13, 32, 160, 5760, 8192, 8193, 8194, 8195, 8196, 8197, 8198, 8199, 8200,
   8201, 8202, 8232, 8233, 8239, 8287, 12288, 65279].contains c.toNat

/-- `s.trim()`. -/
def jsTrim (s : List Char) : List Char :=
  ((s.dropWhile isJsWhitespace).reverse.dropWhile isJsWhitespace).reverse

/-- The character class `[.!?]`. -/
def isTerminator (c : Char) : Bool := c == '.' || c == '!' || c == '?'

/-- `text.split(/[.!?]+/)` on the rest of a text; `inRun` tells that the
character before the rest is part of a run of terminators. -/
def splitAux : Bool → List Char → List (List Char)
  | _, [] => [[]]
  | inRun, c :: cs =>
    if isTerminator c then
      if inRun then splitAux true cs else [] :: splitAux true cs
    else
      match splitAux false cs with
      | [] => [[c]]
      | p :: ps => (c :: p) :: ps

/-- `text.split(/[.!?]+/)`. -/
def splitSentences (text : List Char) : List (List Char) := splitAux false text

/-- The first index `k`, counted from `k0`, at which `search` starts in the
rest of a text, or `-1`. -/
def findFrom (search : List Char) : List Char → Nat → Int
  | [], k0 => if search.isEmpty then (k0 : Int) else -1
  | c :: t, k0 => if search.isPrefixOf (c :: t) then (k0 : Int) else findFrom search t (k0 + 1)

/-- `text.indexOf(search, position)`: the position is clamped to the text. -/
def indexOf (text search : List Char) (position : Int) : Int :=
  let start : Nat := min position.toNat text.length
  findFrom search (text.drop start) start

/-- An element of the array that `splitTextIntoSections` returns. -/
structure TextSection where
  text : String
  start : Int
  end_ : Int
deriving DecidableEq, Repr

/-- The variables of the loop of `splitTextIntoSections`. -/
structure SplitState where
  sections : List TextSection
  currentSection : List Char
  startIndex : Int
deriving DecidableEq, Repr

/-- The object pushed when a section is closed. -/
def closeSection (st : SplitState) : TextSection :=
  { text := String.mk (jsTrim st.currentSection)
    start := st.startIndex
    end_ := st.startIndex + (st.currentSection.length : Int) }

/-- One iteration of the loop of `splitTextIntoSections` on `sentences[i]`. -/
def splitStep (text : List Char) (maxSectionLength : Nat) (st : SplitState)
    (raw : List Char) : SplitState :=
  let sentence := jsTrim raw
  if st.currentSection.length + sentence.length > maxSectionLength
      ∧ st.currentSection.length > 0 then
    { sections := st.sections ++ [closeSection st]
      currentSection := sentence
      startIndex := indexOf text sentence (st.startIndex + (sentence.length : Int)) }
  else
    { sections := st.sections
      currentSection :=
        st.currentSection ++ (if st.currentSection.length > 0 then ['.', ' '] else [])
          ++ sentence
      startIndex :=
        if st.currentSection.length = 0 then indexOf text sentence 0 else st.startIndex }

/-- The sentences of a text: `text.split(/[.!?]+/).filter(s => s.trim().length > 0)`. -/
def sentencesOf (text : List Char) : List (List Char) :=
  (splitSentences text).filter fun s => decide ((jsTrim s).length > 0)

/-- `splitTextIntoSections(text, maxSectionLength)`; the length of a string is
its number of characters. -/
def splitTextIntoSections (text : String) (maxSectionLength : Nat) : List TextSection :=
  let st := (sentencesOf text.data).foldl (splitStep text.data maxSectionLength) ⟨[], [], 0⟩
  if st.currentSection.length > 0 then st.sections ++ [closeSection st] else st.sections

/-- The default value of `maxSectionLength`. -/
def defaultMaxSectionLength : Nat := 1000

/-- The variables of the loop of `path.extname` (Node.js, POSIX paths). -/
structure ExtnameState where
  startDot : Int
  startPart : Int
  end_ : Int
  matchedSlash : Bool
  preDotState : Int
  done : Bool
deriving DecidableEq, Repr

/-- One iteration of the backwards loop of `path.extname` on character `i`. -/
def extnameStep (st : ExtnameState) (ic : Nat × Char) : ExtnameState :=
  if st.done then st
  else if ic.2 == '/' then
    if !st.matchedSlash then { st with startPart := (ic.1 : Int) + 1, done := true } else st
  else
    let st1 : ExtnameState :=
      if st.end_ == -1 then { st with matchedSlash := false, end_ := (ic.1 : Int) + 1 } else st
    if ic.2 == '.' then
      if st1.startDot == -1 then { st1 with startDot := (ic.1 : Int) }
      else if st1.preDotState != 1 then { st1 with preDotState := 1 }
      else st1
    else if st1.startDot != -1 then { st1 with preDotState := -1 }
    else st1

/-- `path.extname(path)` of Node.js for POSIX paths: the part of the last path
component from its last `.` on, or `""` when there is none or the component
starts with that `.`. -/
def extname (path : String) : String :=
  let st := path.data.enum.reverse.foldl extnameStep ⟨-1, 0, -1, true, 0, false⟩
  if st.startDot == -1 || st.end_ == -1 || st.preDotState == 0
      || (st.preDotState == 1 && st.startDot == st.end_ - 1
          && st.startDot == st.startPart + 1) then ""
  else String.mk ((path.data.drop st.startDot.toNat).take (st.end_ - st.startDot).toNat)

/-- The `allowedTypes` array of the multer file filter. -/
def allowedTypes : List String := [".pdf", ".docx", ".doc", ".txt"]

/-- The `fileFilter` of multer: `true` for `cb(null, true)`, `false` for
`cb(new Error(...))` (`toLowerCase` is embedded as `String.toLower`). -/
def fileFilter (originalname : String) : Bool :=
  allowedTypes.contains (extname originalname).toLower

/-- The `limits.fileSize` of multer. -/
def fileSizeLimit : Nat := 50 * 1024 * 1024

/-- The file of an upload request as multer presents it: the name given by the
client, the generated name and path under `uploads/`, and the size. -/
structure UploadFile where
  originalname : String
  filename : String
  path : String
  size : Nat
deriving DecidableEq, Repr

/-- The text fields of an upload request. -/
structure UploadBody where
  source : Field String
  publication_date : Field String
  relevant_agency : Field String
deriving DecidableEq, Repr

/-- The `document` object of the response of POST /upload. -/
structure UploadResult where
  id : Nat
  filename : String
  original_name : String
  file_type : String
  file_size : Nat
  sections_count : Nat
deriving DecidableEq, Repr

/-- The row id that AUTOINCREMENT gives to the next row of `documents`. -/
def nextDocumentId (db : DB) : Nat :=
  (db.documents.map fun d => d.id).foldl max db.documentSeq + 1

/-- The row id that AUTOINCREMENT gives to the next row of `document_sections`. -/
def nextSectionId (db : DB) : Nat :=
  (db.document_sections.map fun ds => ds.id).foldl max db.sectionSeq + 1

/-- `INSERT INTO document_sections (...)` for one section of a new document. -/
def insertSection (now : Nat) (document_id : Nat) (db : DB) (s : TextSection) : DB :=
  { db with
    document_sections := db.document_sections ++
      [{ id := nextSectionId db, document_id := document_id, section_text := s.text
         section_start := s.start, section_end := s.end_, created_at := now }]
    sectionSeq := nextSectionId db }

/-- The handler of POST /upload, run after multer has stored the file.
`extractedText` is the text that the extraction libraries return for the file
(`""` when extraction fails), `user` is `req.user?.id`. -/
def uploadHandler (db : DB) (user : Option Nat) (now : Nat) (file : Option UploadFile)
    (body : UploadBody) (extractedText : String) : DB × Response UploadResult :=
  match file with
  | none => (db, .error 400 "No file uploaded")
  | some f =>
    let adminUser := db.users.find? fun u => u.username == "admin"
    let uploadedBy : Nat :=
      match user with
      | some u => if u = 0 then (match adminUser with
          | some a => if a.id = 0 then 1 else a.id
          | none => 1) else u
      | none =>
        match adminUser with
        | some a => if a.id = 0 then 1 else a.id
        | none => 1
    let fileType := (extname f.originalname).toLower
    if db.users.any (fun u => u.id == uploadedBy) then
      let id := nextDocumentId db
      let db1 : DB :=
        { db with
          documents := db.documents ++
            [{ id := id, filename := f.filename, original_name := f.originalname
               file_path := f.path, file_type := fileType, file_size := f.size
               source := body.source.orNullString
               publication_date := body.publication_date.orNullString
               relevant_agency := body.relevant_agency.orNullString
               uploaded_by := uploadedBy, created_at := now }]
          documentSeq := id }
      let sections :=
        if extractedText = "" then []
        else splitTextIntoSections extractedText defaultMaxSectionLength
      ((sections.foldl (insertSection now id) db1),
        .json 200
          { id := id, filename := f.filename, original_name := f.originalname
            file_type := fileType, file_size := f.size, sections_count := sections.length })
    else (db, .error 500 "Failed to upload document")

/-- POST /upload: the multer middleware `upload.single('document')` followed by
the handler. A file that the filter rejects or that is larger than the limit
makes multer pass an error on, which the error middleware of `index.js`
answers with status 500; the handler does not run. -/
def uploadDocument (db : DB) (user : Option Nat) (now : Nat) (file : Option UploadFile)
    (body : UploadBody) (extractedText : String) : DB × Response UploadResult :=
  match file with
  | none => uploadHandler db user now none body extractedText
  | some f =>
    if !fileFilter f.originalname then (db, .error 500 "Something went wrong!")
    else if f.size > fileSizeLimit then (db, .error 500 "Something went wrong!")
    else uploadHandler db user now (some f) body extractedText

/-- The state that DELETE /:id of `documents.js` works on: the database and
the paths of the files that exist on disk. -/
structure Store where
  db : DB
  files : List String
deriving DecidableEq, Repr

/-- `DELETE FROM stakeholder_insights WHERE related_mapping_id IN
(SELECT id FROM mappings WHERE document_id = ?)`. -/
def deleteInsightsOf (db : DB) (id : Nat) : DB :=
  { db with
    stakeholder_insights := db.stakeholder_insights.filter fun s =>
      !(match s.related_mapping_id with
        | some mid => db.mappings.any fun m => m.id == mid && m.document_id == id
        | none => false) }

/-- `DELETE FROM section_tags WHERE section_id IN
(SELECT id FROM document_sections WHERE document_id = ?)`. -/
def deleteSectionTagsOf (db : DB) (id : Nat) : DB :=
  { db with
    section_tags := db.section_tags.filter fun st =>
      !(db.document_sections.any fun ds => ds.id == st.section_id && ds.document_id == id) }

/-- `DELETE FROM mappings WHERE document_id = ?`: `none` when an insight still
refers to a deleted mapping (foreign key of `stakeholder_insights`). -/
def deleteMappingsOf (db : DB) (id : Nat) : Option DB :=
  if db.stakeholder_insights.any fun s =>
      match s.related_mapping_id with
      | some mid => db.mappings.any fun m => m.id == mid && m.document_id == id
      | none => false then none
  else some { db with mappings := db.mappings.filter fun m => !(m.document_id == id) }

/-- `DELETE FROM document_sections WHERE document_id = ?`: `none` when a
section tag or a mapping still refers to a deleted section (foreign keys of
`section_tags` and `mappings`). -/
def deleteSectionsOf (db : DB) (id : Nat) : Option DB :=
  if (db.section_tags.any fun st =>
        db.document_sections.any fun ds => ds.id == st.section_id && ds.document_id == id)
      || (db.mappings.any fun m =>
        db.document_sections.any fun ds => m.section_id == some ds.id && ds.document_id == id)
  then none
  else some { db with
    document_sections := db.document_sections.filter fun ds => !(ds.document_id == id) }

/-- `DELETE FROM documents WHERE id = ?`: `none` when a section or a mapping
still refers to the document (foreign keys of `document_sections`, `mappings`). -/
def deleteDocumentRow (db : DB) (id : Nat) : Option DB :=
  if db.documents.any (fun d => d.id == id) &&
      ((db.document_sections.any fun ds => ds.document_id == id)
        || (db.mappings.any fun m => m.document_id == id)) then none
  else some { db with documents := db.documents.filter fun d => !(d.id == id) }

/-- DELETE /api/documents/:id. The five statements run one after the other
without a transaction: when one fails the handler answers 500 and the earlier
deletions stay. -/
def deleteDocument (s : Store) (id : Nat) : Store × Response Unit :=
  match s.db.documents.find? fun d => d.id == id with
  | none => (s, .error 404 "Document not found")
  | some document =>
    let db1 := deleteSectionTagsOf (deleteInsightsOf s.db id) id
    match deleteMappingsOf db1 id with
    | none => (⟨db1, s.files⟩, .error 500 "Failed to delete document")
    | some db2 =>
      match deleteSectionsOf db2 id with
      | none => (⟨db2, s.files⟩, .error 500 "Failed to delete document")
      | some db3 =>
        match deleteDocumentRow db3 id with
        | none => (⟨db3, s.files⟩, .error 500 "Failed to delete document")
        | some db4 =>
          (⟨db4, s.files.filter fun p => !(p == document.file_path)⟩, .json 200 ())

/-! ## `auth.js` -/

/-- The `Authorization` header of a request as `verifyAdmin` sees it: absent,
carrying a token that `jwt.verify` rejects, or carrying a token that verifies
and whose payload has the given user id. -/
inductive AuthHeader where
  | missing
  | invalid
  | valid (id : Nat)
deriving DecidableEq, Repr

/-- The `verifyAdmin` middleware: `none` for `next()`, otherwise the response
it sends. -/
def verifyAdmin (db : DB) (auth : AuthHeader) : Option (Response Unit) :=
  match auth with
  | .missing => some (.error 401 "No token provided")
  | .invalid => some (.error 401 "Invalid token")
  | .valid id =>
    match db.users.find? fun u => u.id == id with
    | none => some (.error 401 "User not found")
    | some dbUser =>
      if dbUser.role != "admin" then some (.error 403 "Admin access only") else none

/-- Whether a row of `documents`, `mappings` or `stakeholder_insights` refers to
the user (foreign keys `uploaded_by`, `mapped_by`, `created_by`). -/
def userReferenced (db : DB) (userId : Nat) : Bool :=
  (db.documents.any fun d => d.uploaded_by == userId)
    || (db.mappings.any fun m => m.mapped_by == userId)
    || (db.stakeholder_insights.any fun s => s.created_by == userId)

/-- DELETE /api/auth/users/:id; `userId` is `parseInt(req.params.id)`. The
handler has no `catch`: when the DELETE fails on a foreign key no response is
sent (`none`). -/
def deleteUser (db : DB) (auth : AuthHeader) (userId : Nat) : DB × Option (Response Unit) :=
  match verifyAdmin db auth with
  | some r => (db, some r)
  | none =>
    if userId = 1 then (db, some (.error 403 "Main admin cannot be deleted"))
    else if db.users.any (fun u => u.id == userId) && userReferenced db userId then (db, none)
    else ({ db with users := db.users.filter fun u => !(u.id == userId) }, some (.json 200 ()))

/-- PUT /api/auth/users/:id/role with `req.body.role`. -/
def setUserRole (db : DB) (auth : AuthHeader) (userId : Nat) (role : String) :
    DB × Option (Response Unit) :=
  match verifyAdmin db auth with
  | some r => (db, some r)
  | none =>
    if userId = 1 then (db, some (.error 403 "Main admin role cannot be changed"))
    else
      ({ db with users := db.users.map fun u => if u.id = userId then { u with role := role } else u },
        some (.json 200 ()))

/-- PUT /api/auth/users/:id/status with `req.body.is_active`. The statement
`UPDATE users SET is_active=? WHERE id=?` names a column that the table lacks
(`usersColumns`): the promise of `run` rejects and the handler, which has no
`catch`, sends no response (`none`). The rows of `users` hold the columns of
the table only, so they are the same after the request in either case. -/
def setUserStatus (db : DB) (auth : AuthHeader) (userId : Nat) (_is_active : Bool) :
    DB × Option (Response Unit) :=
  match verifyAdmin db auth with
  | some r => (db, some r)
  | none =>
    if userId = 1 then (db, some (.error 403 "Main admin cannot be disabled"))
    else if usersColumns.contains "is_active" then (db, some (.json 200 ()))
    else (db, none)

/-- A request to one of the three user administration routes. -/
inductive UserRequest where
  | delete
  | role (role : String)
  | status (is_active : Bool)
deriving DecidableEq, Repr

/-- The handler of a user administration request for user `userId`. -/
def UserRequest.handle (db : DB) (auth : AuthHeader) (userId : Nat) :
    UserRequest → DB × Option (Response Unit)
  | .delete => deleteUser db auth userId
  | .role r => setUserRole db auth userId r
  | .status a => setUserStatus db auth userId a

/-! ## Definitions used to state the properties of the mapping, user and document routes -/

/-- What PUT /:id with `body` for mapping `id` may change in a row `m` of
`mappings`, `m1` being the row afterwards: nothing in another mapping, and in
the mapping itself only those of `domain_id`, `maturity_level`,
`alignment_status` and `notes` that the body supplies, which take the
supplied value. -/
def UpdatedRow (id : Nat) (body : UpdateBody) (m m1 : Mapping) : Prop :=
  m1.id = m.id ∧ m1.document_id = m.document_id ∧ m1.section_id = m.section_id ∧
  m1.mapped_by = m.mapped_by ∧ m1.created_at = m.created_at ∧
  (m.id ≠ id → m1 = m) ∧
  (body.domain_id = .undefined → m1.domain_id = m.domain_id) ∧
  (body.maturity_level = .undefined → m1.maturity_level = m.maturity_level) ∧
  (body.alignment_status = .undefined → m1.alignment_status = m.alignment_status) ∧
  (body.notes = .undefined → m1.notes = m.notes) ∧
  (m.id = id → ∀ v, body.domain_id = .value v → m1.domain_id = v) ∧
  (m.id = id → ∀ v, body.maturity_level = .value v → m1.maturity_level = v) ∧
  (m.id = id → ∀ v, body.alignment_status = .value v → m1.alignment_status = v) ∧
  (m.id = id → ∀ v, body.notes = .value v → m1.notes = some v) ∧
  (m.id = id → body.notes = .null → m1.notes = none)

/-- The sections and mappings of a document that are left in a database. -/
def remainsOf (db : DB) (id : Nat) : Nat × Nat × Nat :=
  ((db.documents.filter fun d => d.id == id).length,
   (db.document_sections.filter fun ds => ds.document_id == id).length,
   (db.mappings.filter fun m => m.document_id == id).length)

/-! ## Definitions used to state the properties of `splitTextIntoSections` -/

/-- `s.split('. ')`: the pieces of a string between the occurrences of the
separator `'. '`, found from the left. -/
def splitOnSeparator : List Char → List (List Char)
  | [] => [[]]
  | [c] => [[c]]
  | c :: d :: cs =>
    if c = '.' ∧ d = ' ' then [] :: splitOnSeparator cs
    else
      match splitOnSeparator (d :: cs) with
      | [] => [[c]]
      | p :: ps => (c :: p) :: ps

/-- The first sentence of a section text: the piece before its first separator. -/
def firstSentence (text : String) : List Char :=
  (splitOnSeparator text.data).headD []

/-- The trimmed, non-blank fragments of a text cut at every `.`, `!` and `?`
(cutting at every terminator or at every run of terminators leaves the same
non-blank fragments). -/
def fragmentsOf (text : List Char) : List (List Char) :=
  ((text.splitOnP isTerminator).map jsTrim).filter fun s => decide (s ≠ [])

/-- A text of two sentences of two characters each. -/
def twoShortSentences : String := "ab.cd"

/-- A non-empty string without white space at either end. -/
def Trimmed (s : List Char) : Prop :=
  s ≠ [] ∧ (∀ c, s.head? = some c → isJsWhitespace c = false) ∧
    (∀ c, s.getLast? = some c → isJsWhitespace c = false)

/-- What the loop of `splitTextIntoSections` works on: a non-empty trimmed
string without a full stop. -/
def IsSentence (s : List Char) : Prop :=
  Trimmed s ∧ ∀ c ∈ s, c ≠ '.'

/-- The texts of the sections that the loop of `splitTextIntoSections` has
built so far, in order, the section still open last. -/
def SplitState.texts (st : SplitState) : List (List Char) :=
  st.sections.map (fun s => s.text.data)
    ++ (if st.currentSection = [] then [] else [st.currentSection])

/-- The invariant of the loop of `splitTextIntoSections` after the sentences
`done`. -/
structure SplitInv (maxSectionLength : Nat) (done : List (List Char)) (st : SplitState) :
    Prop where
  start : st.currentSection = [] → st.sections = []
  trimmed : st.currentSection ≠ [] → Trimmed st.currentSection
  pieces : st.texts.flatMap splitOnSeparator = done
  nonempty : ∀ t ∈ st.texts, t ≠ []
  greedy : st.texts.Chain' fun a b =>
    a.length + ((splitOnSeparator b).headD []).length > maxSectionLength
  bounded : (∀ s ∈ done, s.length ≤ maxSectionLength) →
    ∀ t ∈ st.texts, t.length ≤ maxSectionLength + 2

/-- A request to map the whole of document 1 to domain 1 at maturity level 7. -/
def levelSevenBody : CreateBody :=
  { wholeDocumentBody with maturity_level := .value 7 }

/-- A request to set the maturity level of a mapping to 0. -/
def levelZeroUpdate : UpdateBody :=
  { domain_id := .undefined, maturity_level := .value 0, alignment_status := .undefined
    notes := .undefined }

/-- A request to set the maturity level of a mapping to 3. -/
def levelThreeUpdate : UpdateBody :=
  { domain_id := .undefined, maturity_level := .value 3, alignment_status := .undefined
    notes := .undefined }

/-- A request to set the alignment status of a mapping. -/
def statusUpdate (alignment_status : String) : UpdateBody :=
  { domain_id := .undefined, maturity_level := .undefined
    alignment_status := .value alignment_status, notes := .undefined }

/-- A request to map section 1 of document 1 that leaves `maturity_level` out. -/
def noLevelBody : CreateBody :=
  { sectionBody 1 with maturity_level := .undefined }

/-- A request to map section 1, which belongs to document 1, as a part of
document 2. -/
def crossDocumentBody : CreateBody :=
  { document_id := .value 2, section_id := .value 1, domain_id := .value 1
    maturity_level := .value 2, alignment_status := .value "fully_aligned"
    notes := .undefined }

/-- A second user, with role `analyst`. -/
def analystUser : User :=
  { id := 2, username := "analyst", email := "analyst@qc2m2.com", password_hash := "hash"
    role := "analyst", created_at := 1 }

/-- The seed database with the analyst added. -/
def twoUserDB : DB := { seedDB with users := [adminUser, analystUser] }

/-- An uploaded file with the given original name. -/
def sampleFile (originalname : String) : UploadFile :=
  { originalname := originalname, filename := "document-1", path := "uploads/document-1"
    size := 2048 }

/-- An upload request without metadata fields. -/
def noMetadata : UploadBody :=
  { source := .undefined, publication_date := .undefined, relevant_agency := .undefined }

/-- A text of two sentences of 500 characters each. -/
def twoHalvesText : String :=
  String.mk (List.replicate 500 'a' ++ ['.'] ++ List.replicate 500 'b')

/-- A text of a sentence of 10 characters followed by one of 995 characters. -/
def shortLongText : String :=
  String.mk ("0123456789. ".data ++ List.replicate 995 'x')

/-! ## A database at a rounding boundary -/

/-- Mappings `first + 1 .. first + n` of the whole of document 1 to domain 1, all
with the given alignment status. -/
def mappingRun (first n : Nat) (alignment_status : String) : List Mapping :=
  (List.range n).map fun i => sampleMapping (first + i + 1) 1 1 alignment_status

/-- Document 1 has 10001 mappings, all to domain 1: 10000 partially aligned and
one not aligned, so the percentage of the domain is 500000/10001 = 49.99500049...,
which rounds to 50.00. -/
def roundingDB : DB :=
  { seedDB with
    mappings := mappingRun 0 10000 "partially_aligned" ++ mappingRun 10000 1 "not_aligned"
    mappingSeq := 10001 }

/-- The row of domain Secure in the gap-analysis report for document 1 of
`thresholdDB`: one fully aligned mapping out of four. -/
def secureGapRow : GapRow :=
  { domain_name := "Secure", domain_code := "SECURE"
    description := some "Implementing security controls and measures"
    total_mappings := 4, fully_aligned := 1, partially_aligned := 0, not_aligned := 3
    avg_maturity_level := some 2, alignment_percentage := some 25
    gap_status := "Significant Gap" }

/-! ## Error answers (`index.js`, POST /register of `auth.js`) -/

/-- A thrown JavaScript `Error`, as far as the handlers read it. -/
structure JsError where
  message : String
deriving DecidableEq, Repr

/-- The JSON body of an error answer: `error`, and the properties `message`
(error middleware) and `details` (POST /register) when the body has them. -/
structure ErrorBody where
  error : String
  message : Option String
  details : Option String
deriving DecidableEq, Repr

/-- The error handling middleware of `index.js`; `nodeEnv` is
`process.env.NODE_ENV`. Returns the status and the body. -/
def errorMiddleware (nodeEnv : Option String) (err : JsError) : Nat × ErrorBody :=
  (500,
   { error := "Something went wrong!"
     message := some (if nodeEnv = some "development" then err.message
       else "Internal server error")
     details := none })

/-- A JSON value of the `password` property: a string or a number. -/
inductive JsonValue where
  | string (s : String)
  | number (n : Nat)
deriving DecidableEq, Repr

/-- JavaScript `!x` for a property that holds a string or a number. -/
def Field.falsyValue : Field JsonValue → Bool
  | .undefined => true
  | .null => true
  | .value (.string s) => s == ""
  | .value (.number n) => n == 0

/-- Body of POST /api/auth/register; `role` is absent or a string. -/
structure RegisterBody where
  username : Field String
  email : Field String
  password : Field JsonValue
  role : Option String
deriving DecidableEq, Repr

/-- `bcrypt.hash(password, saltRounds)` of the bcryptjs library: the promise
rejects with `Error("Illegal arguments: " + typeof password + ", " + typeof
saltRounds)` unless the password is a string; `salted` stands for the salted
hash of a string. -/
def bcryptHash (salted : String → String) : JsonValue → Except JsError String
  | .string s => .ok (salted s)
  | .number _ => .error ⟨"Illegal arguments: number, number"⟩

/-- The answer of POST /api/auth/register. -/
inductive RegisterResponse where
  | created (id : Nat) (username email role : String)
  | failed (status : Nat) (body : ErrorBody)
deriving DecidableEq, Repr

/-- The row id that AUTOINCREMENT gives to the next row of `users`. -/
def nextUserId (db : DB) : Nat :=
  (db.users.map fun u => u.id).foldl max 0 + 1

/-- POST /api/auth/register; `now` is the value of `CURRENT_TIMESTAMP`. The
handler reads nothing of `process.env`: its `catch` puts `error.message` into
the `details` of the answer in every environment. -/
def registerUser (salted : String → String) (db : DB) (now : Nat) (body : RegisterBody) :
    DB × RegisterResponse :=
  let role := body.role.getD "analyst"
  if body.username.falsyString || body.email.falsyString || body.password.falsyValue then
    (db, .failed 400
      { error := "Username, email, and password are required", message := none
        details := none })
  else
    let username := body.username.getD ""
    let email := body.email.getD ""
    match db.users.find? fun u => u.username == username || u.email == email with
    | some _ =>
      (db, .failed 409
        { error := "Username or email already exists", message := none, details := none })
    | none =>
      match bcryptHash salted (body.password.getD (.string "")) with
      | .error error =>
        (db, .failed 500
          { error := "Failed to register user", message := none
            details := some error.message })
      | .ok passwordHash =>
        let row : User :=
          { id := nextUserId db, username := username, email := email
            password_hash := passwordHash, role := role, created_at := now }
        ({ db with users := db.users ++ [row] }, .created row.id username email role)

/-- A registration request whose password is the JSON number 12345. -/
def numericPasswordBody : RegisterBody :=
  { username := .value "eve", email := .value "eve@example.org"
    password := .value (.number 12345), role := none }

/-! ## Lemmas on the SQL building blocks -/

theorem mem_orderBy {α : Type} (le : α → α → Bool) (l : List α) (a : α) :
    a ∈ orderBy le l ↔ a ∈ l :=
  (List.perm_insertionSort _ l).mem_iff

theorem length_orderBy {α : Type} (le : α → α → Bool) (l : List α) :
    (orderBy le l).length = l.length :=
  (List.perm_insertionSort _ l).length_eq

theorem filter_key_length_le_one {α : Type} (key : α → Nat) (l : List α) (k : Nat)
    (h : (l.map key).Nodup) : (l.filter fun x => k == key x).length ≤ 1 := by
  induction l with
  | nil => simp
  | cons a l ih =>
    rw [List.map_cons, List.nodup_cons] at h
    by_cases hk : k = key a
    · subst hk
      have : l.filter (fun x => key a == key x) = [] := by
        rw [List.filter_eq_nil_iff]
        intro x hx hkx
        exact h.1 (List.mem_map.2 ⟨x, hx, (show key a = key x by simpa using hkx).symm⟩)
      simp [List.filter_cons, this]
    · have : (k == key a) = false := by simpa using hk
      simp only [List.filter_cons, this]
      exact ih h.2

theorem leftJoin_eq_map_find {α β : Type} (left : List α) (right : List β)
    (cond : α → β → Bool) (h : ∀ a ∈ left, (right.filter (cond a)).length ≤ 1) :
    leftJoin left right cond = left.map fun a => (a, right.find? (cond a)) := by
  unfold leftJoin
  induction left with
  | nil => rfl
  | cons a left ih =>
    rw [List.flatMap_cons, List.map_cons, ih fun x hx => h x (List.mem_cons_of_mem _ hx)]
    have h1 := h a (List.mem_cons_self _ _)
    have h2 : (right.filter (cond a)).head? = right.find? (cond a) := List.filter_head? _ _
    cases hf : right.filter (cond a) with
    | nil => rw [hf] at h2; simp [← h2]
    | cons b bs =>
      rw [hf] at h1 h2
      have : bs = [] := by
        cases bs with
        | nil => rfl
        | cons c cs => simp at h1
      subst this
      simp [← h2]

theorem mem_leftJoin_some {α β : Type} (left : List α) (right : List β)
    (cond : α → β → Bool) (a : α) (b : β) :
    (a, some b) ∈ leftJoin left right cond ↔ a ∈ left ∧ b ∈ right ∧ cond a b = true := by
  unfold leftJoin
  rw [List.mem_flatMap]
  constructor
  · rintro ⟨a1, ha1, hmem⟩
    cases hf : right.filter (cond a1) with
    | nil => rw [hf] at hmem; simp at hmem
    | cons c cs =>
      rw [hf] at hmem
      simp only [List.mem_map, Prod.mk.injEq, Option.some.injEq] at hmem
      obtain ⟨x, hx, rfl, rfl⟩ := hmem
      have hx2 : x ∈ right.filter (cond a1) := hf ▸ hx
      rw [List.mem_filter] at hx2
      exact ⟨ha1, hx2.1, hx2.2⟩
  · rintro ⟨ha, hb, hc⟩
    refine ⟨a, ha, ?_⟩
    have hx : b ∈ right.filter (cond a) := List.mem_filter.2 ⟨hb, hc⟩
    cases hf : right.filter (cond a) with
    | nil => rw [hf] at hx; simp at hx
    | cons c cs =>
      rw [hf] at hx
      exact List.mem_map.2 ⟨b, hx, rfl⟩

theorem fst_mem_of_mem_leftJoin {α β : Type} (left : List α) (right : List β)
    (cond : α → β → Bool) (x : α × Option β) (hx : x ∈ leftJoin left right cond) :
    x.1 ∈ left := by
  unfold leftJoin at hx
  rw [List.mem_flatMap] at hx
  obtain ⟨a, ha, hmem⟩ := hx
  cases hf : right.filter (cond a) with
  | nil => rw [hf] at hmem; simp at hmem; subst hmem; exact ha
  | cons c cs =>
    rw [hf] at hmem
    simp only [List.mem_map] at hmem
    obtain ⟨y, _, rfl⟩ := hmem
    exact ha

theorem mem_groupBy {α κ : Type} [DecidableEq κ] (key : α → κ) (rows : List α)
    (g : Group α) (hg : g ∈ groupBy key rows) :
    g.rep ∈ rows ∧ g.rows = rows.filter (fun r => decide (key r = key g.rep)) := by
  unfold groupBy at hg
  rw [List.mem_filterMap] at hg
  obtain ⟨k, _, hk⟩ := hg
  cases hf : rows.filter (fun r => decide (key r = k)) with
  | nil => rw [hf] at hk; simp at hk
  | cons r rs =>
    rw [hf] at hk
    simp only [Option.some.injEq] at hk
    subst hk
    have hr : r ∈ rows.filter (fun r => decide (key r = k)) := hf ▸ List.mem_cons_self _ _
    rw [List.mem_filter] at hr
    have hkr : key r = k := by simpa using hr.2
    subst hkr
    exact ⟨hr.1, hf.symm⟩

theorem exists_group {α κ : Type} [DecidableEq κ] (key : α → κ) (rows : List α)
    (r : α) (hr : r ∈ rows) : ∃ g ∈ groupBy key rows, key g.rep = key r := by
  have hk : key r ∈ (rows.map key).dedup := List.mem_dedup.2 (List.mem_map.2 ⟨r, hr, rfl⟩)
  have hx : r ∈ rows.filter (fun x => decide (key x = key r)) :=
    List.mem_filter.2 ⟨hr, by simp⟩
  cases hf : rows.filter (fun x => decide (key x = key r)) with
  | nil => rw [hf] at hx; simp at hx
  | cons c cs =>
    have hc : c ∈ rows.filter (fun x => decide (key x = key r)) := hf ▸ List.mem_cons_self _ _
    rw [List.mem_filter] at hc
    refine ⟨⟨c, c :: cs⟩, ?_, by simpa using hc.2⟩
    unfold groupBy
    rw [List.mem_filterMap]
    exact ⟨key r, hk, by rw [hf]⟩

/-! ## Lemmas on the joined rows and their groups -/

theorem count_leftJoin {α β : Type} (left : List α) (right : List β) (cond : α → β → Bool)
    (Q : α → β → Bool) :
    (leftJoin left right cond).countP (fun x => x.2.any (Q x.1))
      = (left.map fun a => right.countP fun b => cond a b && Q a b).sum := by
  unfold leftJoin
  induction left with
  | nil => rfl
  | cons a left ih =>
    rw [List.flatMap_cons, List.countP_append, ih, List.map_cons, List.sum_cons]
    congr 1
    have hc : right.countP (fun b => cond a b && Q a b)
        = (right.filter (cond a)).countP (Q a) := by
      rw [List.countP_filter]
      apply List.countP_congr
      intro x _
      simp [and_comm]
    rw [hc]
    cases right.filter (cond a) with
    | nil => simp
    | cons b bs => rw [List.countP_map]; rfl

theorem sum_map_single {α κ : Type} (l : List α) (key : α → κ) (F : α → Nat) (a : α)
    (ha : a ∈ l) (hn : (l.map key).Nodup) (hF : ∀ x ∈ l, key x ≠ key a → F x = 0) :
    (l.map F).sum = F a := by
  induction l with
  | nil => simp at ha
  | cons b l ih =>
    rw [List.map_cons, List.nodup_cons] at hn
    rw [List.map_cons, List.sum_cons]
    rcases List.mem_cons.1 ha with hab | hal
    · subst hab
      have hz : (l.map F).sum = 0 := by
        apply List.sum_eq_zero
        intro y hy
        obtain ⟨x, hx, rfl⟩ := List.mem_map.1 hy
        apply hF x (List.mem_cons_of_mem _ hx)
        intro hk
        exact hn.1 (List.mem_map.2 ⟨x, hx, hk⟩)
      omega
    · have hb : F b = 0 := by
        apply hF b (List.mem_cons_self _ _)
        intro hk
        exact hn.1 (List.mem_map.2 ⟨a, hal, hk.symm⟩)
      rw [hb, Nat.zero_add]
      exact ih hal hn.2 fun x hx => hF x (List.mem_cons_of_mem _ hx)

theorem eq_of_id_eq {α : Type} (key : α → Nat) (l : List α) (hn : (l.map key).Nodup)
    (a b : α) (ha : a ∈ l) (hb : b ∈ l) (h : key a = key b) : a = b :=
  List.inj_on_of_nodup_map hn ha hb h

theorem domainsMappingsDocuments_eq (db : DB) (hd : (db.documents.map fun d => d.id).Nodup) :
    domainsMappingsDocuments db =
      (leftJoin db.qc2m2_domains db.mappings fun qd m => qd.id == m.domain_id).map fun x =>
        ⟨x.1, x.2, x.2.bind fun m => db.documents.find? fun d => m.document_id == d.id⟩ := by
  unfold domainsMappingsDocuments
  rw [leftJoin_eq_map_find, List.map_map]
  · apply List.map_congr_left
    intro x _
    cases hx : x.2 with
    | none => simp [hx]
    | some m => simp [hx]
  · intro x _
    cases hx : x.2 with
    | none => simp
    | some m => exact filter_key_length_le_one (fun d : Document => d.id) db.documents _ hd

theorem qd_mem_of_mem (db : DB) (r : JoinRow) (hr : r ∈ domainsMappingsDocuments db) :
    r.qd ∈ db.qc2m2_domains := by
  unfold domainsMappingsDocuments at hr
  obtain ⟨x, hx, rfl⟩ := List.mem_map.1 hr
  exact fst_mem_of_mem_leftJoin _ _ _ _ (fst_mem_of_mem_leftJoin _ _ _ _ hx)

theorem count_domain_rows (db : DB) (hw : db.wellFormed) (qd : Domain)
    (hq : qd ∈ db.qc2m2_domains) (P : Mapping → Bool) (B : Option Document → Bool) :
    (domainsMappingsDocuments db).countP (fun r =>
        decide (r.qd.id = qd.id) && B r.d && r.m.any P)
      = db.mappings.countP fun m =>
          m.domain_id == qd.id && P m &&
            B (db.documents.find? fun d => m.document_id == d.id) := by
  rw [domainsMappingsDocuments_eq db hw.2.1, List.countP_map]
  have hfun : ((fun r : JoinRow =>
        decide (r.qd.id = qd.id) && B r.d && r.m.any P) ∘
      fun x : Domain × Option Mapping =>
        (⟨x.1, x.2, x.2.bind fun m => db.documents.find? fun d => m.document_id == d.id⟩ :
          JoinRow))
      = fun x : Domain × Option Mapping =>
          x.2.any fun m => decide (x.1.id = qd.id) &&
              B (db.documents.find? fun d => m.document_id == d.id) && P m := by
    funext x
    obtain ⟨a, om⟩ := x
    cases om with
    | none => simp
    | some m => simp
  rw [hfun, count_leftJoin db.qc2m2_domains db.mappings _ (fun a m =>
      decide (a.id = qd.id) &&
        B (db.documents.find? fun d => m.document_id == d.id) && P m),
    sum_map_single db.qc2m2_domains (fun d => d.id) _ qd hq hw.1]
  · apply List.countP_congr
    intro m _
    simp only [Bool.and_eq_true, beq_iff_eq, decide_eq_true_eq]
    constructor
    · rintro ⟨h1, ⟨_, h3⟩, h4⟩
      exact ⟨⟨h1.symm, h4⟩, h3⟩
    · rintro ⟨⟨h1, h4⟩, h3⟩
      exact ⟨h1.symm, ⟨trivial, h3⟩, h4⟩
  · intro x _ hne
    rw [List.countP_eq_zero]
    intro m _
    simp only [Bool.and_eq_true, decide_eq_true_eq, not_and]
    intro _ h
    exact absurd h.1 hne

theorem countMappingIds_eq (g : List JoinRow) :
    countMappingIds g = countRows (fun _ => true) g := by
  unfold countMappingIds countRows
  apply List.countP_congr
  intro r _
  cases r.m <;> simp

theorem sumStatus_eq (status : String) (g : List JoinRow) :
    sumStatus status g = countRows (fun m => m.alignment_status == status) g := by
  unfold sumStatus countRows
  induction g with
  | nil => rfl
  | cons r g ih =>
    rw [List.map_cons, List.sum_cons, ih, List.countP_cons, Nat.add_comm]
    congr 1
    cases r.m with
    | none => simp
    | some m => simp

theorem extraFilter_eq (document_ids : Option (List Nat)) (r : JoinRow) :
    extraFilter document_ids r = docOk document_ids r.d := by
  unfold extraFilter docOk inDocIds
  cases document_ids <;> rfl

theorem docOk_find (db : DB) (hw : db.wellFormed) (document_ids : Option (List Nat))
    (m : Mapping) (hm : m ∈ db.mappings) :
    docOk document_ids (db.documents.find? fun d => m.document_id == d.id)
      = inDocumentSet document_ids m := by
  obtain ⟨d, hd, hid⟩ := hw.2.2.2.2 m hm
  cases hf : db.documents.find? fun d => m.document_id == d.id with
  | none =>
    rw [List.find?_eq_none] at hf
    exact absurd (by simp [hid]) (hf d hd)
  | some d1 =>
    have h1 := List.find?_some hf
    have h2 : m.document_id = d1.id := by simpa using h1
    unfold docOk inDocumentSet
    cases document_ids with
    | none => rfl
    | some ids => simp [h2]

/-- The counts of a group of a per-domain query are the counts over the
mapping rows of the group's domain within the document set. -/
theorem group_count {κ : Type} [DecidableEq κ] (db : DB) (hw : db.wellFormed)
    (A : Domain → Bool) (document_ids : Option (List Nat)) (key : JoinRow → κ)
    (hkey : ∀ r r1 : JoinRow, r.qd ∈ db.qc2m2_domains → r1.qd ∈ db.qc2m2_domains →
      (key r = key r1 ↔ r.qd.id = r1.qd.id))
    (g : Group JoinRow)
    (hg : g ∈ groupBy key ((domainsMappingsDocuments db).filter fun r =>
      A r.qd && extraFilter document_ids r))
    (P : Mapping → Bool) :
    g.rep.qd ∈ db.qc2m2_domains ∧ A g.rep.qd = true ∧
      countRows P g.rows = (mappingsOf db g.rep.qd.id document_ids).countP P := by
  obtain ⟨hrep, hrows⟩ := mem_groupBy key _ g hg
  rw [List.mem_filter] at hrep
  have hqd := qd_mem_of_mem db g.rep hrep.1
  have hA : A g.rep.qd = true := by
    have := hrep.2
    simp only [Bool.and_eq_true] at this
    exact this.1
  refine ⟨hqd, hA, ?_⟩
  unfold countRows mappingsOf
  rw [hrows, List.countP_filter, List.countP_filter, List.countP_filter]
  rw [← List.countP_congr (l := db.mappings) (p := fun m =>
      m.domain_id == g.rep.qd.id && P m &&
        docOk document_ids (db.documents.find? fun d => m.document_id == d.id))]
  · rw [← count_domain_rows db hw g.rep.qd hqd P (docOk document_ids)]
    apply List.countP_congr
    intro r hr
    have hrq := qd_mem_of_mem db r hr
    simp only [Bool.and_eq_true, decide_eq_true_eq, hkey r g.rep hrq hqd, extraFilter_eq]
    constructor
    · rintro ⟨⟨h1, h2⟩, _, h4⟩
      exact ⟨⟨h2, h4⟩, h1⟩
    · rintro ⟨⟨h2, h4⟩, h1⟩
      have : r.qd = g.rep.qd :=
        eq_of_id_eq (fun d : Domain => d.id) db.qc2m2_domains hw.1 r.qd g.rep.qd hrq hqd h2
      exact ⟨⟨h1, h2⟩, ⟨by rw [this]; exact hA, h4⟩⟩
  · intro m hm
    rw [docOk_find db hw document_ids m hm]
    simp only [Bool.and_eq_true, beq_iff_eq]
    constructor
    · rintro ⟨⟨h1, h2⟩, h3⟩
      exact ⟨h2, h1, h3⟩
    · rintro ⟨h2, h1, h3⟩
      exact ⟨⟨h1, h2⟩, h3⟩

theorem exists_group_of_mapping {κ : Type} [DecidableEq κ] (db : DB) (hw : db.wellFormed)
    (A : Domain → Bool) (document_ids : Option (List Nat)) (key : JoinRow → κ)
    (hkey : ∀ r r1 : JoinRow, r.qd ∈ db.qc2m2_domains → r1.qd ∈ db.qc2m2_domains →
      (key r = key r1 ↔ r.qd.id = r1.qd.id))
    (qd : Domain) (hq : qd ∈ db.qc2m2_domains) (hA : A qd = true)
    (hpos : 0 < (mappingsOf db qd.id document_ids).length) :
    ∃ g ∈ groupBy key ((domainsMappingsDocuments db).filter fun r =>
      A r.qd && extraFilter document_ids r), g.rep.qd = qd := by
  obtain ⟨m, hm⟩ := List.exists_mem_of_length_pos hpos
  unfold mappingsOf at hm
  rw [List.mem_filter] at hm
  obtain ⟨hmM, hcond⟩ := hm
  simp only [Bool.and_eq_true, beq_iff_eq] at hcond
  let r : JoinRow := ⟨qd, some m, db.documents.find? fun d => m.document_id == d.id⟩
  have hr : r ∈ (domainsMappingsDocuments db).filter fun r =>
      A r.qd && extraFilter document_ids r := by
    rw [List.mem_filter]
    constructor
    · rw [domainsMappingsDocuments_eq db hw.2.1, List.mem_map]
      refine ⟨(qd, some m), ?_, rfl⟩
      rw [mem_leftJoin_some]
      exact ⟨hq, hmM, by simp [hcond.1]⟩
    · rw [extraFilter_eq]
      show (A qd && docOk document_ids
        (db.documents.find? fun d => m.document_id == d.id)) = true
      rw [docOk_find db hw document_ids m hmM, hA, hcond.2]
      rfl
  obtain ⟨g, hg, hk⟩ := exists_group key _ r hr
  refine ⟨g, hg, ?_⟩
  have hrep := (mem_groupBy key _ g hg).1
  rw [List.mem_filter] at hrep
  have hgq := qd_mem_of_mem db g.rep hrep.1
  exact eq_of_id_eq (fun d : Domain => d.id) db.qc2m2_domains hw.1 g.rep.qd qd hgq hq
    ((hkey g.rep r hgq hq).1 hk)

theorem alignmentExpr_eq (g : List JoinRow) (h : countMappingIds g ≠ 0) :
    alignmentExpr g = some (alignmentFormula (sumStatus "fully_aligned" g)
      (sumStatus "partially_aligned" g) (countMappingIds g)) := by
  unfold alignmentExpr NULLIF alignmentFormula
  rw [if_neg h]
  simp only [Option.some.injEq]
  ring

theorem alignmentExpr_zero (g : List JoinRow) (h : countMappingIds g = 0) :
    alignmentExpr g = none := by
  unfold alignmentExpr NULLIF
  rw [if_pos h]

theorem alignmentPercentage_eq (g : List JoinRow) (h : countMappingIds g ≠ 0) :
    alignmentPercentage g = some (round2 (alignmentFormula (sumStatus "fully_aligned" g)
      (sumStatus "partially_aligned" g) (countMappingIds g))) := by
  unfold alignmentPercentage ROUND2
  rw [alignmentExpr_eq g h]
  rfl

theorem alignmentPercentage_zero (g : List JoinRow) (h : countMappingIds g = 0) :
    alignmentPercentage g = none := by
  unfold alignmentPercentage ROUND2
  rw [alignmentExpr_zero g h]
  rfl

theorem reportKey_iff (db : DB) (hw : db.wellFormed) (r r1 : JoinRow)
    (h : r.qd ∈ db.qc2m2_domains) (h1 : r1.qd ∈ db.qc2m2_domains) :
    reportKey r = reportKey r1 ↔ r.qd.id = r1.qd.id := by
  constructor
  · intro hk
    unfold reportKey at hk
    exact (Prod.mk.inj hk).1
  · intro hid
    have := eq_of_id_eq (fun d : Domain => d.id) db.qc2m2_domains hw.1 r.qd r1.qd h h1 hid
    unfold reportKey
    rw [this]

theorem reportRows_eq (db : DB) (docIds : List Nat) :
    reportRows db docIds = (domainsMappingsDocuments db).filter fun r =>
      (fun _ : Domain => true) r.qd && extraFilter (some docIds) r := by
  unfold reportRows
  apply List.filter_congr
  intro r _
  simp [extraFilter]

/-- The aggregate columns of a group, in terms of the mapping rows of its domain. -/
theorem group_columns {κ : Type} [DecidableEq κ] (db : DB) (hw : db.wellFormed)
    (A : Domain → Bool) (document_ids : Option (List Nat)) (key : JoinRow → κ)
    (hkey : ∀ r r1 : JoinRow, r.qd ∈ db.qc2m2_domains → r1.qd ∈ db.qc2m2_domains →
      (key r = key r1 ↔ r.qd.id = r1.qd.id))
    (g : Group JoinRow)
    (hg : g ∈ groupBy key ((domainsMappingsDocuments db).filter fun r =>
      A r.qd && extraFilter document_ids r)) :
    countMappingIds g.rows = (mappingsOf db g.rep.qd.id document_ids).length ∧
    ∀ status, sumStatus status g.rows
      = statusCount status (mappingsOf db g.rep.qd.id document_ids) := by
  constructor
  · rw [countMappingIds_eq, (group_count db hw A document_ids key hkey g hg _).2.2]
    simp
  · intro status
    rw [sumStatus_eq, (group_count db hw A document_ids key hkey g hg _).2.2]
    rfl

/-! ## Per-domain aggregation -/

theorem group_reports {κ : Type} [DecidableEq κ] (db : DB) (hw : db.wellFormed)
    (A : Domain → Bool) (document_ids : Option (List Nat)) (key : JoinRow → κ)
    (hkey : ∀ r r1 : JoinRow, r.qd ∈ db.qc2m2_domains → r1.qd ∈ db.qc2m2_domains →
      (key r = key r1 ↔ r.qd.id = r1.qd.id))
    (g : Group JoinRow)
    (hg : g ∈ groupBy key ((domainsMappingsDocuments db).filter fun r =>
      A r.qd && extraFilter document_ids r)) :
    ReportsDomain g.rep.qd (mappingsOf db g.rep.qd.id document_ids) g.rep.qd.domain_code
      (countMappingIds g.rows) (sumStatus "fully_aligned" g.rows)
      (sumStatus "partially_aligned" g.rows) (alignmentPercentage g.rows) := by
  obtain ⟨hc, hs⟩ := group_columns db hw A document_ids key hkey g hg
  refine ⟨rfl, hc, hs _, hs _, ?_⟩
  by_cases h0 : (mappingsOf db g.rep.qd.id document_ids).length = 0
  · rw [if_pos h0, alignmentPercentage_zero g.rows (hc.trans h0)]
  · rw [if_neg h0, alignmentPercentage_eq g.rows (by rw [hc]; exact h0), hc, hs, hs]

theorem mem_reportDomainCoverage (db : DB) (docIds : List Nat) (row : CoverageRow) :
    row ∈ reportDomainCoverage db docIds ↔
      ∃ g ∈ reportGroups db docIds, coverageRowOf g = row := by
  unfold reportDomainCoverage
  rw [List.mem_map]
  constructor
  · rintro ⟨g, hg, rfl⟩
    exact ⟨g, (mem_orderBy _ _ _).1 hg, rfl⟩
  · rintro ⟨g, hg, rfl⟩
    exact ⟨g, (mem_orderBy _ _ _).2 hg, rfl⟩

theorem mem_gapAnalysisQuery (db : DB) (docIds : List Nat) (row : GapRow) :
    row ∈ gapAnalysisQuery db docIds ↔ ∃ g ∈ reportGroups db docIds, gapRowOf g = row := by
  unfold gapAnalysisQuery
  rw [mem_orderBy, List.mem_map]

theorem reportGroups_eq (db : DB) (docIds : List Nat) :
    reportGroups db docIds = groupBy reportKey ((domainsMappingsDocuments db).filter fun r =>
      (fun _ : Domain => true) r.qd && extraFilter (some docIds) r) := by
  unfold reportGroups
  rw [reportRows_eq]

/-- The handlers of `analysis.js` answer 500 to every request: their queries
name `qd.framework`, a column that `qc2m2_domains` does not have. -/
theorem analysis_answers_500 (db : DB) (framework : Option String)
    (document_ids : Option (List Nat)) :
    Domain.textColumn "framework" = none ∧
    gapMatrix db framework document_ids = .error 500 "Failed to generate gap matrix" ∧
    domainCoverage db framework document_ids
      = .error 500 "Failed to generate domain coverage" ∧
    areasOfConcern db framework document_ids
      = .error 500 "Failed to generate areas of concern" := by
  have h : Domain.textColumn "framework" = none := by
    unfold Domain.textColumn
    rw [if_neg (by decide), if_neg (by decide), if_neg (by decide), if_neg (by decide)]
  refine ⟨h, ?_, ?_, ?_⟩
  · unfold gapMatrix
    rw [h]
  · unfold domainCoverage
    rw [h]
  · unfold areasOfConcern
    rw [h]

/-- C1 (as amended): for every domain that has at least one mapping in the
document set, the per-domain aggregation of the report queries (the
`domainCoverage` query of the comprehensive report and the gap-analysis
report) has a row for that domain whose counts are the counts of the domain's
mappings in the set and whose `alignment_percentage` is `100 × (fully_aligned +
0.5 × partially_aligned) / total_mappings` rounded to two decimals; and every
row of these results is such a row of some domain. -/
theorem alignment_percentage_is_rounded_formula (db : DB) (hw : db.wellFormed) :
    (∀ qd ∈ db.qc2m2_domains, ∀ docIds : List Nat,
      0 < (mappingsOf db qd.id (some docIds)).length →
      (∃ row ∈ reportDomainCoverage db docIds,
        ReportsDomain qd (mappingsOf db qd.id (some docIds)) row.domain_code
          row.total_mappings row.fully_aligned row.partially_aligned
          row.alignment_percentage) ∧
      ∃ row ∈ gapAnalysisQuery db docIds,
        ReportsDomain qd (mappingsOf db qd.id (some docIds)) row.domain_code
          row.total_mappings row.fully_aligned row.partially_aligned
          row.alignment_percentage) ∧
    (∀ docIds, ∀ row ∈ reportDomainCoverage db docIds,
      ∃ qd ∈ db.qc2m2_domains,
        ReportsDomain qd (mappingsOf db qd.id (some docIds)) row.domain_code
          row.total_mappings row.fully_aligned row.partially_aligned
          row.alignment_percentage) ∧
    (∀ docIds, ∀ row ∈ gapAnalysisQuery db docIds,
      ∃ qd ∈ db.qc2m2_domains,
        ReportsDomain qd (mappingsOf db qd.id (some docIds)) row.domain_code
          row.total_mappings row.fully_aligned row.partially_aligned
          row.alignment_percentage) := by
  refine ⟨?_, ?_, ?_⟩
  · intro qd hq docIds hpos
    obtain ⟨g, hg, hgq⟩ := exists_group_of_mapping db hw
      (fun _ : Domain => true) (some docIds) reportKey (reportKey_iff db hw) qd hq rfl hpos
    subst hgq
    have := group_reports db hw (fun _ : Domain => true) (some docIds) _
      (reportKey_iff db hw) g hg
    rw [← reportGroups_eq] at hg
    exact ⟨⟨coverageRowOf g, (mem_reportDomainCoverage _ _ _).2 ⟨g, hg, rfl⟩, this⟩,
      ⟨gapRowOf g, (mem_gapAnalysisQuery _ _ _).2 ⟨g, hg, rfl⟩, this⟩⟩
  · intro docIds row hrow
    obtain ⟨g, hg, rfl⟩ := (mem_reportDomainCoverage _ _ _).1 hrow
    rw [reportGroups_eq] at hg
    have hgc := group_count db hw (fun _ : Domain => true) (some docIds) _
      (reportKey_iff db hw) g hg (fun _ => true)
    exact ⟨g.rep.qd, hgc.1, group_reports db hw (fun _ : Domain => true) (some docIds) _
      (reportKey_iff db hw) g hg⟩
  · intro docIds row hrow
    obtain ⟨g, hg, rfl⟩ := (mem_gapAnalysisQuery _ _ _).1 hrow
    rw [reportGroups_eq] at hg
    have hgc := group_count db hw (fun _ : Domain => true) (some docIds) _
      (reportKey_iff db hw) g hg (fun _ => true)
    exact ⟨g.rep.qd, hgc.1, group_reports db hw (fun _ : Domain => true) (some docIds) _
      (reportKey_iff db hw) g hg⟩

/-- Witness for C1: in `thresholdDB` domain 1 has 2 fully aligned and 2
partially aligned mappings out of 4 for document 1, and the gap-analysis
report gives it the percentage 75. -/
theorem alignment_percentage_is_rounded_formula_witness :
    thresholdDB.wellFormed ∧
    ∃ row ∈ gapAnalysisQuery thresholdDB [1],
      row.domain_code = "UNDERSTAND" ∧ row.total_mappings = 4 ∧ row.fully_aligned = 2 ∧
      row.partially_aligned = 2 ∧ row.alignment_percentage = some 75 := by
  refine ⟨by decide, ?_⟩
  obtain ⟨row, hrow, h1, h2, h3, h4, h5⟩ :=
    ((alignment_percentage_is_rounded_formula thresholdDB (by decide)).1
      (seedDomain 1 "Understand" "UNDERSTAND" "Understanding cybersecurity risks and threats")
      (by decide) [1] (by decide)).2
  refine ⟨row, hrow, ?_⟩
  rw [h1, h2, h3, h4, h5]
  decide!

/-- Counterexample to C1 as stated: with one fully aligned mapping out of three
for document 1, the gap-analysis report and the `domainCoverage` query of the
comprehensive report give the percentage 33.33, which is not
`100 × (1 + 0.5 × 0) / 3`. -/
theorem alignment_percentage_not_exact_formula :
    (∃ report, gapAnalysis thirdsDB (some [1]) = .json 200 report ∧
      report.gap_analysis.map (fun r =>
        (r.domain_code, r.total_mappings, r.fully_aligned, r.partially_aligned,
          r.alignment_percentage))
        = [("UNDERSTAND", 3, 1, 0, some (3333 / 100))]) ∧
    (reportDomainCoverage thirdsDB [1]).map (fun r =>
      (r.domain_code, r.total_mappings, r.fully_aligned, r.partially_aligned,
        r.alignment_percentage))
      = [("UNDERSTAND", 3, 1, 0, some (3333 / 100))] ∧
    (3333 / 100 : ℚ) ≠ alignmentFormula 1 0 3 := by
  refine ⟨⟨_, rfl, by decide!⟩, by decide!, by decide!⟩

/-- The percentage of a group is `NULL` exactly when the group has no
mapping, and the divisor `NULLIF(COUNT(m.id), 0)` of the percentage expression
is never zero. -/
theorem percentage_null_iff (g : List JoinRow) :
    (countMappingIds g = 0 → alignmentPercentage g = none) ∧
    (alignmentPercentage g = none → countMappingIds g = 0) ∧
    (∀ c : Nat, NULLIF (countMappingIds g) 0 = some c → c ≠ 0) := by
  refine ⟨alignmentPercentage_zero g, ?_, ?_⟩
  · intro h
    by_contra h0
    rw [alignmentPercentage_eq g h0] at h
    exact Option.noConfusion h
  · intro c h
    unfold NULLIF at h
    by_cases h0 : countMappingIds g = 0
    · rw [if_pos h0] at h
      exact Option.noConfusion h
    · rw [if_neg h0] at h
      exact fun hc => h0 ((Option.some.inj h).trans hc)

/-! ## Gap analysis, gap matrix and areas of concern -/

theorem snd_of_mem_leftJoin {α β : Type} (left : List α) (right : List β)
    (cond : α → β → Bool) (x : α × Option β) (hx : x ∈ leftJoin left right cond)
    (b : β) (hb : x.2 = some b) : cond x.1 b = true := by
  obtain ⟨a, ob⟩ := x
  simp only at hb
  subst hb
  exact ((mem_leftJoin_some left right cond a b).1 hx).2.2

theorem mapping_of_document (db : DB) (r : JoinRow) (hr : r ∈ domainsMappingsDocuments db)
    (hd : r.d.isSome = true) : r.m.isSome = true := by
  unfold domainsMappingsDocuments at hr
  obtain ⟨x, hx, rfl⟩ := List.mem_map.1 hr
  simp only at hd ⊢
  obtain ⟨d, hd1⟩ := Option.isSome_iff_exists.1 hd
  have hc := snd_of_mem_leftJoin _ _ _ x hx d hd1
  cases hm : x.1.2 with
  | none => rw [hm] at hc; exact absurd hc (by simp)
  | some m => rfl

theorem rep_mem_rows {α κ : Type} [DecidableEq κ] (key : α → κ) (rows : List α)
    (g : Group α) (hg : g ∈ groupBy key rows) : g.rep ∈ g.rows := by
  obtain ⟨h1, h2⟩ := mem_groupBy key rows g hg
  rw [h2, List.mem_filter]
  exact ⟨h1, by simp⟩

/-- Every group of the per-domain queries of `reports.js` has a mapping: the
`WHERE d.id IN (...)` keeps no row whose `m` is `NULL`. -/
theorem report_group_has_mapping (db : DB) (docIds : List Nat) (g : Group JoinRow)
    (hg : g ∈ reportGroups db docIds) : 0 < countMappingIds g.rows := by
  unfold reportGroups at hg
  have hrep := (mem_groupBy reportKey _ g hg).1
  unfold reportRows at hrep
  rw [List.mem_filter] at hrep
  have hd : g.rep.d.isSome = true := by
    have := hrep.2
    unfold inDocIds at this
    cases hgd : g.rep.d with
    | none => rw [hgd] at this; exact absurd this (by simp)
    | some d => rfl
  have hm := mapping_of_document db g.rep hrep.1 hd
  unfold countMappingIds
  rw [List.countP_pos_iff]
  exact ⟨g.rep, rep_mem_rows reportKey _ g hg, hm⟩

/-- No row of the gap-analysis report has `total_mappings = 0`, so none has the
status `No Coverage`. -/
theorem gap_analysis_row_has_mapping (db : DB) (docIds : List Nat) (row : GapRow)
    (hrow : row ∈ gapAnalysisQuery db docIds) :
    0 < row.total_mappings ∧ row.gap_status ≠ "No Coverage" := by
  unfold gapAnalysisQuery at hrow
  rw [mem_orderBy, List.mem_map] at hrow
  obtain ⟨g, hg, rfl⟩ := hrow
  have hpos := report_group_has_mapping db docIds g hg
  refine ⟨hpos, ?_⟩
  show gapStatus g.rows ≠ "No Coverage"
  unfold gapStatus
  rw [if_neg (Nat.pos_iff_ne_zero.1 hpos)]
  split_ifs <;> decide

/-- No row of the `lowAlignmentDomains` query has `total_mappings = 0`. -/
theorem low_alignment_row_has_mapping (db : DB) (docIds : List Nat) (row : LowAlignmentRow)
    (hrow : row ∈ lowAlignmentDomains db docIds) : 0 < row.total_mappings := by
  unfold lowAlignmentDomains at hrow
  rw [mem_orderBy, List.mem_filter, List.mem_map] at hrow
  obtain ⟨⟨g, hg, rfl⟩, _⟩ := hrow
  exact report_group_has_mapping db docIds g hg

/-- C2 (code evaluated at the failing input): in `thirdsDB` domain Secure has no
mapping for document 1. GET /domain-coverage answers 500, because its query
names the column `qd.framework` that the table lacks; the gap-analysis report
and the `domainCoverage` query of the comprehensive report for document 1 have
a row for domain Understand only, because `WHERE d.id IN (...)` drops the
domains without a mapping. No row of the report queries ever has
`total_mappings = 0`, so no domain without mappings is reported with a `NULL`
percentage, although the percentage expression gives `NULL` for a group
without mappings. -/
theorem zero_mapping_domain_is_never_reported :
    (mappingsOf thirdsDB 2 (some [1])).length = 0 ∧
    domainCoverage thirdsDB none (some [1])
      = .error 500 "Failed to generate domain coverage" ∧
    (∃ report, gapAnalysis thirdsDB (some [1]) = .json 200 report ∧
      report.gap_analysis.map (fun r =>
        (r.domain_code, r.total_mappings, r.alignment_percentage))
        = [("UNDERSTAND", 3, some (3333 / 100))]) ∧
    (reportDomainCoverage thirdsDB [1]).map (fun r =>
      (r.domain_code, r.total_mappings, r.alignment_percentage))
      = [("UNDERSTAND", 3, some (3333 / 100))] ∧
    (∀ (db : DB) (docIds : List Nat),
      (∀ row ∈ gapAnalysisQuery db docIds, 0 < row.total_mappings) ∧
      (∀ row ∈ reportDomainCoverage db docIds, 0 < row.total_mappings)) ∧
    (∀ g : List JoinRow, countMappingIds g = 0 → alignmentPercentage g = none) := by
  refine ⟨by decide, (analysis_answers_500 thirdsDB none (some [1])).2.2.1,
    ⟨_, rfl, by decide!⟩, by decide!, ?_, fun g => (percentage_null_iff g).1⟩
  intro db docIds
  constructor
  · intro row hrow
    exact (gap_analysis_row_has_mapping db docIds row hrow).1
  · intro row hrow
    obtain ⟨g, hg, rfl⟩ := (mem_reportDomainCoverage _ _ _).1 hrow
    exact report_group_has_mapping db docIds g hg

/-- C3 (code evaluated at the failing input): document 1 of `thirdsDB` has
three mappings, all to domain Understand. GET /gap-analysis for document 1
lists that domain only; the four domains without a mapping in the document set
are not listed, and the summary counts one domain and no `No Coverage` row. -/
theorem gap_analysis_omits_unmapped_domains :
    (gapAnalysisQuery thirdsDB [1]).map (fun r =>
      (r.domain_code, r.total_mappings, r.gap_status))
      = [("UNDERSTAND", 3, "Significant Gap")] ∧
    thirdsDB.qc2m2_domains.map (fun qd =>
      (qd.domain_code, (mappingsOf thirdsDB qd.id (some [1])).length))
      = [("UNDERSTAND", 3), ("SECURE", 0), ("EXPOSE", 0), ("RECOVER", 0), ("SUSTAIN", 0)] ∧
    (∃ report, gapAnalysis thirdsDB (some [1]) = .json 200 report ∧
      report.summary.total_domains = 1 ∧ report.summary.no_coverage = 0) := by
  refine ⟨by decide!, by decide, ⟨_, rfl, by decide!, by decide!⟩⟩

theorem mem_gapMatrixQuery (db : DB) (frameworkOf : Domain → Option String)
    (framework : String) (document_ids : Option (List Nat))
    (row : MatrixRow) (hrow : row ∈ gapMatrixQuery db frameworkOf framework document_ids) :
    ∃ g ∈ groupBy (fun r : JoinRow => (r.qd.id, r.d.map fun d => d.id))
      (gapMatrixRows db frameworkOf framework document_ids), matrixRowOf g = row := by
  unfold gapMatrixQuery at hrow
  obtain ⟨g, hg, hrow⟩ := List.mem_map.1 hrow
  exact ⟨g, (mem_orderBy _ _ _).1 hg, hrow⟩

theorem mem_crossJoin {α β : Type} (left : List α) (right : List β) (x : α × β) :
    x ∈ crossJoin left right ↔ x.1 ∈ left ∧ x.2 ∈ right := by
  unfold crossJoin
  rw [List.mem_flatMap]
  constructor
  · rintro ⟨a, ha, hx⟩
    obtain ⟨b, hb, rfl⟩ := List.mem_map.1 hx
    exact ⟨ha, hb⟩
  · rintro ⟨h1, h2⟩
    exact ⟨x.1, h1, List.mem_map.2 ⟨x.2, h2, rfl⟩⟩

theorem crossJoin_keys_nodup (db : DB) (hw : db.wellFormed) :
    ((crossJoin db.qc2m2_domains db.documents).map
      fun x => (x.1.id, x.2.id)).Nodup := by
  have h1 : db.qc2m2_domains.Nodup := List.Nodup.of_map _ hw.1
  have h2 : db.documents.Nodup := List.Nodup.of_map _ hw.2.1
  have hp : (crossJoin db.qc2m2_domains db.documents).Nodup := List.Nodup.product h1 h2
  apply List.Nodup.map_on _ hp
  intro x hx y hy hxy
  rw [mem_crossJoin] at hx hy
  have e1 := eq_of_id_eq (fun d : Domain => d.id) _ hw.1 x.1 y.1 hx.1 hy.1
    (Prod.mk.inj hxy).1
  have e2 := eq_of_id_eq (fun d : Document => d.id) _ hw.2.1 x.2 y.2 hx.2 hy.2
    (Prod.mk.inj hxy).2
  exact Prod.ext e1 e2

theorem count_cell_rows (db : DB) (hw : db.wellFormed) (qd : Domain)
    (hq : qd ∈ db.qc2m2_domains) (d : Document) (hd : d ∈ db.documents)
    (P : Mapping → Bool) :
    (domainsCrossDocumentsMappings db).countP (fun r =>
        decide ((r.qd.id, r.d.map fun d => d.id) = (qd.id, some d.id)) && r.m.any P)
      = (cellMappings db qd.id d.id).countP P := by
  unfold domainsCrossDocumentsMappings cellMappings
  rw [List.countP_map, List.countP_filter]
  have hfun : ((fun r : JoinRow =>
        decide ((r.qd.id, r.d.map fun d => d.id) = (qd.id, some d.id)) && r.m.any P) ∘
      fun x : (Domain × Document) × Option Mapping =>
        (⟨x.1.1, x.2, some x.1.2⟩ : JoinRow))
      = fun x : (Domain × Document) × Option Mapping =>
          x.2.any fun m => decide ((x.1.1.id, x.1.2.id) = (qd.id, d.id)) && P m := by
    funext x
    obtain ⟨⟨a, b⟩, om⟩ := x
    cases om with
    | none => simp
    | some m => simp
  rw [hfun, count_leftJoin (crossJoin db.qc2m2_domains db.documents) db.mappings _
      (fun a m => decide ((a.1.id, a.2.id) = (qd.id, d.id)) && P m),
    sum_map_single (crossJoin db.qc2m2_domains db.documents)
      (fun x => (x.1.id, x.2.id)) _ (qd, d) ((mem_crossJoin _ _ _).2 ⟨hq, hd⟩)
      (crossJoin_keys_nodup db hw)]
  · apply List.countP_congr
    intro m _
    simp only [Bool.and_eq_true, beq_iff_eq, decide_eq_true_eq]
    constructor
    · rintro ⟨⟨h1, h2⟩, _, h4⟩
      exact ⟨h4, h1.symm, h2.symm⟩
    · rintro ⟨h4, h1, h2⟩
      exact ⟨⟨h1.symm, h2.symm⟩, trivial, h4⟩
  · intro x _ hne
    rw [List.countP_eq_zero]
    intro m _
    simp only [Bool.and_eq_true, decide_eq_true_eq, not_and]
    intro _ h
    exact absurd h hne

/-- The counts of a cell of the gap matrix are the counts over the mapping rows
of the cell's domain and document. -/
theorem cell_count (db : DB) (hw : db.wellFormed) (frameworkOf : Domain → Option String)
    (framework : String) (document_ids : Option (List Nat)) (g : Group JoinRow)
    (hg : g ∈ groupBy (fun r : JoinRow => (r.qd.id, r.d.map fun d => d.id))
      (gapMatrixRows db frameworkOf framework document_ids)) :
    ∃ qd ∈ db.qc2m2_domains, ∃ d ∈ db.documents, g.rep.qd = qd ∧ g.rep.d = some d ∧
      ∀ P : Mapping → Bool, countRows P g.rows = (cellMappings db qd.id d.id).countP P := by
  obtain ⟨hrep, hrows⟩ := mem_groupBy _ _ g hg
  unfold gapMatrixRows at hrep hrows
  rw [List.mem_filter] at hrep
  obtain ⟨hmem, hW⟩ := hrep
  have hshape : ∀ r ∈ domainsCrossDocumentsMappings db,
      r.qd ∈ db.qc2m2_domains ∧ ∃ d ∈ db.documents, r.d = some d := by
    intro r hr
    unfold domainsCrossDocumentsMappings at hr
    obtain ⟨x, hx, rfl⟩ := List.mem_map.1 hr
    have := (mem_crossJoin _ _ _).1 (fst_mem_of_mem_leftJoin _ _ _ _ hx)
    exact ⟨this.1, x.1.2, this.2, rfl⟩
  obtain ⟨hq, d, hd, hgd⟩ := hshape g.rep hmem
  refine ⟨g.rep.qd, hq, d, hd, rfl, hgd, ?_⟩
  intro P
  unfold countRows
  rw [hrows, List.countP_filter, List.countP_filter,
    ← count_cell_rows db hw g.rep.qd hq d hd P]
  apply List.countP_congr
  intro r hr
  obtain ⟨hrq, d1, hd1, hrd⟩ := hshape r hr
  have hW_of : r.qd.id = g.rep.qd.id → d1.id = d.id →
      (frameworkOf r.qd == some framework && extraFilter document_ids r) = true := by
    intro h2 h3
    have e1 : r.qd = g.rep.qd :=
      eq_of_id_eq (fun d : Domain => d.id) _ hw.1 r.qd g.rep.qd hrq hq h2
    have e2 : d1 = d := eq_of_id_eq (fun d : Document => d.id) _ hw.2.1 d1 d hd1 hd h3
    rw [extraFilter_eq, e1, hrd, e2, ← hgd, ← extraFilter_eq]
    exact hW
  simp only [Bool.and_eq_true, decide_eq_true_eq, hgd, hrd, Option.map_some',
    Prod.mk.injEq, Option.some.injEq]
  constructor
  · rintro ⟨⟨h1, h2, h3⟩, _⟩
    exact ⟨⟨h2, h3⟩, h1⟩
  · rintro ⟨⟨h2, h3⟩, h1⟩
    exact ⟨⟨h1, h2, h3⟩, by simpa only [Bool.and_eq_true] using hW_of h2 h3⟩

/-- The query of GET /gap-matrix, for a table that has the column
`qd.framework`: the `coverage_status` of every cell is decided from the cell's
counts alone, in priority order; two cells that agree on which of the three
counts are zero have the same status; and the counts of a cell are the numbers
of mapping rows of the cell's domain and document. -/
theorem gapMatrixQuery_coverage_status (db : DB) (frameworkOf : Domain → Option String)
    (framework : String) (document_ids : Option (List Nat)) (row : MatrixRow)
    (hrow : row ∈ gapMatrixQuery db frameworkOf framework document_ids) :
    row.coverage_status =
      (if row.total_mappings = 0 then "no_coverage"
       else if 1 ≤ row.fully_aligned then "strong_coverage"
       else if 1 ≤ row.partially_aligned then "partial_coverage"
       else "weak_coverage") ∧
    (∀ (db1 : DB) (framework1 : String) (document_ids1 : Option (List Nat)),
      ∀ row1 ∈ gapMatrixQuery db1 frameworkOf framework1 document_ids1,
        (row.total_mappings = 0 ↔ row1.total_mappings = 0) →
        (row.fully_aligned = 0 ↔ row1.fully_aligned = 0) →
        (row.partially_aligned = 0 ↔ row1.partially_aligned = 0) →
        row.coverage_status = row1.coverage_status) ∧
    (db.wellFormed → ∃ qd ∈ db.qc2m2_domains, ∃ d ∈ db.documents,
      row.domain_code = qd.domain_code ∧ row.document_id = some d.id ∧
      row.total_mappings = (cellMappings db qd.id d.id).length ∧
      row.fully_aligned = statusCount "fully_aligned" (cellMappings db qd.id d.id) ∧
      row.partially_aligned
        = statusCount "partially_aligned" (cellMappings db qd.id d.id)) := by
  have rule : ∀ g : Group JoinRow, (matrixRowOf g).coverage_status =
      (if (matrixRowOf g).total_mappings = 0 then "no_coverage"
       else if 1 ≤ (matrixRowOf g).fully_aligned then "strong_coverage"
       else if 1 ≤ (matrixRowOf g).partially_aligned then "partial_coverage"
       else "weak_coverage") := fun g => rfl
  obtain ⟨g, hg, rfl⟩ := mem_gapMatrixQuery db frameworkOf framework document_ids row hrow
  refine ⟨rule g, ?_, ?_⟩
  · intro db1 framework1 document_ids1 row1 hrow1 ht hf hp
    obtain ⟨g1, _, rfl⟩ :=
      mem_gapMatrixQuery db1 frameworkOf framework1 document_ids1 row1 hrow1
    rw [rule g, rule g1]
    have e1 : ∀ n : Nat, (1 ≤ n) ↔ ¬ n = 0 := fun n => by omega
    simp only [e1, ht, hf, hp]
  · intro hw
    obtain ⟨qd, hq, d, hd, hgq, hgd, hcount⟩ :=
      cell_count db hw frameworkOf framework document_ids g hg
    refine ⟨qd, hq, d, hd, ?_, ?_, ?_, ?_, ?_⟩
    · show g.rep.qd.domain_code = qd.domain_code
      rw [hgq]
    · show (g.rep.d.map fun d => d.id) = some d.id
      rw [hgd]
      rfl
    · show countMappingIds g.rows = _
      rw [countMappingIds_eq, hcount]
      simp
    · show sumStatus "fully_aligned" g.rows = _
      rw [sumStatus_eq, hcount]
      rfl
    · show sumStatus "partially_aligned" g.rows = _
      rw [sumStatus_eq, hcount]
      rfl

/-- C4 (code evaluated at the failing input): the statement of GET /gap-matrix
names the column `qd.framework`, which `CREATE TABLE qc2m2_domains` of
`database.js` does not create, so the promise of `query` rejects and the
handler answers 500 to every request, with or without `framework` and
`document_ids`: no cell with a `coverage_status` is ever returned. For
document 1 of `thresholdDB`, whose cell of domain Expose has one fully aligned
and five not aligned mappings, the `CASE` of the statement would give
`strong_coverage` on the rows of that cell. -/
theorem gap_matrix_is_never_returned (db : DB) (framework : Option String)
    (document_ids : Option (List Nat)) :
    Domain.textColumn "framework" = none ∧
    gapMatrix db framework document_ids = .error 500 "Failed to generate gap matrix" ∧
    gapMatrix thresholdDB none (some [1]) = .error 500 "Failed to generate gap matrix" ∧
    coverageStatus ((domainsCrossDocumentsMappings thresholdDB).filter fun r =>
      r.qd.id == 3 && (r.d.map fun d => d.id) == some 1) = "strong_coverage" := by
  refine ⟨(analysis_answers_500 db framework document_ids).1,
    (analysis_answers_500 db framework document_ids).2.1,
    (analysis_answers_500 thresholdDB none (some [1])).2.1, by decide⟩

/-- C5: the `gap_status` of every row of the gap-analysis report is one of five
values, chosen in this order from the row's counts: `No Coverage` when
`total_mappings = 0`, otherwise by the (unrounded) percentage
`100 × (fully_aligned + 0.5 × partially_aligned) / total_mappings`:
`Critical Gap` below 25, `Significant Gap` below 50, `Minor Gap` below 75 and
`Adequate Coverage` from 75 on. -/
theorem gap_status_thresholds (db : DB) (docIds : List Nat) (row : GapRow)
    (hrow : row ∈ gapAnalysisQuery db docIds) :
    row.gap_status =
      (if row.total_mappings = 0 then "No Coverage"
       else if alignmentFormula row.fully_aligned row.partially_aligned row.total_mappings < 25
         then "Critical Gap"
       else if alignmentFormula row.fully_aligned row.partially_aligned row.total_mappings < 50
         then "Significant Gap"
       else if alignmentFormula row.fully_aligned row.partially_aligned row.total_mappings < 75
         then "Minor Gap"
       else "Adequate Coverage") ∧
    row.gap_status ∈
      ["No Coverage", "Critical Gap", "Significant Gap", "Minor Gap", "Adequate Coverage"] := by
  obtain ⟨g, _, rfl⟩ := (mem_gapAnalysisQuery _ _ _).1 hrow
  have h1 : (gapRowOf g).gap_status =
      (if (gapRowOf g).total_mappings = 0 then "No Coverage"
       else if alignmentFormula (gapRowOf g).fully_aligned (gapRowOf g).partially_aligned
          (gapRowOf g).total_mappings < 25 then "Critical Gap"
       else if alignmentFormula (gapRowOf g).fully_aligned (gapRowOf g).partially_aligned
          (gapRowOf g).total_mappings < 50 then "Significant Gap"
       else if alignmentFormula (gapRowOf g).fully_aligned (gapRowOf g).partially_aligned
          (gapRowOf g).total_mappings < 75 then "Minor Gap"
       else "Adequate Coverage") := by
    show gapStatus g.rows = _
    unfold gapStatus
    by_cases h0 : countMappingIds g.rows = 0
    · have : (gapRowOf g).total_mappings = 0 := h0
      rw [if_pos h0, if_pos this]
    · have : ¬ (gapRowOf g).total_mappings = 0 := h0
      rw [if_neg h0, if_neg this, alignmentExpr_eq g.rows h0]
      simp only [sqlLt, decide_eq_true_eq]
      rfl
  refine ⟨h1, ?_⟩
  rw [h1]
  split_ifs <;> simp

/-- Witness for C5: in `thresholdDB` one domain is at exactly 75 and is
`Adequate Coverage`, and one is at exactly 25 and is `Significant Gap`. -/
theorem gap_status_thresholds_witness :
    ∃ r1 ∈ gapAnalysisQuery thresholdDB [1], ∃ r2 ∈ gapAnalysisQuery thresholdDB [1],
      alignmentFormula r1.fully_aligned r1.partially_aligned r1.total_mappings = 75 ∧
      r1.gap_status = "Adequate Coverage" ∧
      alignmentFormula r2.fully_aligned r2.partially_aligned r2.total_mappings = 25 ∧
      r2.gap_status = "Significant Gap" := by
  have h1 : ({ domain_name := "Understand", domain_code := "UNDERSTAND"
               description := some "Understanding cybersecurity risks and threats"
               total_mappings := 4, fully_aligned := 2, partially_aligned := 2
               not_aligned := 0, avg_maturity_level := some 2
               alignment_percentage := some 75
               gap_status := "Adequate Coverage" } : GapRow)
      ∈ gapAnalysisQuery thresholdDB [1] := by decide!
  have h2 : ({ domain_name := "Secure", domain_code := "SECURE"
               description := some "Implementing security controls and measures"
               total_mappings := 4, fully_aligned := 1, partially_aligned := 0
               not_aligned := 3, avg_maturity_level := some 2
               alignment_percentage := some 25
               gap_status := "Significant Gap" } : GapRow)
      ∈ gapAnalysisQuery thresholdDB [1] := by decide!
  refine ⟨_, h1, _, h2, by decide!, ?_, by decide!, ?_⟩
  · exact (gap_status_thresholds thresholdDB [1] _ h1).1.trans (by decide!)
  · exact (gap_status_thresholds thresholdDB [1] _ h2).1.trans (by decide!)

/-- C6 (code evaluated at the failing input): in `thirdsDB` domain Understand
is at 33.33 for document 1 and the other four domains have no mapping for it.
The areas-of-concern list of the comprehensive report and the list of the
recommendations report contain Understand only: no domain with zero mappings
is listed. -/
theorem areas_of_concern_omit_unmapped_domains :
    (reportAreasOfConcern thirdsDB [1]).map (fun r => r.domain_code) = ["UNDERSTAND"] ∧
    (lowAlignmentDomains thirdsDB [1]).map (fun r => r.domain_code) = ["UNDERSTAND"] ∧
    (∃ report, recommendations thirdsDB (some [1]) = .json 200 report ∧
      report.recommendations.map (fun r => r.domain_code) = ["UNDERSTAND"]) ∧
    (thirdsDB.qc2m2_domains.filter fun qd =>
      (mappingsOf thirdsDB qd.id (some [1])).length == 0).map (fun qd => qd.domain_code)
      = ["SECURE", "EXPOSE", "RECOVER", "SUSTAIN"] := by
  refine ⟨by decide!, by decide!, ⟨_, rfl, by decide!⟩, by decide⟩

/-! ## Mapping service -/

/-- The duplicate check of POST / never fires for a request without section:
`section_id = NULL` is not true for any row. -/
theorem create_without_section_never_conflicts (db : DB) (user : Option Nat) (now : Nat)
    (body : CreateBody) (hs : body.section_id.orNullNat = none) (msg : String) :
    (createMapping db user now body).2 ≠ .error 409 msg := by
  have hfind : ∀ (doc dom : Nat), db.mappings.find? (fun m =>
      m.document_id == doc && sqlEq m.section_id body.section_id.orNullNat
        && m.domain_id == dom) = none := by
    intro doc dom
    rw [List.find?_eq_none]
    intro m _
    rw [hs]
    cases m.section_id <;> simp [sqlEq]
  unfold createMapping
  simp only [hfind]
  split_ifs
  · simp
  · simp
  · split <;> simp

/-- C7 (code evaluated at the failing input): on `seedDB`, creating the mapping
(document 1, no section, domain 1) twice answers 201 both times and stores two
rows with the same triple; the same two requests for a section of the document
answer 201 and then 409. -/
theorem duplicate_null_section_mapping_is_created :
    (createMapping seedDB none 1 wholeDocumentBody).2
      = .json 201 (some (sampleMapping 1 1 1 "fully_aligned")) ∧
    (createMapping (createMapping seedDB none 1 wholeDocumentBody).1 none 2
        wholeDocumentBody).2
      = .json 201 (some (sampleMapping 2 1 1 "fully_aligned")) ∧
    (createMapping (createMapping seedDB none 1 wholeDocumentBody).1 none 2
        wholeDocumentBody).1.mappings.map Mapping.triple
      = [(1, none, 1), (1, none, 1)] ∧
    (createMapping (createMapping seedDB none 1 (sectionBody 1)).1 none 2
        (sectionBody 1)).2
      = .error 409 "Mapping already exists for this document-section-domain combination" := by
  decide

/-- C8 (code evaluated at the failing input): two sequences of requests that
start from `seedDB` and end in a state with two mappings for one triple: the
same create without section twice, and two creates for section 1 followed by
an update that moves the second mapping to the domain of the first. -/
theorem reachable_state_with_duplicate_triple :
    (runRequests seedDB [.create none 1 wholeDocumentBody,
        .create none 2 wholeDocumentBody]).mappings.map Mapping.triple
      = [(1, none, 1), (1, none, 1)] ∧
    (runRequests seedDB [.create none 1 (sectionBody 1), .create none 2 (sectionBody 2),
        .update 2 moveToDomainOne]).mappings.map Mapping.triple
      = [(1, some 1, 1), (1, some 1, 1)] ∧
    (updateMapping (runRequests seedDB [.create none 1 (sectionBody 1),
        .create none 2 (sectionBody 2)]) 2 moveToDomainOne).2
      = .json 200 (some { sampleMapping 2 1 1 "fully_aligned" with section_id := some 1 }) := by
  decide

/-! ## Overall alignment score -/

theorem mappingsJoined_eq (db : DB) (hw : db.wellFormed) :
    mappingsJoined db = db.mappings.map fun m =>
      ⟨m, db.documents.find? (fun d => m.document_id == d.id),
        db.qc2m2_domains.find? (fun qd => m.domain_id == qd.id),
        db.document_sections.find? (fun ds => m.section_id == some ds.id),
        db.users.find? (fun u => m.mapped_by == u.id)⟩ := by
  unfold mappingsJoined
  rw [leftJoin_eq_map_find db.mappings db.documents _
      (fun m _ => filter_key_length_le_one (fun d : Document => d.id) _ _ hw.2.1),
    leftJoin_eq_map_find _ db.qc2m2_domains _
      (fun x _ => filter_key_length_le_one (fun d : Domain => d.id) _ _ hw.1),
    leftJoin_eq_map_find _ db.document_sections _ ?_,
    leftJoin_eq_map_find _ db.users _
      (fun x _ => filter_key_length_le_one (fun u : User => u.id) _ _ hw.2.2.2.1)]
  · simp only [List.map_map]
    rfl
  · intro x _
    cases hs : x.1.1.section_id with
    | none => simp
    | some k =>
      have := filter_key_length_le_one (fun ds : Section => ds.id) db.document_sections k
        hw.2.2.1
      simpa using this

theorem countP_orderBy {α : Type} (le : α → α → Bool) (l : List α) (p : α → Bool) :
    (orderBy le l).countP p = l.countP p :=
  (List.perm_insertionSort _ l).countP_eq p

theorem detailed_countP (db : DB) (hw : db.wellFormed) (docIds : List Nat)
    (p : String → Bool) :
    (detailedMappings db docIds).countP (fun r => p r.alignment_status)
      = (documentSetMappings db docIds).countP fun m => p m.alignment_status := by
  unfold detailedMappings documentSetMappings
  rw [List.countP_map, countP_orderBy, List.countP_filter,
    List.countP_filter, mappingsJoined_eq db hw, List.countP_map]
  apply List.countP_congr
  intro m hm
  obtain ⟨d, hd, hid⟩ := hw.2.2.2.2 m hm
  cases hf : db.documents.find? fun d => m.document_id == d.id with
  | none =>
    rw [List.find?_eq_none] at hf
    exact absurd (by simp [hid]) (hf d hd)
  | some d1 =>
    have h1 := List.find?_some hf
    have h2 : m.document_id = d1.id := by simpa using h1
    simp only [Function.comp_apply, hf]
    simp [detailRowOf, h2]

theorem detailed_length (db : DB) (hw : db.wellFormed) (docIds : List Nat) :
    (detailedMappings db docIds).length = (documentSetMappings db docIds).length := by
  have := detailed_countP db hw docIds fun _ => true
  simpa using this

theorem detailed_countStatus (db : DB) (hw : db.wellFormed) (docIds : List Nat)
    (status : String) :
    countStatus status (detailedMappings db docIds)
      = statusCount status (documentSetMappings db docIds) := by
  unfold countStatus statusCount
  rw [← List.countP_eq_length_filter]
  exact detailed_countP db hw docIds fun s => s == status

theorem overallAlignmentScore_perm (rows rows1 : List DetailRow) (h : rows1.Perm rows) :
    overallAlignmentScore rows1 = overallAlignmentScore rows := by
  unfold overallAlignmentScore countStatus
  simp only [h.length_eq, (h.filter _).length_eq]

theorem overallAlignmentScore_eq (db : DB) (hw : db.wellFormed) (docIds : List Nat) :
    overallAlignmentScore (detailedMappings db docIds) =
      if 0 < (documentSetMappings db docIds).length then
        round2 (alignmentFormula
          (statusCount "fully_aligned" (documentSetMappings db docIds))
          (statusCount "partially_aligned" (documentSetMappings db docIds))
          (documentSetMappings db docIds).length)
      else 0 := by
  unfold overallAlignmentScore
  simp only [detailed_length db hw, detailed_countStatus db hw, gt_iff_lt]
  split_ifs
  · congr 1
    unfold alignmentFormula
    ring
  · rfl

/-- C9 (as amended): the overall alignment score that the handler of the
comprehensive report computes over a document set with at least one mapping is
`100 × (fully aligned + 0.5 × partially aligned) / total` over all mappings of
the set, rounded to two decimals; it is unchanged by any reordering of the
rows of table `mappings` and by any reordering of the queried mapping rows. -/
theorem overall_score_is_rounded_formula (db : DB) (hw : db.wellFormed) (docIds : List Nat) :
    (0 < (documentSetMappings db docIds).length →
      overallAlignmentScore (detailedMappings db docIds) =
        round2 (alignmentFormula
          (statusCount "fully_aligned" (documentSetMappings db docIds))
          (statusCount "partially_aligned" (documentSetMappings db docIds))
          (documentSetMappings db docIds).length)) ∧
    (∀ ms : List Mapping, ms.Perm db.mappings →
      overallAlignmentScore (detailedMappings { db with mappings := ms } docIds)
        = overallAlignmentScore (detailedMappings db docIds)) ∧
    (∀ rows : List DetailRow, rows.Perm (detailedMappings db docIds) →
      overallAlignmentScore rows = overallAlignmentScore (detailedMappings db docIds)) := by
  refine ⟨?_, ?_, ?_⟩
  · intro hpos
    rw [overallAlignmentScore_eq db hw, if_pos hpos]
  · intro ms hperm
    have hw1 : DB.wellFormed { db with mappings := ms } :=
      ⟨hw.1, hw.2.1, hw.2.2.1, hw.2.2.2.1, fun m hm => hw.2.2.2.2 m (hperm.mem_iff.1 hm)⟩
    have hp : (documentSetMappings { db with mappings := ms } docIds).Perm
        (documentSetMappings db docIds) := hperm.filter _
    rw [overallAlignmentScore_eq db hw, overallAlignmentScore_eq _ hw1]
    unfold statusCount
    simp only [hp.length_eq, hp.countP_eq]
  · intro rows hperm
    exact overallAlignmentScore_perm _ _ hperm

/-- Witness for C9: document 1 of `thresholdDB` has 14 mappings, 4 fully and 2
partially aligned; the overall score is 35.71. -/
theorem overall_score_is_rounded_formula_witness :
    thresholdDB.wellFormed ∧ 0 < (documentSetMappings thresholdDB [1]).length ∧
    overallAlignmentScore (detailedMappings thresholdDB [1]) = 3571 / 100 := by
  refine ⟨by decide, by decide, ?_⟩
  rw [(overall_score_is_rounded_formula thresholdDB (by decide) [1]).1 (by decide)]
  decide!

/-- Counterexample to C9 as stated: document 1 of `thirdsDB` has one fully
aligned mapping out of three; the overall score is 33.33, which is not
`100 × (1 + 0.5 × 0) / 3`. -/
theorem overall_score_not_exact_formula :
    (detailedMappings thirdsDB [1]).map (fun r => r.alignment_status)
      = ["fully_aligned", "not_aligned", "not_aligned"] ∧
    overallAlignmentScore (detailedMappings thirdsDB [1]) = 3333 / 100 ∧
    (3333 / 100 : ℚ) ≠ alignmentFormula 1 0 3 := by
  decide!

/-- The `report` literal of GET /comprehensive reads `total_mappings`, which no
declaration binds, so every request with a `document_ids` parameter is answered
with status 500 after the queries and the score have been computed. -/
theorem comprehensive_answers_500 (db : DB) (docIds : List Nat) :
    referenceError comprehensiveBound comprehensiveReads = some "total_mappings" ∧
    comprehensive db (some docIds) = .error 500 "Failed to generate comprehensive report" := by
  have h : referenceError comprehensiveBound comprehensiveReads = some "total_mappings" := by
    decide
  refine ⟨h, ?_⟩
  unfold comprehensive
  simp only [h]

/-! ## Recommendations -/

theorem mem_lowAlignmentDomains (db : DB) (docIds : List Nat) (d : LowAlignmentRow)
    (hd : d ∈ lowAlignmentDomains db docIds) :
    (∃ g ∈ reportGroups db docIds, lowAlignmentRowOf g = d) ∧
    (sqlLt d.alignment_percentage 50 || d.total_mappings == 0) = true := by
  unfold lowAlignmentDomains at hd
  rw [mem_orderBy, List.mem_filter, List.mem_map] at hd
  exact hd

/-- C10: every entry of the recommendations report has priority `High` when
its domain has zero mappings or an `alignment_percentage` below 25, and
`Medium` when its `alignment_percentage` is in [25, 50); the priority that the
handler derives from a row depends on `total_mappings` and
`alignment_percentage` only. -/
theorem recommendation_priority (db : DB) (docIds : List Nat) (report : RecommendationReport)
    (h : recommendations db (some docIds) = .json 200 report)
    (r : Recommendation) (hr : r ∈ report.recommendations) :
    ((r.total_mappings = 0 ∨ ∃ p, r.alignment_percentage = some p ∧ p < 25) →
      r.priority = "High") ∧
    ((∃ p, r.alignment_percentage = some p ∧ 25 ≤ p ∧ p < 50) → r.priority = "Medium") ∧
    (∀ d1 d2 : LowAlignmentRow, d1.total_mappings = d2.total_mappings →
      d1.alignment_percentage = d2.alignment_percentage →
      (recommend d1).priority = (recommend d2).priority) := by
  unfold recommendations at h
  simp only [Response.json.injEq, true_and] at h
  subst h
  simp only at hr
  obtain ⟨d, hd, rfl⟩ := List.mem_map.1 hr
  obtain ⟨⟨g, _, rfl⟩, _⟩ := mem_lowAlignmentDomains db docIds d hd
  have hprio : ∀ d : LowAlignmentRow, (recommend d).priority =
      if d.total_mappings = 0 then "High"
      else if jsLt d.alignment_percentage 25 then "High"
      else if jsLt d.alignment_percentage 50 then "Medium"
      else "" := by
    intro d
    unfold recommend
    simp only
    split_ifs <;> rfl
  refine ⟨?_, ?_, ?_⟩
  · rintro (h0 | ⟨p, hp, hlt⟩)
    · rw [hprio]
      exact if_pos h0
    · rw [hprio]
      have hp1 : (lowAlignmentRowOf g).alignment_percentage = some p := hp
      split_ifs with h1 h2
      · rfl
      · rfl
      · rw [hp1] at h2
        exact absurd (by simpa [jsLt] using hlt) h2
      · rw [hp1] at h2
        exact absurd (by simpa [jsLt] using hlt) h2
  · rintro ⟨p, hp, hge, hlt⟩
    have hp1 : (lowAlignmentRowOf g).alignment_percentage = some p := hp
    have h0 : ¬ (lowAlignmentRowOf g).total_mappings = 0 := by
      intro h0
      have : alignmentPercentage g.rows = none := alignmentPercentage_zero g.rows h0
      have hp2 : alignmentPercentage g.rows = some p := hp
      rw [this] at hp2
      exact Option.noConfusion hp2
    rw [hprio, if_neg h0, hp1]
    have h25 : jsLt (some p) 25 = false := by simpa [jsLt] using hge
    have h50 : jsLt (some p) 50 = true := by simpa [jsLt] using hlt
    simp [h25, h50]
  · intro d1 d2 ht hp
    rw [hprio, hprio, ht, hp]

/-- Witness for C10: for document 1 of `thresholdDB` the recommendations report
has an entry at 16.67 with priority `High` and an entry at exactly 25 with
priority `Medium`. -/
theorem recommendation_priority_witness :
    ∃ report, recommendations thresholdDB (some [1]) = .json 200 report ∧
      ∃ r1 ∈ report.recommendations, ∃ r2 ∈ report.recommendations,
        r1.domain_code = "EXPOSE" ∧ r1.alignment_percentage = some (1667 / 100) ∧
        r1.priority = "High" ∧
        r2.domain_code = "SECURE" ∧ r2.alignment_percentage = some 25 ∧
        r2.priority = "Medium" := by
  refine ⟨_, rfl, ?_⟩
  have h1 : ({ domain_name := "Expose", domain_code := "EXPOSE"
               description := some "Detecting and identifying security incidents"
               alignment_percentage := some (1667 / 100), total_mappings := 6
               recommendation := "Strengthen existing expose policies. Review current implementations and enhance coverage for critical areas."
               priority := "High" } : Recommendation)
      ∈ (lowAlignmentDomains thresholdDB [1]).map recommend := by decide!
  have h2 : ({ domain_name := "Secure", domain_code := "SECURE"
               description := some "Implementing security controls and measures"
               alignment_percentage := some 25, total_mappings := 4
               recommendation := "Improve alignment in secure domain. Identify specific gaps and develop targeted improvements."
               priority := "Medium" } : Recommendation)
      ∈ (lowAlignmentDomains thresholdDB [1]).map recommend := by decide!
  refine ⟨_, h1, _, h2, rfl, rfl, ?_, rfl, rfl, ?_⟩
  · exact (recommendation_priority thresholdDB [1] _ rfl _ h1).1
      (Or.inr ⟨1667 / 100, rfl, by norm_num⟩)
  · exact (recommendation_priority thresholdDB [1] _ rfl _ h2).2.1
      ⟨25, rfl, by norm_num, by norm_num⟩

/-! ## Mapping service: validation and frame of create and update -/

theorem applyUpdate_spec (id : Nat) (body : UpdateBody) (m m1 : Mapping)
    (hid : m.id = id) (h : applyUpdate body m = some m1) : UpdatedRow id body m m1 := by
  unfold applyUpdate at h
  unfold UpdatedRow
  obtain ⟨d, l, s, n⟩ := body
  cases d <;> cases l <;> cases s <;> cases n <;> simp at h <;> subst h <;> simp [hid]

theorem forall₂_of_all_some {α : Type} (R : α → α → Prop) (f : α → Option α) (l : List α)
    (hf : ∀ m m1, f m = some m1 → R m m1)
    (hall : (l.map f).all (fun x => x.isSome) = true) :
    List.Forall₂ R l ((l.map f).filterMap fun x => x) := by
  induction l with
  | nil => exact List.Forall₂.nil
  | cons m ms ih =>
    rw [List.map_cons, List.all_cons, Bool.and_eq_true] at hall
    obtain ⟨m1, hm1⟩ := Option.isSome_iff_exists.1 hall.1
    rw [List.map_cons, hm1]
    show List.Forall₂ R (m :: ms) (m1 :: (ms.map f).filterMap fun x => x)
    exact List.Forall₂.cons (hf m m1 hm1) (ih hall.2)

theorem updateMappingRows_spec (db db1 : DB) (id : Nat) (body : UpdateBody)
    (h : updateMappingRows db id body = some db1) :
    List.Forall₂ (UpdatedRow id body) db.mappings db1.mappings ∧
      db1 = { db with mappings := db1.mappings } := by
  unfold updateMappingRows at h
  simp only at h
  split_ifs at h with hall
  simp only [Option.some.injEq] at h
  subst h
  refine ⟨?_, rfl⟩
  apply forall₂_of_all_some _ _ _ _ hall
  intro m m1 hm
  by_cases hid : m.id = id
  · rw [if_pos hid] at hm
    cases hu : applyUpdate body m with
    | none => rw [hu] at hm; exact Option.noConfusion hm
    | some m2 =>
      rw [hu] at hm
      simp only at hm
      split_ifs at hm
      simp only [Option.some.injEq] at hm
      subst hm
      exact applyUpdate_spec id body m m2 hid hu
  · rw [if_neg hid] at hm
    simp only [Option.some.injEq] at hm
    subst hm
    unfold UpdatedRow
    simp [hid]

theorem falsyNat_false (f : Field Nat) (h : f.falsyNat = false) :
    ∃ v, f = .value v ∧ v ≠ 0 := by
  cases f with
  | undefined => simp [Field.falsyNat] at h
  | null => simp [Field.falsyNat] at h
  | value v => exact ⟨v, rfl, by simpa [Field.falsyNat] using h⟩

/-- A create that answers 201 has appended one row, whose maturity level is
the non-zero value of the request. -/
theorem createMapping_created (db : DB) (user : Option Nat) (now : Nat) (body : CreateBody)
    (db1 : DB) (r : Option Mapping)
    (h : createMapping db user now body = (db1, .json 201 r)) :
    ∃ v row, body.maturity_level = .value v ∧ v ≠ 0 ∧
      db1.mappings = db.mappings ++ [row] ∧ row.maturity_level = v := by
  unfold createMapping at h
  simp only at h
  split_ifs at h with h1 h2
  · simp at h
  · simp at h
  · split at h
    · simp at h
    · split at h
      · simp at h
      · rename_i db2 id hins
        simp only [Prod.mk.injEq, Response.json.injEq, true_and] at h
        obtain ⟨hdb, _⟩ := h
        subst hdb
        have hl : body.maturity_level.falsyNat = false := by
          simp only [Bool.or_eq_true, not_or, Bool.not_eq_true] at h1
          exact h1.1.2
        obtain ⟨v, hv, hv0⟩ := falsyNat_false _ hl
        unfold insertMapping at hins
        simp only at hins
        split_ifs at hins
        simp only [Option.some.injEq, Prod.mk.injEq] at hins
        obtain ⟨hdb, _⟩ := hins
        subst hdb
        exact ⟨v, _, hv, hv0, rfl, by simp [hv, Field.getD]⟩

/-- C11 (as amended): a mapping stored by create has the maturity level of the
request, which is present and not 0, and an update leaves in the mapping the
maturity level that the request supplies, or the previous one when it supplies
none; the value is not restricted to 1, 2 and 3. -/
theorem stored_maturity_level_is_request_value :
    (∀ (db : DB) (user : Option Nat) (now : Nat) (body : CreateBody) (db1 : DB)
        (r : Option Mapping),
      createMapping db user now body = (db1, .json 201 r) →
      ∃ v row, body.maturity_level = .value v ∧ v ≠ 0 ∧
        db1.mappings = db.mappings ++ [row] ∧ row.maturity_level = v) ∧
    (∀ (db : DB) (id : Nat) (body : UpdateBody) (db1 : DB) (r : Option Mapping),
      updateMapping db id body = (db1, .json 200 r) →
      List.Forall₂ (fun m m1 : Mapping =>
          (m.id ≠ id → m1.maturity_level = m.maturity_level) ∧
          (body.maturity_level = .undefined → m1.maturity_level = m.maturity_level) ∧
          (m.id = id → ∀ v, body.maturity_level = .value v → m1.maturity_level = v))
        db.mappings db1.mappings) := by
  refine ⟨createMapping_created, ?_⟩
  intro db id body db1 r h
  unfold updateMapping at h
  split_ifs at h
  · simp at h
  · simp at h
  · split at h
    · simp at h
    · rename_i db2 hrows
      simp only [Prod.mk.injEq, Response.json.injEq, true_and] at h
      obtain ⟨hdb, _⟩ := h
      subst hdb
      refine (updateMappingRows_spec db db2 id body hrows).1.imp ?_
      intro m m1 hu
      exact ⟨fun hne => by rw [hu.2.2.2.2.2.1 hne], hu.2.2.2.2.2.2.2.1,
        hu.2.2.2.2.2.2.2.2.2.2.2.1⟩

/-- Witness for C11: on `seedDB` a create with maturity level 2 stores level 2,
and on `thirdsDB` an update of mapping 1 to level 3 leaves level 3. -/
theorem stored_maturity_level_is_request_value_witness :
    (∃ v row, wholeDocumentBody.maturity_level = .value v ∧ v ≠ 0 ∧
      (createMapping seedDB none 1 wholeDocumentBody).1.mappings
        = seedDB.mappings ++ [row] ∧ row.maturity_level = v) ∧
    List.Forall₂ (fun m m1 : Mapping =>
        (m.id ≠ 1 → m1.maturity_level = m.maturity_level) ∧
        (levelThreeUpdate.maturity_level = .undefined →
          m1.maturity_level = m.maturity_level) ∧
        (m.id = 1 → ∀ v, levelThreeUpdate.maturity_level = .value v →
          m1.maturity_level = v))
      thirdsDB.mappings (updateMapping thirdsDB 1 levelThreeUpdate).1.mappings :=
  ⟨stored_maturity_level_is_request_value.1 seedDB none 1 wholeDocumentBody _
     (some (sampleMapping 1 1 1 "fully_aligned")) (by decide),
   stored_maturity_level_is_request_value.2 thirdsDB 1 levelThreeUpdate _
     (some { sampleMapping 1 1 1 "fully_aligned" with maturity_level := 3 }) (by decide)⟩

/-- Counterexample to C11 as stated: a create with maturity level 7 is answered
with 201 and stores level 7, and an update of mapping 1 of `thirdsDB` to level
0 is answered with 200 and leaves level 0. -/
theorem maturity_level_outside_range_is_stored :
    (createMapping seedDB none 1 levelSevenBody).2
      = .json 201 (some { sampleMapping 1 1 1 "fully_aligned" with maturity_level := 7 }) ∧
    (createMapping seedDB none 1 levelSevenBody).1.mappings.map (fun m => m.maturity_level)
      = [7] ∧
    (updateMapping thirdsDB 1 levelZeroUpdate).2
      = .json 200 (some { sampleMapping 1 1 1 "fully_aligned" with maturity_level := 0 }) ∧
    (updateMapping thirdsDB 1 levelZeroUpdate).1.mappings.map (fun m => m.maturity_level)
      = [0, 2, 2] := by
  decide

/-- C12: a create request in which `document_id`, `domain_id`, `maturity_level`
or `alignment_status` is absent, or whose `alignment_status` is none of the
three values, is answered with 400 and leaves the database as it is; the
response is the same whatever the database holds, so it does not depend on
the duplicate check. -/
theorem create_validation_comes_first (db : DB) (user : Option Nat) (now : Nat)
    (body : CreateBody)
    (h : body.document_id = .undefined ∨ body.domain_id = .undefined ∨
      body.maturity_level = .undefined ∨ body.alignment_status = .undefined ∨
      ∃ s, body.alignment_status = .value s ∧ s ≠ "fully_aligned" ∧
        s ≠ "partially_aligned" ∧ s ≠ "not_aligned") :
    (∃ msg, createMapping db user now body = (db, .error 400 msg)) ∧
    ∀ (db2 : DB) (user2 : Option Nat) (now2 : Nat),
      (createMapping db2 user2 now2 body).2 = (createMapping db user now body).2 := by
  have key : ∀ (db : DB) (user : Option Nat) (now : Nat),
      createMapping db user now body = (db, .error 400
        "Missing required fields: document_id, domain_id, maturity_level, alignment_status")
      ∨ createMapping db user now body = (db, .error 400
        "Invalid alignment_status. Must be one of: fully_aligned, partially_aligned, not_aligned")
      := by
    intro db user now
    unfold createMapping
    simp only
    rcases h with h | h | h | h | ⟨s, hs, h1, h2, h3⟩
    · left; simp [h, Field.falsyNat]
    · left; simp [h, Field.falsyNat]
    · left; simp [h, Field.falsyNat]
    · left; simp [h, Field.falsyString]
    · split_ifs with ha hb
      · left; rfl
      · right; rfl
      · exfalso
        apply hb
        simp [hs, Field.getD, validStatuses, h1, h2, h3]
  have hsame : ∀ (db2 : DB) (user2 : Option Nat) (now2 : Nat),
      (createMapping db2 user2 now2 body).2 = (createMapping db user now body).2 := by
    intro db2 user2 now2
    unfold createMapping
    simp only
    rcases h with h | h | h | h | ⟨s, hs, h1, h2, h3⟩
    · simp [h, Field.falsyNat]
    · simp [h, Field.falsyNat]
    · simp [h, Field.falsyNat]
    · simp [h, Field.falsyString]
    · have hb : (!validStatuses.contains (body.alignment_status.getD "")) = true := by
        simp [hs, Field.getD, validStatuses, h1, h2, h3]
      split_ifs <;> rfl
  refine ⟨?_, hsame⟩
  rcases key db user now with hk | hk
  · exact ⟨_, hk⟩
  · exact ⟨_, hk⟩

/-- Witness for C12: after section 1 of document 1 has been mapped to domain 1,
the same request without `maturity_level` is answered with 400, although a
mapping for its triple exists. -/
theorem create_validation_comes_first_witness :
    (createMapping (createMapping seedDB none 1 (sectionBody 1)).1 none 2 (sectionBody 1)).2
      = .error 409 "Mapping already exists for this document-section-domain combination" ∧
    ∃ msg, createMapping (createMapping seedDB none 1 (sectionBody 1)).1 none 2 noLevelBody
      = ((createMapping seedDB none 1 (sectionBody 1)).1, .error 400 msg) :=
  ⟨by decide,
   (create_validation_comes_first (createMapping seedDB none 1 (sectionBody 1)).1 none 2
     noLevelBody (Or.inr (Or.inr (Or.inl rfl)))).1⟩

/-- An update whose `alignment_status` is a non-empty string other than the
three values is answered with 400 and changes nothing. -/
theorem update_invalid_status_rejected (db : DB) (id : Nat) (body : UpdateBody) (s : String)
    (hs : body.alignment_status = .value s) (h0 : s ≠ "") (h1 : s ≠ "fully_aligned")
    (h2 : s ≠ "partially_aligned") (h3 : s ≠ "not_aligned") :
    updateMapping db id body = (db, .error 400
      "Invalid alignment_status. Must be one of: fully_aligned, partially_aligned, not_aligned")
    := by
  unfold updateMapping
  have hc : (!body.alignment_status.falsyString
      && !validStatuses.contains (body.alignment_status.getD "")) = true := by
    simp [hs, Field.falsyString, Field.getD, validStatuses, h0, h1, h2, h3]
  rw [if_pos hc]

/-- C13 (code evaluated at the failing input): an update of mapping 1 of
`thirdsDB` with the empty string as `alignment_status` passes the validation
(`if (alignment_status)` is false), fails on the CHECK constraint of the table
and is answered with 500; for an id that no mapping has the same request is
answered with 200. A non-empty invalid value is answered with 400. In each
case the mappings are unchanged. -/
theorem update_empty_status_is_not_a_validation_error :
    updateMapping thirdsDB 1 (statusUpdate "")
      = (thirdsDB, .error 500 "Failed to update mapping") ∧
    updateMapping thirdsDB 99 (statusUpdate "") = (thirdsDB, .json 200 none) ∧
    updateMapping thirdsDB 1 (statusUpdate "aligned")
      = (thirdsDB, .error 400
        "Invalid alignment_status. Must be one of: fully_aligned, partially_aligned, not_aligned")
    := by
  decide

/-- C14: an update that is answered with 200 changes, in the mapping with the
given id, only those of `domain_id`, `maturity_level`, `alignment_status` and
`notes` that the request supplies; `document_id`, `section_id`, `mapped_by`,
`created_at`, the fields not supplied, every other mapping and every other
table stay as they are. A request that supplies none of the four fields is
answered with 400 and changes nothing. -/
theorem update_changes_supplied_fields_only (db : DB) (id : Nat) (body : UpdateBody) :
    (∀ (db1 : DB) (r : Option Mapping), updateMapping db id body = (db1, .json 200 r) →
      List.Forall₂ (UpdatedRow id body) db.mappings db1.mappings ∧
        db1 = { db with mappings := db1.mappings }) ∧
    (body.domain_id = .undefined → body.maturity_level = .undefined →
      body.alignment_status = .undefined → body.notes = .undefined →
      updateMapping db id body = (db, .error 400 "No fields to update")) := by
  constructor
  · intro db1 r h
    unfold updateMapping at h
    split_ifs at h
    · simp at h
    · simp at h
    · split at h
      · simp at h
      · rename_i db2 hrows
        simp only [Prod.mk.injEq, Response.json.injEq, true_and] at h
        obtain ⟨hdb, _⟩ := h
        subst hdb
        exact updateMappingRows_spec db db2 id body hrows
  · intro h1 h2 h3 h4
    unfold updateMapping
    simp [h1, h2, h3, h4, Field.falsyString, Field.defined]

/-- Witness for C14: moving mapping 2 of a two-mapping database to domain 1 is
answered with 200 and changes the domain of mapping 2 only; a request with no
field is answered with 400. -/
theorem update_changes_supplied_fields_only_witness :
    List.Forall₂ (UpdatedRow 2 moveToDomainOne)
      (runRequests seedDB [.create none 1 (sectionBody 1),
        .create none 2 (sectionBody 2)]).mappings
      (updateMapping (runRequests seedDB [.create none 1 (sectionBody 1),
        .create none 2 (sectionBody 2)]) 2 moveToDomainOne).1.mappings ∧
    (updateMapping (runRequests seedDB [.create none 1 (sectionBody 1),
        .create none 2 (sectionBody 2)]) 2 moveToDomainOne).1.mappings.map
        (fun m => (m.id, m.domain_id)) = [(1, 1), (2, 1)] ∧
    updateMapping thirdsDB 1 ⟨.undefined, .undefined, .undefined, .undefined⟩
      = (thirdsDB, .error 400 "No fields to update") :=
  ⟨((update_changes_supplied_fields_only _ 2 moveToDomainOne).1 _
      (some { sampleMapping 2 1 1 "fully_aligned" with section_id := some 1 })
      (by decide)).1,
   by decide,
   (update_changes_supplied_fields_only thirdsDB 1
     ⟨.undefined, .undefined, .undefined, .undefined⟩).2 rfl rfl rfl rfl⟩

/-! ## Protected admin and document deletion -/

theorem verifyAdmin_status (db : DB) (auth : AuthHeader) (r : Response Unit)
    (h : verifyAdmin db auth = some r) :
    ∃ msg, r = .error 401 msg ∨ r = .error 403 msg := by
  unfold verifyAdmin at h
  cases auth with
  | missing => exact ⟨_, Or.inl (Option.some.inj h).symm⟩
  | invalid => exact ⟨_, Or.inl (Option.some.inj h).symm⟩
  | valid id =>
    simp only at h
    split at h
    · exact ⟨_, Or.inl (Option.some.inj h).symm⟩
    · split_ifs at h
      exact ⟨_, Or.inr (Option.some.inj h).symm⟩

theorem verifyAdmin_of_user (db : DB) (uid : Nat) (u : User) (hu : u ∈ db.users)
    (hid : u.id = uid) :
    verifyAdmin db (.valid uid) = none ∨
      verifyAdmin db (.valid uid) = some (.error 403 "Admin access only") := by
  unfold verifyAdmin
  simp only
  cases hf : db.users.find? fun x => x.id == uid with
  | none =>
    rw [List.find?_eq_none] at hf
    exact absurd (by simp [hid]) (hf u hu)
  | some dbUser =>
    simp only
    split_ifs
    · right; rfl
    · left; rfl

/-- C15 (as amended): a request to delete user 1, to change its role or to
change its active status leaves the database as it is and is answered with 401
or 403; when the requester is authenticated (the token verifies and names an
existing user) the answer is 403 whatever the role of the requester; and the
answer is 401 when the token is missing, when it does not verify, and when it
names no existing user. -/
theorem main_admin_is_protected (db : DB) (auth : AuthHeader) (req : UserRequest) :
    (req.handle db auth 1).1 = db ∧
    (∃ msg, (req.handle db auth 1).2 = some (.error 401 msg) ∨
      (req.handle db auth 1).2 = some (.error 403 msg)) ∧
    (∀ uid, auth = .valid uid → (∃ u ∈ db.users, u.id = uid) →
      ∃ msg, (req.handle db auth 1).2 = some (.error 403 msg)) ∧
    (auth = .missing → (req.handle db auth 1).2 = some (.error 401 "No token provided")) ∧
    (auth = .invalid → (req.handle db auth 1).2 = some (.error 401 "Invalid token")) ∧
    (∀ uid, auth = .valid uid → (∀ u ∈ db.users, u.id ≠ uid) →
      (req.handle db auth 1).2 = some (.error 401 "User not found")) := by
  have hform : ∃ msg403, req.handle db auth 1 =
      match verifyAdmin db auth with
      | some r => (db, some r)
      | none => (db, some (.error 403 msg403)) := by
    cases req with
    | delete =>
      refine ⟨"Main admin cannot be deleted", ?_⟩
      show deleteUser db auth 1 = _
      unfold deleteUser
      cases verifyAdmin db auth <;> rfl
    | role r =>
      refine ⟨"Main admin role cannot be changed", ?_⟩
      show setUserRole db auth 1 r = _
      unfold setUserRole
      cases verifyAdmin db auth <;> rfl
    | status a =>
      refine ⟨"Main admin cannot be disabled", ?_⟩
      show setUserStatus db auth 1 a = _
      unfold setUserStatus
      cases verifyAdmin db auth <;> rfl
  obtain ⟨msg403, hreq⟩ := hform
  rw [hreq]
  refine ⟨?_, ?_, ?_, ?_, ?_, ?_⟩
  · cases verifyAdmin db auth <;> rfl
  · cases hv : verifyAdmin db auth with
    | none => exact ⟨msg403, Or.inr rfl⟩
    | some r =>
      obtain ⟨msg, hm | hm⟩ := verifyAdmin_status db auth r hv
      · exact ⟨msg, Or.inl (by rw [hm])⟩
      · exact ⟨msg, Or.inr (by rw [hm])⟩
  · rintro uid rfl ⟨u, hu, hid⟩
    rcases verifyAdmin_of_user db uid u hu hid with hv | hv
    · rw [hv]
      exact ⟨msg403, rfl⟩
    · rw [hv]
      exact ⟨_, rfl⟩
  · rintro rfl
    rfl
  · rintro rfl
    rfl
  · rintro uid rfl hnone
    have hf : (db.users.find? fun x => x.id == uid) = none := by
      rw [List.find?_eq_none]
      intro u hu
      simpa using hnone u hu
    unfold verifyAdmin
    simp only [hf]

/-- Witness for C15: in `twoUserDB` the analyst (user 2) and the admin (user 1)
are both answered with 403 when they ask to delete user 1, and a token that
names user 7, who does not exist, is answered with 401. -/
theorem main_admin_is_protected_witness :
    (∃ u ∈ twoUserDB.users, u.id = 2) ∧
    (∃ msg, (UserRequest.delete.handle twoUserDB (.valid 2) 1).2 = some (.error 403 msg)) ∧
    (∃ msg, (UserRequest.delete.handle twoUserDB (.valid 1) 1).2 = some (.error 403 msg)) ∧
    ((UserRequest.role "analyst").handle twoUserDB (.valid 1) 1).1 = twoUserDB ∧
    (∀ u ∈ twoUserDB.users, u.id ≠ 7) ∧
    ((UserRequest.status false).handle twoUserDB (.valid 7) 1).2
      = some (.error 401 "User not found") :=
  ⟨⟨analystUser, by decide, rfl⟩,
   (main_admin_is_protected twoUserDB (.valid 2) .delete).2.2.1 2 rfl
     ⟨analystUser, by decide, rfl⟩,
   (main_admin_is_protected twoUserDB (.valid 1) .delete).2.2.1 1 rfl
     ⟨adminUser, by decide, rfl⟩,
   (main_admin_is_protected twoUserDB (.valid 1) (.role "analyst")).1,
   by decide,
   (main_admin_is_protected twoUserDB (.valid 7) (.status false)).2.2.2.2.2 7 rfl
     (by decide)⟩

/-- Counterexample to C15 as stated: a request to delete user 1 without an
`Authorization` header, or with a token that does not verify, is answered
with 401, not 403. -/
theorem unauthenticated_request_gets_401 :
    UserRequest.delete.handle twoUserDB .missing 1
      = (twoUserDB, some (.error 401 "No token provided")) ∧
    (UserRequest.role "analyst").handle twoUserDB .invalid 1
      = (twoUserDB, some (.error 401 "Invalid token")) ∧
    (UserRequest.status false).handle twoUserDB (.valid 7) 1
      = (twoUserDB, some (.error 401 "User not found")) := by
  decide

/-- C16 (code evaluated at the failing input): after section 1, which belongs
to document 1, has been mapped as a part of document 2, the request to delete
document 1 is answered with 500: the deletion of the sections fails on the
foreign key of `mappings.section_id`, and document 1 and its section stay.
Deleting an unknown document is answered with 404 and changes nothing. -/
theorem delete_document_stops_on_foreign_section_mapping :
    (createMapping seedDB none 1 crossDocumentBody).2
      = .json 201 (some { sampleMapping 1 2 1 "fully_aligned" with section_id := some 1 }) ∧
    remainsOf (createMapping seedDB none 1 crossDocumentBody).1 1 = (1, 1, 0) ∧
    (deleteDocument ⟨(createMapping seedDB none 1 crossDocumentBody).1,
        ["policy-a.txt", "policy-b.txt"]⟩ 1).2
      = .error 500 "Failed to delete document" ∧
    remainsOf (deleteDocument ⟨(createMapping seedDB none 1 crossDocumentBody).1,
        ["policy-a.txt", "policy-b.txt"]⟩ 1).1.db 1 = (1, 1, 0) ∧
    deleteDocument ⟨seedDB, ["policy-a.txt", "policy-b.txt"]⟩ 9
      = (⟨seedDB, ["policy-a.txt", "policy-b.txt"]⟩, .error 404 "Document not found") ∧
    (deleteDocument ⟨thirdsDB, ["policy-a.txt", "policy-b.txt"]⟩ 1).2 = .json 200 () ∧
    remainsOf (deleteDocument ⟨thirdsDB, ["policy-a.txt", "policy-b.txt"]⟩ 1).1.db 1
      = (0, 0, 0) := by
  decide

theorem any_filter_not {α : Type} (p : α → Bool) (l : List α) :
    (l.filter fun x => !p x).any p = false := by
  rw [Bool.eq_false_iff]
  intro h
  rw [List.any_eq_true] at h
  obtain ⟨x, hx, hp⟩ := h
  rw [List.mem_filter] at hx
  simp [hp] at hx

theorem filter_filter_not_length {α : Type} (p : α → Bool) (l : List α) :
    ((l.filter fun x => !p x).filter p).length = 0 := by
  rw [List.length_eq_zero, List.filter_eq_nil_iff]
  intro x hx hp
  rw [List.mem_filter] at hx
  simp [hp] at hx

/-- The deletion of an existing document succeeds and leaves no row of the
document, provided no mapping of another document refers to one of its
sections. -/
theorem deleteDocument_ok (s : Store) (id : Nat)
    (hdoc : ∃ d ∈ s.db.documents, d.id = id)
    (hsec : ∀ m ∈ s.db.mappings, ∀ ds ∈ s.db.document_sections,
      m.section_id = some ds.id → ds.document_id = id → m.document_id = id) :
    (deleteDocument s id).2 = .json 200 () ∧
      remainsOf (deleteDocument s id).1.db id = (0, 0, 0) := by
  obtain ⟨d, hd, hid⟩ := hdoc
  have hfind : ∃ doc, (s.db.documents.find? fun d => d.id == id) = some doc := by
    cases hf : s.db.documents.find? fun d => d.id == id with
    | none =>
      rw [List.find?_eq_none] at hf
      exact absurd (by simp [hid]) (hf d hd)
    | some doc => exact ⟨doc, rfl⟩
  obtain ⟨doc, hdocf⟩ := hfind
  have hm : deleteMappingsOf (deleteSectionTagsOf (deleteInsightsOf s.db id) id) id
      = some { deleteSectionTagsOf (deleteInsightsOf s.db id) id with
          mappings := s.db.mappings.filter fun m => !(m.document_id == id) } := by
    unfold deleteMappingsOf
    rw [if_neg]
    · rfl
    · have := any_filter_not (fun s1 : StakeholderInsight =>
        match s1.related_mapping_id with
        | some mid => s.db.mappings.any fun m => m.id == mid && m.document_id == id
        | none => false) s.db.stakeholder_insights
      simp only [deleteSectionTagsOf, deleteInsightsOf]
      rw [this]
      simp
  have hs : deleteSectionsOf
      { deleteSectionTagsOf (deleteInsightsOf s.db id) id with
        mappings := s.db.mappings.filter fun m => !(m.document_id == id) } id
      = some { deleteSectionTagsOf (deleteInsightsOf s.db id) id with
          mappings := s.db.mappings.filter fun m => !(m.document_id == id)
          document_sections :=
            s.db.document_sections.filter fun ds => !(ds.document_id == id) } := by
    unfold deleteSectionsOf
    rw [if_neg]
    · rfl
    · have h1 := any_filter_not (fun st : SectionTag =>
        s.db.document_sections.any fun ds => ds.id == st.section_id && ds.document_id == id)
        s.db.section_tags
      simp only [deleteSectionTagsOf, deleteInsightsOf]
      rw [h1]
      simp only [Bool.false_or, Bool.not_eq_true]
      rw [Bool.eq_false_iff]
      intro h
      rw [List.any_eq_true] at h
      obtain ⟨m, hm1, hm2⟩ := h
      rw [List.mem_filter] at hm1
      rw [List.any_eq_true] at hm2
      obtain ⟨ds, hds, hc⟩ := hm2
      simp only [Bool.and_eq_true, beq_iff_eq] at hc
      have := hsec m hm1.1 ds hds hc.1 hc.2
      simp [this] at hm1
  have hr : deleteDocumentRow
      { deleteSectionTagsOf (deleteInsightsOf s.db id) id with
        mappings := s.db.mappings.filter fun m => !(m.document_id == id)
        document_sections :=
          s.db.document_sections.filter fun ds => !(ds.document_id == id) } id
      = some { deleteSectionTagsOf (deleteInsightsOf s.db id) id with
          mappings := s.db.mappings.filter fun m => !(m.document_id == id)
          document_sections :=
            s.db.document_sections.filter fun ds => !(ds.document_id == id)
          documents := s.db.documents.filter fun d => !(d.id == id) } := by
    unfold deleteDocumentRow
    rw [if_neg]
    · rfl
    · simp only
      rw [any_filter_not (fun ds : Section => ds.document_id == id),
        any_filter_not (fun m : Mapping => m.document_id == id)]
      simp
  unfold deleteDocument
  simp only [hdocf, hm, hs, hr]
  refine ⟨trivial, ?_⟩
  unfold remainsOf
  simp only
  rw [filter_filter_not_length (fun d : Document => d.id == id),
    filter_filter_not_length (fun ds : Section => ds.document_id == id),
    filter_filter_not_length (fun m : Mapping => m.document_id == id)]

/-! ## Section splitting and upload filter -/

/-- C17 (code evaluated at the failing input): a text of two sentences of 500
characters is split, with the default limit of 1000, into one section built
from both sentences whose text has 1002 characters: the test
`currentSection.length + sentence.length > maxSectionLength` leaves out the
two characters of the separator. -/
theorem two_sentence_section_exceeds_limit :
    (sentencesOf twoHalvesText.data).map (fun s => s.length) = [500, 500] ∧
    defaultMaxSectionLength = 1000 ∧
    (splitTextIntoSections twoHalvesText defaultMaxSectionLength).map
      (fun s => (s.text.length, s.start, s.end_)) = [(1002, 0, 1002)] := by
  decide!

/-- C18 (code evaluated at the failing inputs): for the text `a!b` of three
characters the only section has `end = 4`; for a text of 1007 characters made
of a sentence of 10 and a sentence of 995 characters the second section has
`start = -1`, because the search for its first sentence starts at the old
start plus the length of the new sentence. -/
theorem section_offsets_outside_text :
    splitTextIntoSections "a!b" defaultMaxSectionLength = [⟨"a. b", 0, 4⟩] ∧
    "a!b".length = 3 ∧
    (splitTextIntoSections shortLongText defaultMaxSectionLength).map
      (fun s => (s.text.length, s.start, s.end_)) = [(10, 0, 10), (995, -1, 994)] ∧
    shortLongText.length = 1007 ∧
    indexOf shortLongText.data (List.replicate 995 'x') 0 = 12 := by
  decide!

/-- C19: the file filter accepts a file exactly when the lower-cased extension
of its original name is `.pdf`, `.docx`, `.doc` or `.txt`; a file that the
filter rejects is answered with an error by the middleware, the handler does
not run and the database is left as it is. -/
theorem upload_filter_accepts_allowed_extensions (f : UploadFile) :
    (fileFilter f.originalname = true ↔
      (extname f.originalname).toLower = ".pdf" ∨ (extname f.originalname).toLower = ".docx" ∨
      (extname f.originalname).toLower = ".doc" ∨ (extname f.originalname).toLower = ".txt") ∧
    (fileFilter f.originalname = false →
      ∀ (db : DB) (user : Option Nat) (now : Nat) (body : UploadBody) (text : String),
        uploadDocument db user now (some f) body text
          = (db, .error 500 "Something went wrong!")) := by
  constructor
  · unfold fileFilter allowedTypes
    simp
  · intro h db user now body text
    unfold uploadDocument
    simp [h]

/-- Witness for C19: `malware.exe` is rejected and leaves `seedDB` as it is;
`policy.TXT` is accepted, and its upload adds a document and a section. -/
theorem upload_filter_accepts_allowed_extensions_witness :
    extname "malware.exe" = ".exe" ∧ fileFilter (sampleFile "malware.exe").originalname = false ∧
    uploadDocument seedDB none 5 (some (sampleFile "malware.exe")) noMetadata "Some text."
      = (seedDB, .error 500 "Something went wrong!") ∧
    fileFilter (sampleFile "policy.TXT").originalname = true ∧
    (uploadDocument seedDB none 5 (some (sampleFile "policy.TXT")) noMetadata
        "Some text.").2
      = .json 200 ⟨3, "document-1", "policy.TXT", ".txt", 2048, 1⟩ ∧
    remainsOf (uploadDocument seedDB none 5 (some (sampleFile "policy.TXT")) noMetadata
        "Some text.").1 3 = (1, 1, 0) :=
  ⟨by decide!, by decide!,
   (upload_filter_accepts_allowed_extensions (sampleFile "malware.exe")).2 (by decide!)
     seedDB none 5 noMetadata "Some text.",
   by decide!, by decide!, by decide!⟩

/-! ## Coverage and gap classifiers on the same data -/

theorem exists_mem_leftJoin {α β : Type} (left : List α) (right : List β)
    (cond : α → β → Bool) (a : α) (ha : a ∈ left) :
    ∃ ob, (a, ob) ∈ leftJoin left right cond := by
  unfold leftJoin
  cases hf : right.filter (cond a) with
  | nil =>
    refine ⟨none, List.mem_flatMap.2 ⟨a, ha, ?_⟩⟩
    rw [hf]
    exact List.mem_singleton.2 rfl
  | cons b bs =>
    refine ⟨some b, List.mem_flatMap.2 ⟨a, ha, ?_⟩⟩
    rw [hf]
    exact List.mem_map.2 ⟨b, List.mem_cons_self _ _, rfl⟩

theorem mappingsOf_single (db : DB) (domain_id document_id : Nat) :
    mappingsOf db domain_id (some [document_id]) = cellMappings db domain_id document_id := by
  unfold mappingsOf cellMappings inDocumentSet
  apply List.filter_congr
  intro m _
  simp only [List.contains_cons, List.contains_nil, Bool.or_false]

theorem statusCount_le_length (status : String) (ms : List Mapping) :
    statusCount status ms ≤ ms.length :=
  List.countP_le_length _

/-- The cell of a domain and a document of the document set is a group of the
query of GET /gap-matrix, for a table that has the column `qd.framework`. -/
theorem exists_cell_group (db : DB) (hw : db.wellFormed)
    (frameworkOf : Domain → Option String) (framework : String)
    (document_ids : Option (List Nat))
    (qd : Domain) (hq : qd ∈ db.qc2m2_domains) (hfw : frameworkOf qd = some framework)
    (d : Document) (hd : d ∈ db.documents)
    (hok : docOk document_ids (some d) = true) :
    ∃ g ∈ groupBy (fun r : JoinRow => (r.qd.id, r.d.map fun d => d.id))
        (gapMatrixRows db frameworkOf framework document_ids),
      g.rep.qd = qd ∧ g.rep.d = some d ∧
      ∀ P : Mapping → Bool, countRows P g.rows = (cellMappings db qd.id d.id).countP P := by
  obtain ⟨ob, hob⟩ := exists_mem_leftJoin (crossJoin db.qc2m2_domains db.documents)
    db.mappings (fun qdd m => qdd.1.id == m.domain_id && qdd.2.id == m.document_id) (qd, d)
    ((mem_crossJoin _ _ _).2 ⟨hq, hd⟩)
  have hr : (⟨qd, ob, some d⟩ : JoinRow)
      ∈ gapMatrixRows db frameworkOf framework document_ids := by
    unfold gapMatrixRows
    rw [List.mem_filter]
    constructor
    · unfold domainsCrossDocumentsMappings
      exact List.mem_map.2 ⟨((qd, d), ob), hob, rfl⟩
    · rw [extraFilter_eq]
      simp [hok, hfw]
  obtain ⟨g, hg, hk⟩ := exists_group (fun r : JoinRow => (r.qd.id, r.d.map fun d => d.id))
    _ _ hr
  obtain ⟨qd1, hq1, d1, hd1, hgq, hgd, hcount⟩ :=
    cell_count db hw frameworkOf framework document_ids g hg
  simp only [hgq, hgd, Option.map_some', Prod.mk.injEq, Option.some.injEq] at hk
  have e1 : qd1 = qd := eq_of_id_eq (fun x : Domain => x.id) _ hw.1 qd1 qd hq1 hq hk.1
  have e2 : d1 = d := eq_of_id_eq (fun x : Document => x.id) _ hw.2.1 d1 d hd1 hd hk.2
  subst e1 e2
  exact ⟨g, hg, hgq, hgd, hcount⟩

/-- The two classifiers as queries, for a table that has the column
`qd.framework`: when the mappings of a domain for a document include at least
one fully aligned mapping and their alignment percentage is below 25, the
query of GET /gap-matrix classifies the cell of that domain and document as
`strong_coverage` and the gap-analysis query for that document classifies the
domain as `Critical Gap`, both from the same counts. -/
theorem queries_strong_coverage_with_critical_gap (db : DB) (hw : db.wellFormed)
    (frameworkOf : Domain → Option String) (framework : String)
    (qd : Domain) (hq : qd ∈ db.qc2m2_domains) (hfw : frameworkOf qd = some framework)
    (d : Document) (hd : d ∈ db.documents)
    (hfull : 1 ≤ statusCount "fully_aligned" (cellMappings db qd.id d.id))
    (hpct : alignmentFormula (statusCount "fully_aligned" (cellMappings db qd.id d.id))
      (statusCount "partially_aligned" (cellMappings db qd.id d.id))
      (cellMappings db qd.id d.id).length < 25) :
    (∃ row ∈ gapMatrixQuery db frameworkOf framework (some [d.id]),
      row.domain_code = qd.domain_code ∧ row.document_id = some d.id ∧
      row.total_mappings = (cellMappings db qd.id d.id).length ∧
      row.fully_aligned = statusCount "fully_aligned" (cellMappings db qd.id d.id) ∧
      row.coverage_status = "strong_coverage") ∧
    (∃ row ∈ gapAnalysisQuery db [d.id],
      row.domain_code = qd.domain_code ∧
      row.total_mappings = (cellMappings db qd.id d.id).length ∧
      row.fully_aligned = statusCount "fully_aligned" (cellMappings db qd.id d.id) ∧
      row.gap_status = "Critical Gap") := by
  have hlen : 0 < (cellMappings db qd.id d.id).length :=
    Nat.lt_of_lt_of_le hfull (statusCount_le_length _ _)
  constructor
  · obtain ⟨g, hg, hgq, hgd, hcount⟩ := exists_cell_group db hw frameworkOf framework
      (some [d.id]) qd hq hfw d hd (by simp [docOk])
    have htot : countMappingIds g.rows = (cellMappings db qd.id d.id).length := by
      rw [countMappingIds_eq, hcount]
      simp
    have hful : sumStatus "fully_aligned" g.rows
        = statusCount "fully_aligned" (cellMappings db qd.id d.id) := by
      rw [sumStatus_eq, hcount]
      rfl
    refine ⟨matrixRowOf g, ?_, ?_, ?_, htot, hful, ?_⟩
    · unfold gapMatrixQuery
      exact List.mem_map.2 ⟨g, (mem_orderBy _ _ _).2 hg, rfl⟩
    · show g.rep.qd.domain_code = qd.domain_code
      rw [hgq]
    · show (g.rep.d.map fun d => d.id) = some d.id
      rw [hgd]
      rfl
    · show coverageStatus g.rows = "strong_coverage"
      unfold coverageStatus
      rw [if_neg (by rw [htot]; exact Nat.pos_iff_ne_zero.1 hlen),
        if_pos (by rw [hful]; exact hfull)]
  · have hpos : 0 < (mappingsOf db qd.id (some [d.id])).length := by
      rw [mappingsOf_single]
      exact hlen
    obtain ⟨g, hg, hgq⟩ := exists_group_of_mapping db hw
      (fun _ : Domain => true) (some [d.id]) reportKey (reportKey_iff db hw) qd hq rfl hpos
    obtain ⟨hc, hs⟩ := group_columns db hw (fun _ : Domain => true) (some [d.id]) reportKey
      (reportKey_iff db hw) g hg
    rw [hgq, mappingsOf_single] at hc hs
    rw [← reportGroups_eq] at hg
    refine ⟨gapRowOf g, (mem_gapAnalysisQuery _ _ _).2 ⟨g, hg, rfl⟩, ?_, hc, hs _, ?_⟩
    · show g.rep.qd.domain_code = qd.domain_code
      rw [hgq]
    · show gapStatus g.rows = "Critical Gap"
      have h0 : countMappingIds g.rows ≠ 0 := by
        rw [hc]
        exact Nat.pos_iff_ne_zero.1 hlen
      unfold gapStatus
      rw [if_neg h0, alignmentExpr_eq g.rows h0, hc, hs, hs]
      have : sqlLt (some (alignmentFormula
          (statusCount "fully_aligned" (cellMappings db qd.id d.id))
          (statusCount "partially_aligned" (cellMappings db qd.id d.id))
          (cellMappings db qd.id d.id).length)) 25 = true := by
        simpa [sqlLt] using hpct
      rw [if_pos this]

/-- C20 (code evaluated at the failing input): in `thresholdDB` domain Expose
has one fully aligned and five not aligned mappings for document 1 (16.67
percent). The gap-analysis report for document 1 classifies the domain as
`Critical Gap`; GET /gap-matrix for document 1 answers 500, because its
statement names the column `qd.framework` that the table lacks, so the coverage
classifier returns nothing for the same data. On the rows of the cell, the
`CASE` of that statement would give `strong_coverage`. -/
theorem coverage_status_is_never_returned :
    statusCount "fully_aligned" (cellMappings thresholdDB 3 1) = 1 ∧
    statusCount "not_aligned" (cellMappings thresholdDB 3 1) = 5 ∧
    (cellMappings thresholdDB 3 1).length = 6 ∧
    gapMatrix thresholdDB none (some [1]) = .error 500 "Failed to generate gap matrix" ∧
    (∃ report, gapAnalysis thresholdDB (some [1]) = .json 200 report ∧
      ∃ row ∈ report.gap_analysis,
        row.domain_code = "EXPOSE" ∧ row.total_mappings = 6 ∧ row.fully_aligned = 1 ∧
        row.alignment_percentage = some (1667 / 100) ∧ row.gap_status = "Critical Gap") ∧
    coverageStatus ((domainsCrossDocumentsMappings thresholdDB).filter fun r =>
      r.qd.id == 3 && (r.d.map fun d => d.id) == some 1) = "strong_coverage" := by
  have hmem : ({ domain_name := "Expose", domain_code := "EXPOSE"
                 description := some "Detecting and identifying security incidents"
                 total_mappings := 6, fully_aligned := 1, partially_aligned := 0
                 not_aligned := 5, avg_maturity_level := some 2
                 alignment_percentage := some (1667 / 100)
                 gap_status := "Critical Gap" } : GapRow)
      ∈ gapAnalysisQuery thresholdDB [1] := by decide!
  exact ⟨by decide, by decide, by decide,
    (analysis_answers_500 thresholdDB none (some [1])).2.1,
    ⟨_, rfl, _, hmem, rfl, rfl, rfl, rfl, rfl⟩, by decide⟩
/-! ## Order of the report rows -/

/-- The result of `ORDER BY` is sorted for the order it sorts by, when that
order is total and transitive. -/
theorem orderBy_pairwise {α : Type} (le : α → α → Bool)
    (htotal : ∀ a b, le a b = true ∨ le b a = true)
    (htrans : ∀ a b c, le a b = true → le b c = true → le a c = true) (l : List α) :
    (orderBy le l).Pairwise fun a b => le a b = true := by
  haveI : IsTotal α (fun a b => le a b = true) := ⟨htotal⟩
  haveI : IsTrans α (fun a b => le a b = true) := ⟨htrans⟩
  exact List.sorted_insertionSort (fun a b => le a b = true) l

theorem nullsFirstLe_total (a b : Option ℚ) :
    nullsFirstLe a b = true ∨ nullsFirstLe b a = true := by
  cases a <;> cases b <;> simp [nullsFirstLe, le_total]

theorem nullsFirstLe_trans (a b c : Option ℚ) (hab : nullsFirstLe a b = true)
    (hbc : nullsFirstLe b c = true) : nullsFirstLe a c = true := by
  cases a <;> cases b <;> cases c <;> simp_all [nullsFirstLe]
  exact le_trans hab hbc

theorem nullsFirstLe_refl (a : Option ℚ) : nullsFirstLe a a = true := by
  cases a <;> simp [nullsFirstLe]

/-- C21: the areas-of-concern list of the comprehensive report, the list that
the recommendations report is made from, and the entries of the
recommendations report itself are sorted in ascending order of
`alignment_percentage`, where `NULL` counts as smaller than every number: of
two rows, the later one has a `NULL` percentage only if the earlier one has,
and two numeric percentages are in ascending order. -/
theorem areas_of_concern_sorted_by_percentage (db : DB) (docIds : List Nat) :
    (reportAreasOfConcern db docIds).Pairwise
      (fun a b => nullsFirstLe a.alignment_percentage b.alignment_percentage = true) ∧
    (lowAlignmentDomains db docIds).Pairwise
      (fun a b => nullsFirstLe a.alignment_percentage b.alignment_percentage = true) ∧
    ∃ report, recommendations db (some docIds) = .json 200 report ∧
      report.recommendations.Pairwise
        (fun a b => nullsFirstLe a.alignment_percentage b.alignment_percentage = true) := by
  have hlow : (lowAlignmentDomains db docIds).Pairwise
      (fun a b => nullsFirstLe a.alignment_percentage b.alignment_percentage = true) := by
    unfold lowAlignmentDomains
    exact orderBy_pairwise
      (fun a b : LowAlignmentRow => nullsFirstLe a.alignment_percentage b.alignment_percentage)
      (fun a b => nullsFirstLe_total _ _) (fun a b c => nullsFirstLe_trans _ _ _) _
  refine ⟨?_, hlow, _, rfl, ?_⟩
  · unfold reportAreasOfConcern
    refine (orderBy_pairwise _ ?_ ?_ _).imp ?_
    · intro a b
      by_cases h : a.alignment_percentage = b.alignment_percentage
      · simp only [h, if_true, decide_eq_true_eq]
        exact le_total _ _
      · simp only [if_neg h, if_neg (Ne.symm h)]
        exact nullsFirstLe_total _ _
    · intro a b c
      by_cases hab : a.alignment_percentage = b.alignment_percentage
      · by_cases hbc : b.alignment_percentage = c.alignment_percentage
        · simp only [hab, hbc, if_true, decide_eq_true_eq]
          exact le_trans
        · simp only [hab, if_true, if_neg hbc, decide_eq_true_eq]
          exact fun _ h => h
      · by_cases hbc : b.alignment_percentage = c.alignment_percentage
        · simp only [← hbc, if_neg hab, if_true, decide_eq_true_eq]
          exact fun h _ => h
        · simp only [if_neg hab, if_neg hbc]
          intro h1 h2
          have h3 := nullsFirstLe_trans _ _ _ h1 h2
          split_ifs with hac
          · exfalso
            rw [hac] at h1
            cases hb : b.alignment_percentage with
            | none =>
              cases hc : c.alignment_percentage with
              | none => exact hbc (hb.trans hc.symm)
              | some y => rw [hb, hc] at h1; simp [nullsFirstLe] at h1
            | some x =>
              cases hc : c.alignment_percentage with
              | none => rw [hb, hc] at h2; simp [nullsFirstLe] at h2
              | some y =>
                rw [hb, hc] at h1 h2
                simp only [nullsFirstLe, decide_eq_true_eq] at h1 h2
                exact hbc (by rw [hb, hc, le_antisymm h2 h1])
          · exact h3
    · intro a b h
      by_cases hab : a.alignment_percentage = b.alignment_percentage
      · rw [hab]; exact nullsFirstLe_refl _
      · simpa only [if_neg hab] using h
  · show ((lowAlignmentDomains db docIds).map recommend).Pairwise _
    rw [List.pairwise_map]
    exact hlow

/-! ## Error answers -/

/-- The error middleware sends `err.message` in development only. -/
theorem errorMiddleware_message (nodeEnv : Option String) (err : JsError) :
    (errorMiddleware nodeEnv err).1 = 500 ∧
    (nodeEnv ≠ some "development" →
      (errorMiddleware nodeEnv err).2.message = some "Internal server error") ∧
    (nodeEnv = some "development" →
      (errorMiddleware nodeEnv err).2.message = some err.message) := by
  refine ⟨rfl, ?_, ?_⟩
  · intro h
    simp [errorMiddleware, h]
  · intro h
    simp [errorMiddleware, h]

/-- Whenever `bcrypt.hash` rejects, POST /register answers 500 with the
message of the error as `details`. -/
theorem register_answers_details (salted : String → String) (db : DB) (now : Nat)
    (body : RegisterBody) (err : JsError)
    (hvalid : (body.username.falsyString || body.email.falsyString
      || body.password.falsyValue) = false)
    (hnew : (db.users.find? fun u =>
      u.username == body.username.getD "" || u.email == body.email.getD "") = none)
    (hhash : bcryptHash salted (body.password.getD (.string "")) = .error err) :
    registerUser salted db now body =
      (db, .failed 500
        { error := "Failed to register user", message := none
          details := some err.message }) := by
  unfold registerUser
  simp only [hvalid, hnew, hhash]
  rfl

/-- C22 (code evaluated at the failing input): with NODE_ENV = production the
error middleware answers an error whose message is `Illegal arguments: number,
number` with the generic `Internal server error`; POST /api/auth/register with
a numeric password, where `bcrypt.hash` rejects with that error, answers 500
with the message of the error in `details`, and the database is unchanged. The
handler does not read NODE_ENV, so this is its answer in production too. -/
theorem register_failure_sends_error_detail (salted : String → String) (now : Nat) :
    errorMiddleware (some "production") ⟨"Illegal arguments: number, number"⟩ =
      (500, { error := "Something went wrong!", message := some "Internal server error"
              details := none }) ∧
    bcryptHash salted (.number 12345) = .error ⟨"Illegal arguments: number, number"⟩ ∧
    registerUser salted seedDB now numericPasswordBody =
      (seedDB, .failed 500
        { error := "Failed to register user", message := none
          details := some "Illegal arguments: number, number" }) := by
  refine ⟨by decide, rfl, ?_⟩
  exact register_answers_details salted seedDB now numericPasswordBody _ (by decide)
    (by decide) rfl

/-! ## Sentences and separators -/

theorem splitOnSeparator_ne_nil (l : List Char) : splitOnSeparator l ≠ [] := by
  induction l using splitOnSeparator.induct with
  | case1 => simp [splitOnSeparator]
  | case2 c => simp [splitOnSeparator]
  | case3 c d cs h ih => simp [splitOnSeparator, h]
  | case4 c d cs h hs ih => simp [splitOnSeparator, h, hs]
  | case5 c d cs h p ps hs ih => simp [splitOnSeparator, h, hs]

theorem splitOnSeparator_single (s : List Char) (h : ∀ c ∈ s, c ≠ '.') :
    splitOnSeparator s = [s] := by
  induction s using splitOnSeparator.induct with
  | case1 => rfl
  | case2 c => rfl
  | case3 c d cs hc ih => exact absurd hc.1 (h c (List.mem_cons_self _ _))
  | case4 c d cs hc hs ih => exact absurd hs (splitOnSeparator_ne_nil _)
  | case5 c d cs hc p ps hs ih =>
    have := ih fun x hx => h x (List.mem_cons_of_mem _ hx)
    rw [hs] at this
    simp only [List.cons.injEq] at this
    simp [splitOnSeparator, hc, hs, this.1, this.2]

theorem splitOnSeparator_append (xs s : List Char) :
    splitOnSeparator (xs ++ '.' :: ' ' :: s) = splitOnSeparator xs ++ splitOnSeparator s := by
  induction xs using splitOnSeparator.induct with
  | case1 => simp [splitOnSeparator]
  | case2 c =>
    cases hs : splitOnSeparator s with
    | nil => exact absurd hs (splitOnSeparator_ne_nil _)
    | cons p ps => simp [splitOnSeparator, hs]
  | case3 c d cs hc ih =>
    simp only [List.cons_append, splitOnSeparator, hc, and_self, if_true]
    exact congrArg _ ih
  | case4 c d cs hc hs ih => exact absurd hs (splitOnSeparator_ne_nil _)
  | case5 c d cs hc p ps hs ih =>
    rw [hs] at ih
    simp only [List.cons_append] at ih ⊢
    simp only [splitOnSeparator, hc, if_false, hs, ih, List.cons_append]

theorem jsTrim_eq (s : List Char) :
    jsTrim s = List.rdropWhile isJsWhitespace (s.dropWhile isJsWhitespace) := rfl

theorem jsTrim_trimmed (s : List Char) (h : jsTrim s ≠ []) : Trimmed (jsTrim s) := by
  refine ⟨h, ?_, ?_⟩
  · intro c hc
    have hpre : jsTrim s <+: s.dropWhile isJsWhitespace := List.rdropWhile_prefix _ _
    have hne : s.dropWhile isJsWhitespace ≠ [] := hpre.ne_nil h
    have h1 := hpre.head h
    have h2 := List.head_dropWhile_not isJsWhitespace s hne
    rw [List.head?_eq_head h, Option.some.injEq] at hc
    rw [← hc, h1]
    exact h2
  · intro c hc
    have h1 := List.rdropWhile_last_not isJsWhitespace (s.dropWhile isJsWhitespace) h
    rw [List.getLast?_eq_getLast _ h, Option.some.injEq] at hc
    rw [← hc]
    simpa using h1

theorem Trimmed.trim_self {s : List Char} (h : Trimmed s) : jsTrim s = s := by
  obtain ⟨hne, hhead, hlast⟩ := h
  have h1 : s.dropWhile isJsWhitespace = s := by
    cases s with
    | nil => rfl
    | cons c t =>
      have := hhead c rfl
      simp [List.dropWhile, this]
  rw [jsTrim_eq, h1, List.rdropWhile_eq_self_iff]
  intro hl
  have := hlast _ (List.getLast?_eq_getLast _ hl)
  simp [this]

theorem Trimmed.append {a b : List Char} (ha : Trimmed a) (hb : Trimmed b) (m : List Char) :
    Trimmed (a ++ m ++ b) := by
  obtain ⟨ha0, ha1, _⟩ := ha
  obtain ⟨hb0, _, hb2⟩ := hb
  refine ⟨by simp [ha0], ?_, ?_⟩
  · intro c hc
    rw [List.append_assoc, List.head?_append_of_ne_nil _ ha0] at hc
    exact ha1 c hc
  · intro c hc
    rw [List.getLast?_append_of_ne_nil _ hb0] at hc
    exact hb2 c hc

theorem mem_jsTrim (s : List Char) (c : Char) (h : c ∈ jsTrim s) : c ∈ s :=
  (List.dropWhile_sublist _).subset ((List.rdropWhile_prefix _ _).subset h)

theorem splitAux_no_terminator (inRun : Bool) (l : List Char) :
    ∀ s ∈ splitAux inRun l, ∀ c ∈ s, isTerminator c = false := by
  induction l generalizing inRun with
  | nil => simp [splitAux]
  | cons a l ih =>
    intro s hs c hc
    unfold splitAux at hs
    by_cases ht : isTerminator a = true
    · rw [if_pos ht] at hs
      cases inRun with
      | true => exact ih true s (by simpa using hs) c hc
      | false =>
        simp only [Bool.false_eq_true, if_false, List.mem_cons] at hs
        rcases hs with rfl | hs
        · simp at hc
        · exact ih true s hs c hc
    · rw [if_neg ht] at hs
      cases hsp : splitAux false l with
      | nil =>
        rw [hsp] at hs
        simp only [List.mem_singleton] at hs
        subst hs
        simp only [List.mem_singleton] at hc
        subst hc
        simpa using ht
      | cons p ps =>
        rw [hsp] at hs
        simp only [List.mem_cons] at hs
        rcases hs with rfl | hs
        · simp only [List.mem_cons] at hc
          rcases hc with rfl | hc
          · simpa using ht
          · exact ih false p (by rw [hsp]; exact List.mem_cons_self _ _) c hc
        · exact ih false s (by rw [hsp]; exact List.mem_cons_of_mem _ hs) c hc

/-- Every sentence that the loop of `splitTextIntoSections` works on is
non-empty, trimmed and free of full stops. -/
theorem isSentence_of_mem (text : List Char) (raw : List Char) (h : raw ∈ sentencesOf text) :
    IsSentence (jsTrim raw) := by
  unfold sentencesOf at h
  rw [List.mem_filter] at h
  obtain ⟨hmem, hlen⟩ := h
  have hne : jsTrim raw ≠ [] := by
    intro h0
    rw [h0] at hlen
    simp at hlen
  refine ⟨jsTrim_trimmed raw hne, ?_⟩
  intro c hc hdot
  have := splitAux_no_terminator false text raw hmem c (mem_jsTrim raw c hc)
  rw [hdot] at this
  exact absurd this (by decide)

/-! ## The loop of `splitTextIntoSections` -/

theorem texts_of_open (st : SplitState) (h : st.currentSection ≠ []) :
    st.texts = st.sections.map (fun s => s.text.data) ++ [st.currentSection] := by
  unfold SplitState.texts
  rw [if_neg h]

theorem texts_of_start (maxSectionLength : Nat) (done : List (List Char)) (st : SplitState)
    (hinv : SplitInv maxSectionLength done st) (h : st.currentSection = []) :
    st.texts = [] ∧ done = [] := by
  have ht : st.texts = [] := by
    unfold SplitState.texts
    rw [if_pos h, hinv.start h]
    rfl
  refine ⟨ht, ?_⟩
  rw [← hinv.pieces, ht]
  rfl

/-- The texts after one iteration of the loop. -/
theorem texts_splitStep (text : List Char) (maxSectionLength : Nat) (done : List (List Char))
    (st : SplitState) (hinv : SplitInv maxSectionLength done st) (raw : List Char)
    (hs : jsTrim raw ≠ []) :
    (splitStep text maxSectionLength st raw).texts =
      if st.currentSection.length + (jsTrim raw).length > maxSectionLength
          ∧ st.currentSection.length > 0 then st.texts ++ [jsTrim raw]
      else if st.currentSection = [] then [jsTrim raw]
      else st.sections.map (fun s => s.text.data)
        ++ [st.currentSection ++ ['.', ' '] ++ jsTrim raw] := by
  by_cases hc : st.currentSection.length + (jsTrim raw).length > maxSectionLength
      ∧ st.currentSection.length > 0
  · have hne : st.currentSection ≠ [] := List.length_pos.1 hc.2
    rw [if_pos hc, texts_of_open st hne]
    unfold splitStep
    simp only [if_pos hc]
    unfold SplitState.texts
    simp only [if_neg hs, List.map_append, List.map_cons, List.map_nil, closeSection,
      (hinv.trimmed hne).trim_self]
  · rw [if_neg hc]
    unfold splitStep
    simp only [if_neg hc]
    by_cases h0 : st.currentSection = []
    · rw [if_pos h0]
      unfold SplitState.texts
      simp [h0, hinv.start h0, hs]
    · rw [if_neg h0]
      have hpos : st.currentSection.length > 0 := List.length_pos.2 h0
      unfold SplitState.texts
      simp [h0, hpos]

theorem flatMap_splitOnSeparator_append (l : List (List Char)) (t : List Char) :
    (l ++ [t]).flatMap splitOnSeparator = l.flatMap splitOnSeparator ++ splitOnSeparator t := by
  simp [List.flatMap_append]

/-- One iteration of the loop keeps the invariant. -/
theorem splitInv_step (text : List Char) (maxSectionLength : Nat) (done : List (List Char))
    (st : SplitState) (hinv : SplitInv maxSectionLength done st) (raw : List Char)
    (hsent : IsSentence (jsTrim raw)) :
    SplitInv maxSectionLength (done ++ [jsTrim raw]) (splitStep text maxSectionLength st raw) := by
  have hs : jsTrim raw ≠ [] := hsent.1.1
  have hsplit : splitOnSeparator (jsTrim raw) = [jsTrim raw] :=
    splitOnSeparator_single _ hsent.2
  have htexts := texts_splitStep text maxSectionLength done st hinv raw hs
  by_cases hc : st.currentSection.length + (jsTrim raw).length > maxSectionLength
      ∧ st.currentSection.length > 0
  · -- the open section is closed and the sentence starts the next one
    have hne : st.currentSection ≠ [] := List.length_pos.1 hc.2
    rw [if_pos hc] at htexts
    have hcur : (splitStep text maxSectionLength st raw).currentSection = jsTrim raw := by
      unfold splitStep
      simp only [if_pos hc]
    refine ⟨?_, ?_, ?_, ?_, ?_, ?_⟩
    · intro h
      rw [hcur] at h
      exact absurd h hs
    · intro _
      rw [hcur]
      exact hsent.1
    · rw [htexts, flatMap_splitOnSeparator_append, hinv.pieces, hsplit]
    · intro t ht
      rw [htexts, List.mem_append, List.mem_singleton] at ht
      rcases ht with ht | rfl
      · exact hinv.nonempty t ht
      · exact hs
    · rw [htexts, List.chain'_append]
      refine ⟨hinv.greedy, List.chain'_singleton _, ?_⟩
      intro x hx y hy
      rw [texts_of_open st hne, List.getLast?_append_of_ne_nil _ (List.cons_ne_nil _ _)] at hx
      simp only [List.getLast?_singleton, Option.mem_def, Option.some.injEq] at hx
      simp only [List.head?_cons, Option.mem_def, Option.some.injEq] at hy
      subst hx hy
      rw [hsplit]
      exact hc.1
    · intro hall t ht
      rw [htexts, List.mem_append, List.mem_singleton] at ht
      rcases ht with ht | rfl
      · exact hinv.bounded (fun s hs => hall s (List.mem_append_left _ hs)) t ht
      · exact Nat.le_add_right_of_le (hall _ (List.mem_append_right _ (List.mem_singleton_self _)))
  · rw [if_neg hc] at htexts
    by_cases h0 : st.currentSection = []
    · -- the sentence opens the first section
      rw [if_pos h0] at htexts
      obtain ⟨_, hdone⟩ := texts_of_start maxSectionLength done st hinv h0
      have hcur : (splitStep text maxSectionLength st raw).currentSection = jsTrim raw := by
        unfold splitStep
        simp [if_neg hc, h0]
      refine ⟨?_, ?_, ?_, ?_, ?_, ?_⟩
      · intro h
        rw [hcur] at h
        exact absurd h hs
      · intro _
        rw [hcur]
        exact hsent.1
      · rw [htexts, hdone]
        simp [hsplit]
      · intro t ht
        rw [htexts, List.mem_singleton] at ht
        rw [ht]
        exact hs
      · rw [htexts]
        exact List.chain'_singleton _
      · intro hall t ht
        rw [htexts, List.mem_singleton] at ht
        rw [ht]
        exact Nat.le_add_right_of_le
          (hall _ (List.mem_append_right _ (List.mem_singleton_self _)))
    · -- the sentence is appended to the open section
      rw [if_neg h0] at htexts
      have hpos : st.currentSection.length > 0 := List.length_pos.2 h0
      have hfit : st.currentSection.length + (jsTrim raw).length ≤ maxSectionLength := by
        by_contra hlt
        exact hc ⟨Nat.lt_of_not_le hlt, hpos⟩
      have hcur : (splitStep text maxSectionLength st raw).currentSection
          = st.currentSection ++ ['.', ' '] ++ jsTrim raw := by
        unfold splitStep
        simp only [if_neg hc, if_pos hpos]
      have hsp : splitOnSeparator (st.currentSection ++ ['.', ' '] ++ jsTrim raw)
          = splitOnSeparator st.currentSection ++ [jsTrim raw] := by
        rw [List.append_assoc]
        show splitOnSeparator (st.currentSection ++ '.' :: ' ' :: jsTrim raw) = _
        rw [splitOnSeparator_append, hsplit]
      have hold := texts_of_open st h0
      refine ⟨?_, ?_, ?_, ?_, ?_, ?_⟩
      · intro h
        rw [hcur] at h
        simp at h
      · intro _
        rw [hcur]
        exact (hinv.trimmed h0).append hsent.1 _
      · rw [htexts, flatMap_splitOnSeparator_append, hsp, ← List.append_assoc,
          ← flatMap_splitOnSeparator_append, ← hold, hinv.pieces]
      · intro t ht
        rw [htexts, List.mem_append, List.mem_singleton] at ht
        rcases ht with ht | rfl
        · exact hinv.nonempty t (by rw [hold]; exact List.mem_append_left _ ht)
        · simp
      · have hg := hinv.greedy
        rw [hold, List.chain'_append] at hg
        rw [htexts, List.chain'_append]
        refine ⟨hg.1, List.chain'_singleton _, ?_⟩
        intro x hx y hy
        simp only [List.head?_cons, Option.mem_def, Option.some.injEq] at hy
        subst hy
        have := hg.2.2 x hx st.currentSection (by simp)
        rw [hsp]
        cases hsc : splitOnSeparator st.currentSection with
        | nil => exact absurd hsc (splitOnSeparator_ne_nil _)
        | cons p ps =>
          rw [hsc] at this
          simpa using this
      · intro hall t ht
        rw [htexts, List.mem_append, List.mem_singleton] at ht
        rcases ht with ht | rfl
        · exact hinv.bounded (fun s hs => hall s (List.mem_append_left _ hs)) t
            (by rw [hold]; exact List.mem_append_left _ ht)
        · simp only [List.length_append, List.length_cons, List.length_nil]
          omega

theorem splitInv_foldl (text : List Char) (maxSectionLength : Nat) (raws : List (List Char)) :
    ∀ (done : List (List Char)) (st : SplitState), SplitInv maxSectionLength done st →
      (∀ raw ∈ raws, IsSentence (jsTrim raw)) →
      SplitInv maxSectionLength (done ++ raws.map jsTrim)
        (raws.foldl (splitStep text maxSectionLength) st) := by
  induction raws with
  | nil =>
    intro done st hinv _
    simpa using hinv
  | cons raw raws ih =>
    intro done st hinv hall
    have h1 := splitInv_step text maxSectionLength done st hinv raw
      (hall raw (List.mem_cons_self _ _))
    have h2 := ih _ _ h1 fun r hr => hall r (List.mem_cons_of_mem _ hr)
    simpa [List.foldl_cons, List.append_assoc] using h2

theorem splitInv_initial (maxSectionLength : Nat) :
    SplitInv maxSectionLength [] ⟨[], [], 0⟩ := by
  refine ⟨fun _ => rfl, fun h => absurd rfl h, rfl, ?_, ?_, ?_⟩
  · intro t ht
    simp [SplitState.texts] at ht
  · simp [SplitState.texts]
  · intro _ t ht
    simp [SplitState.texts] at ht

/-- The texts of the sections that `splitTextIntoSections` returns are the
texts of a state that satisfies the invariant for all sentences of the text. -/
theorem splitTextIntoSections_inv (text : String) (maxSectionLength : Nat) :
    ∃ st, SplitInv maxSectionLength ((sentencesOf text.data).map jsTrim) st ∧
      (splitTextIntoSections text maxSectionLength).map (fun s => s.text.data) = st.texts := by
  refine ⟨(sentencesOf text.data).foldl (splitStep text.data maxSectionLength) ⟨[], [], 0⟩,
    ?_, ?_⟩
  · have := splitInv_foldl text.data maxSectionLength (sentencesOf text.data) [] _
      (splitInv_initial maxSectionLength) (fun raw hraw => isSentence_of_mem text.data raw hraw)
    simpa using this
  · have hinv := splitInv_foldl text.data maxSectionLength (sentencesOf text.data) [] _
      (splitInv_initial maxSectionLength) (fun raw hraw => isSentence_of_mem text.data raw hraw)
    unfold splitTextIntoSections
    simp only
    by_cases h0 : ((sentencesOf text.data).foldl (splitStep text.data maxSectionLength)
        ⟨[], [], 0⟩).currentSection = []
    · have hlen : ¬ ((sentencesOf text.data).foldl (splitStep text.data maxSectionLength)
          ⟨[], [], 0⟩).currentSection.length > 0 := by
        rw [h0]; simp
      rw [if_neg hlen]
      unfold SplitState.texts
      rw [if_pos h0, List.append_nil]
    · have hlen : ((sentencesOf text.data).foldl (splitStep text.data maxSectionLength)
          ⟨[], [], 0⟩).currentSection.length > 0 := List.length_pos.2 h0
      rw [if_pos hlen, texts_of_open _ h0]
      simp only [List.map_append, List.map_cons, List.map_nil, closeSection,
        (hinv.trimmed h0).trim_self]

/-- Cutting at every run of terminators and cutting at every terminator give
the same fragments, apart from empty ones. -/
theorem splitAux_splitOnP (nb : List Char → Bool) (hnb : nb [] = false) (l : List Char) :
    (∃ h t1 t2, splitAux false l = h :: t1 ∧ l.splitOnP isTerminator = h :: t2 ∧
      t1.filter nb = t2.filter nb) ∧
    (splitAux true l).filter nb = (l.splitOnP isTerminator).filter nb := by
  induction l with
  | nil => exact ⟨⟨[], [], [], rfl, rfl, rfl⟩, rfl⟩
  | cons a l ih =>
    obtain ⟨⟨h, t1, t2, h1, h2, h3⟩, h4⟩ := ih
    by_cases ht : isTerminator a = true
    · refine ⟨⟨[], splitAux true l, l.splitOnP isTerminator, ?_, ?_, h4⟩, ?_⟩
      · simp [splitAux, ht]
      · simp [List.splitOnP_cons, ht]
      · simp [splitAux, List.splitOnP_cons, ht, h4, hnb]
    · refine ⟨⟨a :: h, t1, t2, ?_, ?_, h3⟩, ?_⟩
      · simp [splitAux, ht, h1]
      · simp [List.splitOnP_cons, ht, h2, List.modifyHead]
      · simp [splitAux, List.splitOnP_cons, ht, h1, h2, List.modifyHead, List.filter_cons, h3]

theorem fragmentsOf_eq (text : List Char) :
    fragmentsOf text = (sentencesOf text).map jsTrim := by
  unfold fragmentsOf sentencesOf splitSentences
  rw [List.filter_map]
  congr 1
  obtain ⟨⟨h, t1, t2, h1, h2, h3⟩, _⟩ :=
    splitAux_splitOnP (fun s => decide ((jsTrim s).length > 0)) (by decide) text
  have hcongr : (l : List (List Char)) →
      l.filter ((fun s => decide (s ≠ [])) ∘ jsTrim)
        = l.filter fun s => decide ((jsTrim s).length > 0) := by
    intro l
    apply List.filter_congr
    intro s _
    simp [List.length_pos]
  rw [hcongr, h1, h2, List.filter_cons, List.filter_cons, h3]

/-- C23: `splitTextIntoSections` is greedy. For every text and limit, of every
two consecutive sections that it returns, the length of the text of the
earlier one plus the length of the first sentence of the later one exceeds
`maxSectionLength`: a section is closed only when the next sentence does not
fit. -/
theorem sections_are_greedy (text : String) (maxSectionLength : Nat) :
    (splitTextIntoSections text maxSectionLength).Chain' fun a b =>
      a.text.length + (firstSentence b.text).length > maxSectionLength := by
  obtain ⟨st, hinv, htexts⟩ := splitTextIntoSections_inv text maxSectionLength
  have h := hinv.greedy
  rw [← htexts, List.chain'_map] at h
  exact h

/-- C24: `splitTextIntoSections` loses and duplicates nothing. For every text
and limit, the pieces of the section texts between the separators `'. '`,
taken in order, are exactly the trimmed non-blank fragments of the text between
its terminators `.`, `!` and `?`; no section has an empty text; and a text
without a non-blank fragment gives no section. -/
theorem sections_keep_every_sentence (text : String) (maxSectionLength : Nat) :
    ((splitTextIntoSections text maxSectionLength).flatMap fun s =>
      splitOnSeparator s.text.data) = fragmentsOf text.data ∧
    (∀ s ∈ splitTextIntoSections text maxSectionLength, s.text ≠ "") ∧
    (fragmentsOf text.data = [] → splitTextIntoSections text maxSectionLength = []) := by
  obtain ⟨st, hinv, htexts⟩ := splitTextIntoSections_inv text maxSectionLength
  have hflat : ((splitTextIntoSections text maxSectionLength).flatMap fun s =>
      splitOnSeparator s.text.data) = fragmentsOf text.data := by
    rw [fragmentsOf_eq, ← hinv.pieces, ← htexts, List.flatMap_map]
  refine ⟨hflat, ?_, ?_⟩
  · intro s hs h0
    have := hinv.nonempty s.text.data (by rw [← htexts]; exact List.mem_map_of_mem _ hs)
    rw [h0] at this
    exact this rfl
  · intro h0
    rw [h0] at hflat
    cases hsec : splitTextIntoSections text maxSectionLength with
    | nil => rfl
    | cons s l =>
      rw [hsec, List.flatMap_cons] at hflat
      have := splitOnSeparator_ne_nil s.text.data
      cases hsp : splitOnSeparator s.text.data with
      | nil => exact absurd hsp this
      | cons p ps => rw [hsp] at hflat; simp at hflat

/-- C25: for every text in which every trimmed sentence has at most
`maxSectionLength` characters, the text of every section that
`splitTextIntoSections` returns has at most `maxSectionLength + 2` characters. -/
theorem section_length_bound (text : String) (maxSectionLength : Nat)
    (h : ∀ s ∈ fragmentsOf text.data, s.length ≤ maxSectionLength) :
    ∀ s ∈ splitTextIntoSections text maxSectionLength,
      s.text.length ≤ maxSectionLength + 2 := by
  obtain ⟨st, hinv, htexts⟩ := splitTextIntoSections_inv text maxSectionLength
  intro s hs
  rw [fragmentsOf_eq] at h
  exact hinv.bounded h s.text.data (by rw [← htexts]; exact List.mem_map_of_mem _ hs)

/-- Witness for C25: the two sentences of `ab.cd` have two characters each;
with the limit 4 they form one section, `ab. cd`, of 4 + 2 characters. -/
theorem section_length_bound_witness :
    (∀ s ∈ fragmentsOf twoShortSentences.data, s.length ≤ 4) ∧
    (splitTextIntoSections twoShortSentences 4).map (fun s => s.text) = ["ab. cd"] ∧
    ∀ s ∈ splitTextIntoSections twoShortSentences 4, s.text.length ≤ 4 + 2 :=
  ⟨by decide, by decide, section_length_bound twoShortSentences 4 (by decide)⟩

/-! ## Rounding and thresholds -/

theorem round2_mono {x y : ℚ} (h : x ≤ y) : round2 x ≤ round2 y := by
  unfold round2
  have h100 : (0 : ℚ) < 100 := by norm_num
  split_ifs with hx hy hy
  · have hf : ⌊-y * 100 + 1 / 2⌋ ≤ ⌊-x * 100 + 1 / 2⌋ := Int.floor_mono (by linarith)
    have hq : ((⌊-y * 100 + 1 / 2⌋ : ℤ) : ℚ) ≤ ((⌊-x * 100 + 1 / 2⌋ : ℤ) : ℚ) := by
      exact_mod_cast hf
    have := div_le_div_of_nonneg_right hq h100.le
    linarith
  · have h1 : (0 : ℤ) ≤ ⌊-x * 100 + 1 / 2⌋ := Int.floor_nonneg.2 (by linarith)
    have h2 : (0 : ℤ) ≤ ⌊y * 100 + 1 / 2⌋ := Int.floor_nonneg.2 (by linarith)
    have q1 : (0 : ℚ) ≤ ((⌊-x * 100 + 1 / 2⌋ : ℤ) : ℚ) := by exact_mod_cast h1
    have q2 : (0 : ℚ) ≤ ((⌊y * 100 + 1 / 2⌋ : ℤ) : ℚ) := by exact_mod_cast h2
    have d1 := div_nonneg q1 h100.le
    have d2 := div_nonneg q2 h100.le
    linarith
  · linarith
  · have hf : ⌊x * 100 + 1 / 2⌋ ≤ ⌊y * 100 + 1 / 2⌋ := Int.floor_mono (by linarith)
    have hq : ((⌊x * 100 + 1 / 2⌋ : ℤ) : ℚ) ≤ ((⌊y * 100 + 1 / 2⌋ : ℤ) : ℚ) := by
      exact_mod_cast hf
    exact div_le_div_of_nonneg_right hq h100.le

theorem round2_25 : round2 25 = 25 := by decide!
theorem round2_50 : round2 50 = 50 := by decide!

/-- The severity rank of a group with mappings, from its unrounded percentage. -/
theorem gapRank_gapStatus (g : List JoinRow) (p : ℚ) (hp : alignmentExpr g = some p)
    (hc : countMappingIds g ≠ 0) :
    gapStatus g = (if p < 25 then "Critical Gap" else if p < 50 then "Significant Gap"
      else if p < 75 then "Minor Gap" else "Adequate Coverage") ∧
    gapRank (gapStatus g) = if p < 25 then 2 else if p < 50 then 3 else if p < 75 then 4 else 5 := by
  have hs : gapStatus g = (if p < 25 then "Critical Gap" else if p < 50 then "Significant Gap"
      else if p < 75 then "Minor Gap" else "Adequate Coverage") := by
    unfold gapStatus
    rw [if_neg hc, hp]
    simp only [sqlLt, decide_eq_true_eq]
  refine ⟨hs, ?_⟩
  rw [hs]
  split_ifs <;> decide

/-- Every row of the gap-analysis query comes from a group with mappings: its
percentage is the rounded value of an unrounded percentage that decides its
gap status. -/
theorem gap_row_percentage (db : DB) (docIds : List Nat) (row : GapRow)
    (hrow : row ∈ gapAnalysisQuery db docIds) :
    ∃ p, row.alignment_percentage = some (round2 p) ∧
      row.gap_status = (if p < 25 then "Critical Gap" else if p < 50 then "Significant Gap"
        else if p < 75 then "Minor Gap" else "Adequate Coverage") ∧
      gapRank row.gap_status
        = if p < 25 then 2 else if p < 50 then 3 else if p < 75 then 4 else 5 := by
  obtain ⟨g, hg, rfl⟩ := (mem_gapAnalysisQuery _ _ _).1 hrow
  have hc : countMappingIds g.rows ≠ 0 :=
    Nat.pos_iff_ne_zero.1 (report_group_has_mapping db docIds g hg)
  have hp := alignmentExpr_eq g.rows hc
  refine ⟨_, ?_, gapRank_gapStatus g.rows _ hp hc⟩
  show alignmentPercentage g.rows = _
  unfold alignmentPercentage ROUND2
  rw [hp]
  rfl

/-! ## Summary counts -/

theorem two_filters_length {α : Type} (p q : α → Bool) (l : List α)
    (h : ∀ x ∈ l, (p x = true ∧ q x = false) ∨ (p x = false ∧ q x = true)) :
    (l.filter p).length + (l.filter q).length = l.length := by
  induction l with
  | nil => rfl
  | cons a l ih =>
    have ih1 := ih fun x hx => h x (List.mem_cons_of_mem _ hx)
    rcases h a (List.mem_cons_self _ _) with ⟨hp, hq⟩ | ⟨hp, hq⟩ <;>
      simp only [List.filter_cons, hp, hq, if_true, Bool.false_eq_true, if_false,
        List.length_cons] <;> omega

theorem sum_indicator_eq_count (keys : List String) (k0 : String) :
    (keys.map fun k => if k0 == k then 1 else 0).sum = keys.count k0 := by
  induction keys with
  | nil => rfl
  | cons k keys ih =>
    rw [List.map_cons, List.sum_cons, ih, List.count_cons]
    by_cases h : k0 = k
    · simp [h, Nat.add_comm]
    · have h1 : (k0 == k) = false := by simpa using h
      have h2 : (k == k0) = false := by simpa using Ne.symm h
      simp [h1, h2]

/-- Counting the elements of a list by key: when every key is in a list of
distinct keys, the counts per key add up to the length of the list. -/
theorem filters_by_key_sum {α : Type} (f : α → String) (l : List α) (keys : List String)
    (hk : keys.Nodup) (h : ∀ x ∈ l, f x ∈ keys) :
    (keys.map fun k => (l.filter fun x => f x == k).length).sum = l.length := by
  induction l with
  | nil => simp
  | cons a l ih =>
    have ih1 := ih fun x hx => h x (List.mem_cons_of_mem _ hx)
    have ha := h a (List.mem_cons_self _ _)
    have hsplit : (keys.map fun k => ((a :: l).filter fun x => f x == k).length)
        = keys.map fun k => (l.filter fun x => f x == k).length + (if f a == k then 1 else 0) := by
      apply List.map_congr_left
      intro k _
      rw [List.filter_cons]
      split_ifs <;> simp
    have hone : (keys.map fun k => if f a == k then 1 else 0).sum = 1 := by
      rw [sum_indicator_eq_count, List.count_eq_one_of_mem hk ha]
    rw [hsplit, List.sum_map_add, ih1, hone, List.length_cons]

theorem append_ne_empty (s t u : String) (h : s ≠ "") : s ++ t ++ u ≠ "" := by
  intro h0
  have hl := congrArg String.length h0
  rw [String.length_append, String.length_append] at hl
  have hs : s.length ≠ 0 := by
    intro hz
    apply h
    cases s with
    | mk d =>
      have : d = [] := List.length_eq_zero.1 hz
      rw [this]
  have : "".length = 0 := rfl
  omega

/-- C27: every entry of the recommendations report has priority `High` or
`Medium` and a non-empty recommendation text, so the `high_priority` and
`medium_priority` counts of the summary add up to `total_recommendations`. -/
theorem recommendations_have_priority (db : DB) (docIds : List Nat) :
    ∃ report, recommendations db (some docIds) = .json 200 report ∧
      (∀ r ∈ report.recommendations,
        (r.priority = "High" ∨ r.priority = "Medium") ∧ r.recommendation ≠ "") ∧
      report.summary.high_priority + report.summary.medium_priority
        = report.summary.total_recommendations := by
  have hentry : ∀ r ∈ (lowAlignmentDomains db docIds).map recommend,
      (r.priority = "High" ∨ r.priority = "Medium") ∧ r.recommendation ≠ "" := by
    intro r hr
    obtain ⟨d, hd, rfl⟩ := List.mem_map.1 hr
    obtain ⟨_, hhaving⟩ := mem_lowAlignmentDomains db docIds d hd
    unfold recommend
    simp only
    by_cases h0 : d.total_mappings = 0
    · rw [if_pos h0]
      exact ⟨Or.inl rfl, append_ne_empty _ _ _ (by decide)⟩
    · rw [if_neg h0]
      have hlt : sqlLt d.alignment_percentage 50 = true := by
        simpa [h0] using hhaving
      cases hp : d.alignment_percentage with
      | none => rw [hp] at hlt; simp [sqlLt] at hlt
      | some x =>
        rw [hp] at hlt
        have hx : x < 50 := by simpa [sqlLt] using hlt
        by_cases h25 : x < 25
        · have : jsLt (some x) 25 = true := by simpa [jsLt] using h25
          rw [if_pos this]
          exact ⟨Or.inl rfl, append_ne_empty _ _ _ (by decide)⟩
        · have h1 : ¬ jsLt (some x) 25 = true := by simpa [jsLt] using h25
          have h2 : jsLt (some x) 50 = true := by simpa [jsLt] using hx
          rw [if_neg h1, if_pos h2]
          exact ⟨Or.inr rfl, append_ne_empty _ _ _ (by decide)⟩
  refine ⟨_, rfl, hentry, ?_⟩
  apply two_filters_length
  intro r hr
  rcases (hentry r hr).1 with h | h <;> rw [h] <;> decide

/-- C29: every row of the gap-analysis report has one of the five gap
statuses, which are distinct, so the five counts of the summary add up to
`total_domains`. -/
theorem gap_summary_counts_add_up (db : DB) (docIds : List Nat) :
    ∃ report, gapAnalysis db (some docIds) = .json 200 report ∧
      (∀ row ∈ report.gap_analysis, row.gap_status ∈
        ["No Coverage", "Critical Gap", "Significant Gap", "Minor Gap",
          "Adequate Coverage"]) ∧
      ["No Coverage", "Critical Gap", "Significant Gap", "Minor Gap",
        "Adequate Coverage"].Nodup ∧
      report.summary.no_coverage + report.summary.critical_gaps
        + report.summary.significant_gaps + report.summary.minor_gaps
        + report.summary.adequate_coverage = report.summary.total_domains := by
  have hstatus : ∀ row ∈ gapAnalysisQuery db docIds, row.gap_status ∈
      ["No Coverage", "Critical Gap", "Significant Gap", "Minor Gap",
        "Adequate Coverage"] := by
    intro row hrow
    obtain ⟨g, _, rfl⟩ := (mem_gapAnalysisQuery _ _ _).1 hrow
    show gapStatus g.rows ∈ _
    unfold gapStatus
    split_ifs <;> simp
  refine ⟨_, rfl, hstatus, by decide, ?_⟩
  show countGapStatus "No Coverage" (gapAnalysisQuery db docIds)
    + countGapStatus "Critical Gap" (gapAnalysisQuery db docIds)
    + countGapStatus "Significant Gap" (gapAnalysisQuery db docIds)
    + countGapStatus "Minor Gap" (gapAnalysisQuery db docIds)
    + countGapStatus "Adequate Coverage" (gapAnalysisQuery db docIds)
    = (gapAnalysisQuery db docIds).length
  have hsum := filters_by_key_sum (fun g : GapRow => g.gap_status) (gapAnalysisQuery db docIds)
    ["No Coverage", "Critical Gap", "Significant Gap", "Minor Gap", "Adequate Coverage"]
    (by decide) hstatus
  simp only [List.map_cons, List.map_nil, List.sum_cons, List.sum_nil] at hsum
  unfold countGapStatus
  omega

/-! ## Gap status and the recommendations report -/

theorem mem_mappingRun (first n : Nat) (status : String) (m : Mapping)
    (h : m ∈ mappingRun first n status) :
    m.document_id = 1 ∧ m.domain_id = 1 ∧ m.alignment_status = status := by
  unfold mappingRun at h
  obtain ⟨i, _, rfl⟩ := List.mem_map.1 h
  exact ⟨rfl, rfl, rfl⟩

theorem length_mappingRun (first n : Nat) (status : String) :
    (mappingRun first n status).length = n := by
  simp [mappingRun]

theorem statusCount_mappingRun (first n : Nat) (status status1 : String) :
    statusCount status1 (mappingRun first n status) = if status = status1 then n else 0 := by
  unfold statusCount
  split_ifs with h
  · rw [List.countP_eq_length.2, length_mappingRun]
    intro m hm
    rw [(mem_mappingRun _ _ _ m hm).2.2, h]
    simp
  · rw [List.countP_eq_zero]
    intro m hm
    rw [(mem_mappingRun _ _ _ m hm).2.2]
    simpa using h

theorem roundingDB_wellFormed : roundingDB.wellFormed := by
  refine ⟨by decide, by decide, by decide, by decide, ?_⟩
  intro m hm
  have hd : m.document_id = 1 := by
    rcases List.mem_append.1 hm with h | h
    · exact (mem_mappingRun _ _ _ m h).1
    · exact (mem_mappingRun _ _ _ m h).1
  exact ⟨sampleDocument 1 "policy-a.txt", by decide, hd.symm⟩

theorem roundingDB_mappingsOf :
    mappingsOf roundingDB 1 (some [1]) = roundingDB.mappings := by
  unfold mappingsOf
  rw [List.filter_eq_self]
  intro m hm
  have hd : m.document_id = 1 ∧ m.domain_id = 1 := by
    rcases List.mem_append.1 hm with h | h
    · exact ⟨(mem_mappingRun _ _ _ m h).1, (mem_mappingRun _ _ _ m h).2.1⟩
    · exact ⟨(mem_mappingRun _ _ _ m h).1, (mem_mappingRun _ _ _ m h).2.1⟩
  simp [inDocumentSet, hd.1, hd.2]

theorem roundingDB_counts :
    (mappingsOf roundingDB 1 (some [1])).length = 10001 ∧
    statusCount "fully_aligned" (mappingsOf roundingDB 1 (some [1])) = 0 ∧
    statusCount "partially_aligned" (mappingsOf roundingDB 1 (some [1])) = 10000 := by
  rw [roundingDB_mappingsOf]
  show (mappingRun 0 10000 "partially_aligned" ++ mappingRun 10000 1 "not_aligned").length
      = 10001 ∧
    statusCount "fully_aligned"
      (mappingRun 0 10000 "partially_aligned" ++ mappingRun 10000 1 "not_aligned") = 0 ∧
    statusCount "partially_aligned"
      (mappingRun 0 10000 "partially_aligned" ++ mappingRun 10000 1 "not_aligned") = 10000
  refine ⟨?_, ?_, ?_⟩
  · rw [List.length_append, length_mappingRun, length_mappingRun]
  · have h1 := statusCount_mappingRun 0 10000 "partially_aligned" "fully_aligned"
    have h2 := statusCount_mappingRun 10000 1 "not_aligned" "fully_aligned"
    unfold statusCount at h1 h2 ⊢
    rw [List.countP_append, h1, h2]
    decide
  · have h1 := statusCount_mappingRun 0 10000 "partially_aligned" "partially_aligned"
    have h2 := statusCount_mappingRun 10000 1 "not_aligned" "partially_aligned"
    unfold statusCount at h1 h2 ⊢
    rw [List.countP_append, h1, h2]
    decide

/-- The group of domain Understand in the report queries for document 1 of
`roundingDB`: 10001 mappings, 10000 of them partially aligned. -/
theorem roundingDB_group (g : Group JoinRow) (hg : g ∈ reportGroups roundingDB [1])
    (hcode : g.rep.qd.domain_code = "UNDERSTAND") :
    countMappingIds g.rows = 10001 ∧ alignmentExpr g.rows = some (500000 / 10001) ∧
      alignmentPercentage g.rows = some 50 := by
  rw [reportGroups_eq] at hg
  have hkey := fun r r1 h h1 => reportKey_iff roundingDB roundingDB_wellFormed r r1 h h1
  obtain ⟨hqd, _, _⟩ := group_count roundingDB roundingDB_wellFormed (fun _ => true)
    (some [1]) reportKey hkey g hg (fun _ => true)
  obtain ⟨hc, hs⟩ := group_columns roundingDB roundingDB_wellFormed (fun _ => true)
    (some [1]) reportKey hkey g hg
  have hid : g.rep.qd.id = 1 := by
    have hmem : g.rep.qd ∈ seedDomains := hqd
    simp only [seedDomains, List.mem_cons, List.mem_singleton, List.not_mem_nil,
      or_false] at hmem
    rcases hmem with h | h | h | h | h <;> rw [h] at hcode ⊢ <;> first | rfl | (revert hcode; decide)
  rw [hid] at hc hs
  obtain ⟨hlen, hfull, hpart⟩ := roundingDB_counts
  have hcount : countMappingIds g.rows = 10001 := hc.trans hlen
  have hexpr : alignmentExpr g.rows = some (500000 / 10001) := by
    rw [alignmentExpr_eq g.rows (by rw [hcount]; decide), hs, hs, hfull, hpart, hcount]
    unfold alignmentFormula
    norm_num
  refine ⟨hcount, hexpr, ?_⟩
  unfold alignmentPercentage ROUND2
  rw [hexpr]
  show some (round2 (500000 / 10001)) = some 50
  rw [show round2 (500000 / 10001) = 50 from by decide!]

theorem recommendations_answers (db : DB) (docIds : List Nat) :
    ∃ report, recommendations db (some docIds) = .json 200 report := ⟨_, rfl⟩

theorem mem_recommendations (db : DB) (docIds : List Nat) (report : RecommendationReport)
    (h : recommendations db (some docIds) = .json 200 report) (r : Recommendation) :
    r ∈ report.recommendations ↔ ∃ d ∈ lowAlignmentDomains db docIds, recommend d = r := by
  unfold recommendations at h
  simp only [Response.json.injEq, true_and] at h
  subst h
  exact List.mem_map

/-- C26 (counterexample): in `roundingDB` domain Understand has 10000
partially aligned mappings out of 10001, a percentage of 49.995... The
gap-analysis report for document 1 classifies it as `Significant Gap` and
reports the `alignment_percentage` 50, which is not below 50; and neither the
recommendations report nor the areas-of-concern query of the comprehensive
report returns the domain. -/
theorem significant_gap_not_in_recommendations :
    ∃ row ∈ gapAnalysisQuery roundingDB [1],
      row.domain_code = "UNDERSTAND" ∧ row.gap_status = "Significant Gap" ∧
      row.alignment_percentage = some 50 ∧
      (∃ report, recommendations roundingDB (some [1]) = .json 200 report ∧
        ∀ r ∈ report.recommendations, r.domain_code ≠ "UNDERSTAND") ∧
      ∀ c ∈ reportAreasOfConcern roundingDB [1], c.domain_code ≠ "UNDERSTAND" := by
  have hkey := fun r r1 h h1 => reportKey_iff roundingDB roundingDB_wellFormed r r1 h h1
  have hq : seedDomain 1 "Understand" "UNDERSTAND"
      "Understanding cybersecurity risks and threats" ∈ roundingDB.qc2m2_domains := by
    decide
  obtain ⟨g, hg, hrep⟩ := exists_group_of_mapping roundingDB roundingDB_wellFormed
    (fun _ => true) (some [1]) reportKey hkey _ hq rfl
    (by rw [show (seedDomain 1 "Understand" "UNDERSTAND"
          "Understanding cybersecurity risks and threats").id = 1 from rfl,
          roundingDB_counts.1]; decide)
  rw [← reportGroups_eq] at hg
  have hcode : g.rep.qd.domain_code = "UNDERSTAND" := by rw [hrep]; rfl
  obtain ⟨hcount, hexpr, hpct⟩ := roundingDB_group g hg hcode
  refine ⟨gapRowOf g, (mem_gapAnalysisQuery _ _ _).2 ⟨g, hg, rfl⟩, hcode, ?_, hpct, ?_, ?_⟩
  · have := (gapRank_gapStatus g.rows _ hexpr (by rw [hcount]; decide)).1
    show gapStatus g.rows = _
    rw [this]
    norm_num
  · obtain ⟨report, hreport⟩ := recommendations_answers roundingDB [1]
    refine ⟨report, hreport, ?_⟩
    intro r hr hrc
    obtain ⟨d, hd, hdr⟩ := (mem_recommendations roundingDB [1] report hreport r).1 hr
    obtain ⟨⟨g1, hg1, hgd⟩, hhaving⟩ := mem_lowAlignmentDomains roundingDB [1] d hd
    have hrc1 : g1.rep.qd.domain_code = "UNDERSTAND" := by
      rw [← hrc, ← hdr, ← hgd]
      rfl
    obtain ⟨hcount1, _, hpct1⟩ := roundingDB_group g1 hg1 hrc1
    rw [← hgd] at hhaving
    have h1 : (lowAlignmentRowOf g1).alignment_percentage = some 50 := hpct1
    have h2 : (lowAlignmentRowOf g1).total_mappings = 10001 := hcount1
    rw [h1, h2] at hhaving
    revert hhaving
    decide!
  · intro c hc hcc
    unfold reportAreasOfConcern at hc
    rw [mem_orderBy, List.mem_filter, List.mem_map] at hc
    obtain ⟨⟨g1, hg1, rfl⟩, hhaving⟩ := hc
    obtain ⟨hcount1, _, hpct1⟩ := roundingDB_group g1 hg1 hcc
    have h1 : (coverageRowOf g1).alignment_percentage = some 50 := hpct1
    have h2 : (coverageRowOf g1).total_mappings = 10001 := hcount1
    unfold havingConcern at hhaving
    rw [h1, h2] at hhaving
    revert hhaving
    decide!

/-- C26 (as amended): every domain that the gap-analysis report classifies as
`Critical Gap` or `Significant Gap` has a numeric reported
`alignment_percentage` that is at most the threshold of its gap status (at
most 25 for `Critical Gap`, from 25 to 50 for `Significant Gap`); and when
that reported percentage is below 50, which it always is for `Critical Gap`,
the recommendations report and the areas-of-concern query of the
comprehensive report for the same document set return the domain, with the
same percentage and number of mappings. -/
theorem gap_rows_in_recommendations (db : DB) (docIds : List Nat) (row : GapRow)
    (hrow : row ∈ gapAnalysisQuery db docIds)
    (hgap : row.gap_status = "Critical Gap" ∨ row.gap_status = "Significant Gap") :
    ∃ p, row.alignment_percentage = some p ∧
      (row.gap_status = "Critical Gap" → p ≤ 25) ∧
      (row.gap_status = "Significant Gap" → 25 ≤ p ∧ p ≤ 50) ∧
      (p < 50 →
        (∃ report, recommendations db (some docIds) = .json 200 report ∧
          ∃ r ∈ report.recommendations,
            r.domain_name = row.domain_name ∧ r.domain_code = row.domain_code ∧
            r.description = row.description ∧ r.total_mappings = row.total_mappings ∧
            r.alignment_percentage = row.alignment_percentage) ∧
        ∃ c ∈ reportAreasOfConcern db docIds,
          c.domain_name = row.domain_name ∧ c.domain_code = row.domain_code ∧
          c.description = row.description ∧ c.total_mappings = row.total_mappings ∧
          c.alignment_percentage = row.alignment_percentage) := by
  obtain ⟨q, hq, hstatus, _⟩ := gap_row_percentage db docIds row hrow
  obtain ⟨g, hg, rfl⟩ := (mem_gapAnalysisQuery _ _ _).1 hrow
  have hpct : alignmentPercentage g.rows = some (round2 q) := hq
  refine ⟨round2 q, hq, ?_, ?_, ?_⟩
  · intro hcrit
    rw [hstatus] at hcrit
    have hq25 : q < 25 := by
      by_contra hcon
      rw [if_neg hcon] at hcrit
      split_ifs at hcrit <;> exact absurd hcrit (by decide)
    rw [← round2_25]
    exact round2_mono hq25.le
  · intro hsig
    rw [hstatus] at hsig
    have hq25 : ¬ q < 25 := by
      intro hcon
      rw [if_pos hcon] at hsig
      exact absurd hsig (by decide)
    have hq50 : q < 50 := by
      by_contra hcon
      rw [if_neg hq25, if_neg hcon] at hsig
      split_ifs at hsig <;> exact absurd hsig (by decide)
    constructor
    · rw [← round2_25]
      exact round2_mono (not_lt.1 hq25)
    · rw [← round2_50]
      exact round2_mono hq50.le
  · intro hlt
    have hhaving : sqlLt (alignmentPercentage g.rows) 50 = true := by
      rw [hpct]
      simpa [sqlLt] using hlt
    constructor
    · obtain ⟨report, hreport⟩ := recommendations_answers db docIds
      refine ⟨report, hreport, recommend (lowAlignmentRowOf g), ?_, rfl, rfl, rfl, rfl, rfl⟩
      rw [mem_recommendations db docIds report hreport]
      refine ⟨_, ?_, rfl⟩
      unfold lowAlignmentDomains
      rw [mem_orderBy, List.mem_filter]
      refine ⟨List.mem_map_of_mem _ hg, ?_⟩
      show (sqlLt (alignmentPercentage g.rows) 50 || _) = true
      rw [hhaving]
      rfl
    · refine ⟨coverageRowOf g, ?_, rfl, rfl, rfl, rfl, rfl⟩
      unfold reportAreasOfConcern
      rw [mem_orderBy, List.mem_filter]
      refine ⟨List.mem_map_of_mem _ hg, ?_⟩
      show (sqlLt (alignmentPercentage g.rows) 50 || _) = true
      rw [hhaving]
      rfl

/-- Witness for C26: for document 1 of `thresholdDB` the gap-analysis report
classifies domain Secure, at exactly 25, as `Significant Gap`; the
recommendations report and the areas-of-concern query return it. -/
theorem gap_rows_in_recommendations_witness :
    secureGapRow ∈ gapAnalysisQuery thresholdDB [1] ∧
    secureGapRow.gap_status = "Significant Gap" ∧
    ∃ p, secureGapRow.alignment_percentage = some p ∧
      (secureGapRow.gap_status = "Critical Gap" → p ≤ 25) ∧
      (secureGapRow.gap_status = "Significant Gap" → 25 ≤ p ∧ p ≤ 50) ∧
      (p < 50 →
        (∃ report, recommendations thresholdDB (some [1]) = .json 200 report ∧
          ∃ r ∈ report.recommendations,
            r.domain_name = secureGapRow.domain_name ∧
            r.domain_code = secureGapRow.domain_code ∧
            r.description = secureGapRow.description ∧
            r.total_mappings = secureGapRow.total_mappings ∧
            r.alignment_percentage = secureGapRow.alignment_percentage) ∧
        ∃ c ∈ reportAreasOfConcern thresholdDB [1],
          c.domain_name = secureGapRow.domain_name ∧
          c.domain_code = secureGapRow.domain_code ∧
          c.description = secureGapRow.description ∧
          c.total_mappings = secureGapRow.total_mappings ∧
          c.alignment_percentage = secureGapRow.alignment_percentage) :=
  ⟨by decide!, rfl,
    gap_rows_in_recommendations thresholdDB [1] secureGapRow (by decide!) (Or.inr rfl)⟩

/-! ## The overall score and the per-domain percentages -/

theorem sum_filter_pos {α : Type} (l : List α) (a b : α → ℕ)
    (hab : ∀ x ∈ l, b x = 0 → a x = 0) :
    ((l.filter fun x => decide (0 < b x)).map a).sum = (l.map a).sum := by
  induction l with
  | nil => rfl
  | cons x l ih =>
    have ih1 := ih fun y hy => hab y (List.mem_cons_of_mem _ hy)
    rw [List.filter_cons]
    by_cases hx : 0 < b x
    · simp only [hx, decide_True, if_true, List.map_cons, List.sum_cons, ih1]
    · have h0 : a x = 0 := hab x (List.mem_cons_self _ _) (Nat.eq_zero_of_not_pos hx)
      simp only [hx, decide_False, Bool.false_eq_true, if_false, List.map_cons,
        List.sum_cons, ih1, h0, Nat.zero_add]

/-- Of parts with weights `b` and totals `a`, one part with a positive weight
is at most the weighted mean and one is at least the weighted mean. -/
theorem exists_below_and_above_mean {α : Type} (l : List α) (a b : α → ℕ)
    (hab : ∀ x ∈ l, b x = 0 → a x = 0) (hpos : 0 < (l.map b).sum) :
    (∃ x ∈ l, 0 < b x ∧ a x * (l.map b).sum ≤ (l.map a).sum * b x) ∧
    (∃ y ∈ l, 0 < b y ∧ (l.map a).sum * b y ≤ a y * (l.map b).sum) := by
  have ha := sum_filter_pos l a b hab
  have hb := sum_filter_pos l b b fun _ _ h => h
  have hne : l.filter (fun x => decide (0 < b x)) ≠ [] := by
    intro h
    rw [h] at hb
    simp only [List.map_nil, List.sum_nil] at hb
    omega
  have hsum1 : ((l.filter fun x => decide (0 < b x)).map fun x => a x * (l.map b).sum).sum
      = (l.map a).sum * (l.map b).sum := by
    rw [List.sum_map_mul_right, ha]
  have hsum2 : ((l.filter fun x => decide (0 < b x)).map fun x => (l.map a).sum * b x).sum
      = (l.map a).sum * (l.map b).sum := by
    rw [List.sum_map_mul_left, hb]
  constructor
  · obtain ⟨x, hx, hle⟩ := List.exists_le_of_sum_le hne
      (fun x => a x * (l.map b).sum) (fun x => (l.map a).sum * b x) (by rw [hsum1, hsum2])
    rw [List.mem_filter] at hx
    exact ⟨x, hx.1, by simpa using hx.2, hle⟩
  · obtain ⟨y, hy, hle⟩ := List.exists_le_of_sum_le hne
      (fun x => (l.map a).sum * b x) (fun x => a x * (l.map b).sum) (by rw [hsum1, hsum2])
    rw [List.mem_filter] at hy
    exact ⟨y, hy.1, by simpa using hy.2, hle⟩

/-- The mapping rows of a document set are the mapping rows of its domains:
a count over the set is the sum of the counts over the domains. -/
theorem countP_by_domain (domains : List Domain) (hn : (domains.map fun qd => qd.id).Nodup)
    (Q : Mapping → Bool) (l : List Mapping)
    (hdom : ∀ m ∈ l, Q m = true → ∃ qd ∈ domains, qd.id = m.domain_id) :
    (domains.map fun qd => l.countP fun m => m.domain_id == qd.id && Q m).sum
      = l.countP Q := by
  induction l with
  | nil => simp
  | cons m l ih =>
    have ih1 := ih fun x hx => hdom x (List.mem_cons_of_mem _ hx)
    have hsplit : (domains.map fun qd => (m :: l).countP fun m => m.domain_id == qd.id && Q m)
        = domains.map fun qd => (l.countP fun m => m.domain_id == qd.id && Q m)
            + (if (m.domain_id == qd.id && Q m) = true then 1 else 0) := by
      apply List.map_congr_left
      intro qd _
      rw [List.countP_cons]
    rw [hsplit, List.sum_map_add, ih1, List.countP_cons]
    congr 1
    by_cases hq : Q m = true
    · obtain ⟨qd, hqd, hid⟩ := hdom m (List.mem_cons_self _ _) hq
      rw [sum_map_single domains (fun d : Domain => d.id)
        (fun qd => if (m.domain_id == qd.id && Q m) = true then 1 else 0) qd hqd hn]
      · simp [hid, hq]
      · intro x _ hx
        have : (m.domain_id == x.id) = false := by
          simp only [beq_eq_false_iff_ne, ne_eq]
          intro h
          exact hx (by rw [← h, hid])
        simp [this]
    · have hq1 : Q m = false := by simpa using hq
      simp [hq1]

theorem per_domain_sums (db : DB) (hw : db.wellFormed) (docIds : List Nat)
    (hdom : ∀ m ∈ documentSetMappings db docIds, ∃ qd ∈ db.qc2m2_domains, qd.id = m.domain_id)
    (P : Mapping → Bool) :
    (db.qc2m2_domains.map fun qd => (mappingsOf db qd.id (some docIds)).countP P).sum
      = (documentSetMappings db docIds).countP P := by
  rw [← countP_by_domain db.qc2m2_domains hw.1 P (documentSetMappings db docIds)
    fun m hm _ => hdom m hm]
  congr 1
  apply List.map_congr_left
  intro qd _
  unfold mappingsOf documentSetMappings
  rw [List.countP_filter, List.countP_filter]
  apply List.countP_congr
  intro m _
  simp only [inDocumentSet, Bool.and_eq_true, beq_iff_eq]
  tauto

theorem alignmentFormula_le (f p t f1 p1 t1 : ℕ) (ht : 0 < t) (ht1 : 0 < t1)
    (h : (2 * f + p) * t1 ≤ (2 * f1 + p1) * t) :
    alignmentFormula f p t ≤ alignmentFormula f1 p1 t1 := by
  unfold alignmentFormula
  have hq : (0 : ℚ) < t := by exact_mod_cast ht
  have hq1 : (0 : ℚ) < t1 := by exact_mod_cast ht1
  rw [div_le_div_iff₀ hq hq1]
  have hc : ((2 * f + p : ℕ) : ℚ) * (t1 : ℚ) ≤ ((2 * f1 + p1 : ℕ) : ℚ) * (t : ℚ) := by
    exact_mod_cast h
  push_cast at hc
  nlinarith

/-- The score that the handler of the comprehensive report computes lies
between two of the percentages of its `domainCoverage` rows: it is the rounded
weighted mean of the unrounded per-domain percentages. -/
theorem overall_score_between_domain_percentages (db : DB) (hw : db.wellFormed)
    (docIds : List Nat)
    (hdom : ∀ m ∈ documentSetMappings db docIds, ∃ qd ∈ db.qc2m2_domains, qd.id = m.domain_id)
    (hpos : 0 < (documentSetMappings db docIds).length) :
    ∃ lo ∈ reportDomainCoverage db docIds, ∃ hi ∈ reportDomainCoverage db docIds,
      ∃ x y, lo.alignment_percentage = some x ∧ hi.alignment_percentage = some y ∧
        x ≤ overallAlignmentScore (detailedMappings db docIds) ∧
        overallAlignmentScore (detailedMappings db docIds) ≤ y := by
  have hlen := per_domain_sums db hw docIds hdom fun _ => true
  have hfull := per_domain_sums db hw docIds hdom fun m => m.alignment_status == "fully_aligned"
  have hpart := per_domain_sums db hw docIds hdom
    fun m => m.alignment_status == "partially_aligned"
  simp only [List.countP_true] at hlen
  have hsumb : (db.qc2m2_domains.map fun qd => (mappingsOf db qd.id (some docIds)).length).sum
      = (documentSetMappings db docIds).length := hlen
  have hsuma : (db.qc2m2_domains.map fun qd =>
        2 * statusCount "fully_aligned" (mappingsOf db qd.id (some docIds))
          + statusCount "partially_aligned" (mappingsOf db qd.id (some docIds))).sum
      = 2 * statusCount "fully_aligned" (documentSetMappings db docIds)
          + statusCount "partially_aligned" (documentSetMappings db docIds) := by
    rw [List.sum_map_add, List.sum_map_mul_left]
    unfold statusCount
    rw [hfull, hpart]
  obtain ⟨⟨qlo, hqlo, hlopos, hlo⟩, ⟨qhi, hqhi, hhipos, hhi⟩⟩ :=
    exists_below_and_above_mean db.qc2m2_domains
      (fun qd => 2 * statusCount "fully_aligned" (mappingsOf db qd.id (some docIds))
        + statusCount "partially_aligned" (mappingsOf db qd.id (some docIds)))
      (fun qd => (mappingsOf db qd.id (some docIds)).length)
      (by
        intro qd _ h0
        have h1 := statusCount_le_length "fully_aligned" (mappingsOf db qd.id (some docIds))
        have h2 := statusCount_le_length "partially_aligned"
          (mappingsOf db qd.id (some docIds))
        have h0' : (mappingsOf db qd.id (some docIds)).length = 0 := h0
        show 2 * statusCount "fully_aligned" (mappingsOf db qd.id (some docIds))
          + statusCount "partially_aligned" (mappingsOf db qd.id (some docIds)) = 0
        omega)
      (by rw [hsumb]; exact hpos)
  rw [hsuma, hsumb] at hlo hhi
  have hkey := fun r r1 h h1 => reportKey_iff db hw r r1 h h1
  have hrow : ∀ qd ∈ db.qc2m2_domains, 0 < (mappingsOf db qd.id (some docIds)).length →
      ∃ row ∈ reportDomainCoverage db docIds,
        row.alignment_percentage = some (round2 (alignmentFormula
          (statusCount "fully_aligned" (mappingsOf db qd.id (some docIds)))
          (statusCount "partially_aligned" (mappingsOf db qd.id (some docIds)))
          (mappingsOf db qd.id (some docIds)).length)) := by
    intro qd hqd hqpos
    obtain ⟨g, hg, hrep⟩ := exists_group_of_mapping db hw (fun _ => true) (some docIds)
      reportKey hkey qd hqd rfl hqpos
    have hcols := group_columns db hw (fun _ => true) (some docIds) reportKey hkey g hg
    rw [← reportGroups_eq] at hg
    refine ⟨coverageRowOf g, (mem_reportDomainCoverage _ _ _).2 ⟨g, hg, rfl⟩, ?_⟩
    show alignmentPercentage g.rows = _
    rw [alignmentPercentage_eq g.rows (by rw [hcols.1, hrep]; omega), hcols.1, hcols.2,
      hcols.2, hrep]
  obtain ⟨lo, hlomem, hlopct⟩ := hrow qlo hqlo hlopos
  obtain ⟨hi, hhimem, hhipct⟩ := hrow qhi hqhi hhipos
  refine ⟨lo, hlomem, hi, hhimem, _, _, hlopct, hhipct, ?_, ?_⟩
  · rw [overallAlignmentScore_eq db hw docIds, if_pos hpos]
    exact round2_mono (alignmentFormula_le _ _ _ _ _ _ hlopos hpos hlo)
  · rw [overallAlignmentScore_eq db hw docIds, if_pos hpos]
    exact round2_mono (alignmentFormula_le _ _ _ _ _ _ hpos hhipos hhi)

/-- C28 (code evaluated at the failing input): for document 1 of `thresholdDB`,
whose 14 mappings all refer to existing domains, the handler of GET
/comprehensive computes the `domainCoverage` percentages 75, 25 and 16.67 and
the overall score 35.71, which lies between them; evaluating the `report`
literal then reads the undeclared identifier `total_mappings`, and the answer
is status 500 without a report. -/
theorem comprehensive_score_is_computed_but_not_sent :
    (reportDomainCoverage thresholdDB [1]).map (fun r => r.alignment_percentage)
      = [some 75, some 25, some (1667 / 100)] ∧
    overallAlignmentScore (detailedMappings thresholdDB [1]) = 3571 / 100 ∧
    referenceError comprehensiveBound comprehensiveReads = some "total_mappings" ∧
    comprehensive thresholdDB (some [1])
      = .error 500 "Failed to generate comprehensive report" := by
  refine ⟨by decide!, by decide!, ?_, ?_⟩
  · exact (comprehensive_answers_500 thresholdDB [1]).1
  · exact (comprehensive_answers_500 thresholdDB [1]).2

theorem gapOrder_iff (a b : GapRow) :
    gapOrder a b = true ↔
      gapRank a.gap_status < gapRank b.gap_status ∨
        (gapRank a.gap_status = gapRank b.gap_status ∧
          nullsFirstLe a.alignment_percentage b.alignment_percentage = true) := by
  unfold gapOrder
  simp only [Bool.or_eq_true, Bool.and_eq_true, decide_eq_true_eq, beq_iff_eq]

theorem gapOrder_total (a b : GapRow) : gapOrder a b = true ∨ gapOrder b a = true := by
  rw [gapOrder_iff, gapOrder_iff]
  rcases Nat.lt_trichotomy (gapRank a.gap_status) (gapRank b.gap_status) with h | h | h
  · exact Or.inl (Or.inl h)
  · rcases nullsFirstLe_total a.alignment_percentage b.alignment_percentage with h1 | h1
    · exact Or.inl (Or.inr ⟨h, h1⟩)
    · exact Or.inr (Or.inr ⟨h.symm, h1⟩)
  · exact Or.inr (Or.inl h)

theorem gapOrder_trans (a b c : GapRow) (hab : gapOrder a b = true)
    (hbc : gapOrder b c = true) : gapOrder a c = true := by
  rw [gapOrder_iff] at hab hbc ⊢
  rcases hab with h1 | ⟨h1, n1⟩
  · rcases hbc with h2 | ⟨h2, _⟩
    · exact Or.inl (h1.trans h2)
    · exact Or.inl (h2 ▸ h1)
  · rcases hbc with h2 | ⟨h2, n2⟩
    · exact Or.inl (h1 ▸ h2)
    · exact Or.inr ⟨h1.trans h2, nullsFirstLe_trans _ _ _ n1 n2⟩

/-- C30: the rows of the gap-analysis report are ordered by severity rank
(No Coverage, Critical Gap, Significant Gap, Minor Gap, Adequate Coverage) and,
within a rank, by `alignment_percentage`; and of two rows with a numeric
`alignment_percentage` the later one never has the smaller percentage. -/
theorem gap_analysis_rows_ordered (db : DB) (docIds : List Nat) :
    (["No Coverage", "Critical Gap", "Significant Gap", "Minor Gap",
      "Adequate Coverage"].map gapRank = [1, 2, 3, 4, 5]) ∧
    (gapAnalysisQuery db docIds).Pairwise (fun a b =>
      gapRank a.gap_status < gapRank b.gap_status ∨
        (gapRank a.gap_status = gapRank b.gap_status ∧
          nullsFirstLe a.alignment_percentage b.alignment_percentage = true)) ∧
    (gapAnalysisQuery db docIds).Pairwise (fun a b =>
      ∀ x y, a.alignment_percentage = some x → b.alignment_percentage = some y → x ≤ y) := by
  have hsorted : (gapAnalysisQuery db docIds).Pairwise (fun a b => gapOrder a b = true) :=
    orderBy_pairwise gapOrder gapOrder_total gapOrder_trans _
  refine ⟨by decide, hsorted.imp fun h => (gapOrder_iff _ _).1 h, ?_⟩
  refine hsorted.imp_of_mem ?_
  intro a b ha hb hab x y hx hy
  obtain ⟨p, hp, _, hrp⟩ := gap_row_percentage db docIds a ha
  obtain ⟨q, hq, _, hrq⟩ := gap_row_percentage db docIds b hb
  rw [hx, Option.some.injEq] at hp
  rw [hy, Option.some.injEq] at hq
  rcases (gapOrder_iff a b).1 hab with hlt | ⟨_, hle⟩
  · rw [hrp, hrq] at hlt
    have hpq : p ≤ q := by
      by_contra hcon
      have hqp : q < p := lt_of_not_le hcon
      split_ifs at hlt <;> first | omega | linarith
    rw [hp, hq]
    exact round2_mono hpq
  · rw [hx, hy] at hle
    simpa [nullsFirstLe] using hle

end QC2M2
